import Mathlib

/-!
# Concourse: build step execution (`atc/exec`), access-token cache (`atc/api/accessor`),
policy checker (`atc/policy`) and Prometheus emitter (`atc/metric/emitter`)

A shallow embedding of `OnAbortStep` (`atc/exec/on_abort.go`), of the `ClaimsCacher`
exercised by `atc/api/accessor/claims_cacher_test.go`, of the policy `Checker`
exercised by `atc/policy/checker_test.go` and of the `PrometheusEmitter`
(`atc/metric/emitter/prometheus.go`), of the counterfeiter fake `FakeTaskDelegate`
(`atc/exec/execfakes/fake_task_delegate.go`) and of the migration `Down_1516643303`
(`atc/db/migration/migrations`), with the properties proved about them.

Go values are embedded as follows.

* `error` is `Option GoError`; `nil` is `none`.
* `context.Context` is the record of what a step can observe of it: `Err()` and
  `Deadline()`.
* A `Step` is its `Run` method.  Go passes the `RunState` by reference, so `Run`
  here takes the contents of the state and returns the contents it leaves behind.
* Every `Run` invocation made by a combinator is recorded in `calls`, in order,
  the way the counterfeiter fakes record `RunCallCount`/`RunArgsForCall`.
* That a step is invoked, and with what, is stated over what the invocation
  computes: the state `Run` leaves is the state the invoked step leaves, and a step
  that records its own invocations in the state (`recording`, `contextProbe`) has
  recorded them.
-/

namespace Concourse

/-! ## Errors and contexts -/

/-- Go error values: the two sentinels of package `context`, an error made by
`errors.New`, an error wrapping another one (`fmt.Errorf("...: %w", inner)`),
whose `Unwrap` returns `inner`, an error joining two others (`errors.Join(a, b)`),
whose `Unwrap` returns both, and an error of a type with a method `Is(target)` that
answers true for one given target. -/
inductive GoError where
  | Canceled : GoError
  | DeadlineExceeded : GoError
  | New (msg : String) : GoError
  | Wrap (msg : String) (inner : GoError) : GoError
  | Join (a : GoError) (b : GoError) : GoError
  | Matching (msg : String) (target : GoError) : GoError
  deriving DecidableEq, Repr

/-- The function `errors.Is(err, target)` for a non-nil `err`: walk the errors that
`err` unwraps to, depth first, and report whether one of them equals `target` or has
an `Is` method that answers true for `target`. -/
def errorsIs : GoError → GoError → Bool
  | GoError.Wrap msg inner, target =>
      decide (GoError.Wrap msg inner = target) || errorsIs inner target
  | GoError.Join a b, target =>
      decide (GoError.Join a b = target) || errorsIs a target || errorsIs b target
  | GoError.Matching msg t, target =>
      decide (GoError.Matching msg t = target) || decide (t = target)
  | e, target => decide (e = target)

/-- What a step observes of a `context.Context`: `Err()` (nil until the context is
done, then `context.Canceled` or `context.DeadlineExceeded`) and `Deadline()`. -/
structure Context where
  Err : Option GoError
  Deadline : Option Nat
  deriving DecidableEq, Repr

/-- The context `context.Background()`: never cancelled, no deadline. -/
def Context.Background : Context := { Err := none, Deadline := none }

/-! ## RunState and steps -/

/-- Modelled from the spec: the `RunState` type, declared outside `on_abort.go`.
It holds an artifact mapping (name to artifact handle) and a result mapping
(step id to last outcome); later entries are older. -/
structure RunState where
  artifacts : List (String × String)
  results : List (String × String)
  deriving DecidableEq, Repr

/-- Modelled from the spec: `StoreArtifact(name, handle)`, last write wins. -/
def RunState.StoreArtifact (s : RunState) (name handle : String) : RunState :=
  { s with artifacts := (name, handle) :: s.artifacts }

/-- Modelled from the spec: `Artifact(name) -> (handle, found)`. -/
def RunState.Artifact (s : RunState) (name : String) : Option String :=
  (s.artifacts.find? (fun p => p.1 == name)).map Prod.snd

/-- Modelled from the spec: `StoreResult(id, outcome)`, last write wins. -/
def RunState.StoreResult (s : RunState) (id outcome : String) : RunState :=
  { s with results := (id, outcome) :: s.results }

/-- Modelled from the spec: `Result(id) -> (outcome, found)`. -/
def RunState.Result (s : RunState) (id : String) : Option String :=
  (s.results.find? (fun p => p.1 == id)).map Prod.snd

/-- What one `Step.Run(ctx, state)` call yields: the returned `(ok, err)` pair and
the contents of the `RunState` once the call has returned. -/
structure StepResult where
  ok : Bool
  err : Option GoError
  state : RunState
  deriving DecidableEq, Repr

/-- The `Step` interface: `Run(ctx, state) (bool, error)`. -/
structure Step where
  Run : Context → RunState → StepResult

/-- One recorded `Run` invocation: which child was run, and the context and state
contents it was handed. -/
inductive Call where
  | step (ctx : Context) (state : RunState) : Call
  | hook (ctx : Context) (state : RunState) : Call
  deriving DecidableEq, Repr

/-- Is the recorded call a call of the hook? -/
def Call.isHook : Call → Bool
  | Call.hook _ _ => true
  | Call.step _ _ => false

/-- The context a recorded call was handed. -/
def Call.ctx : Call → Context
  | Call.hook c _ => c
  | Call.step c _ => c

/-- The state contents a recorded call was handed. -/
def Call.state : Call → RunState
  | Call.hook _ s => s
  | Call.step _ s => s

/-- What a combinator's `Run` yields: the returned `(ok, err)`, the contents of the
caller's `RunState` afterwards, and the child invocations made, in order. -/
structure RunOutcome where
  ok : Bool
  err : Option GoError
  state : RunState
  calls : List Call
  deriving DecidableEq, Repr

/-- Was the hook invoked during the run? -/
def RunOutcome.hookRan (out : RunOutcome) : Bool := out.calls.any Call.isHook

/-! ## OnAbortStep (`atc/exec/on_abort.go`) -/

/-- The struct `OnAbortStep`: runs one step, and then a second step if the first
step aborts (but not errors). -/
structure OnAbortStep where
  step : Step
  hook : Step

/-- The constructor `OnAbort(step, hook)`. -/
def OnAbort (step : Step) (hook : Step) : OnAbortStep :=
  { step := step, hook := hook }

/-- The method `OnAbortStep.Run(ctx, state)`. -/
def OnAbortStep.Run (o : OnAbortStep) (ctx : Context) (state : RunState) : RunOutcome :=
  let r := o.step.Run ctx state
  match r.err with
  | none =>
      { ok := r.ok, err := none, state := r.state, calls := [Call.step ctx state] }
  | some stepRunErr =>
      if errorsIs stepRunErr GoError.Canceled then
        -- run only on abort, not timeout; the hook's results are discarded
        let h := o.hook.Run Context.Background r.state
        { ok := r.ok, err := some stepRunErr, state := h.state,
          calls := [Call.step ctx state, Call.hook Context.Background r.state] }
      else
        { ok := r.ok, err := some stepRunErr, state := r.state,
          calls := [Call.step ctx state] }

/-! ### Sample steps and inputs -/

/-- A step that leaves the state alone and returns the given pair. -/
def returning (ok : Bool) (err : Option GoError) : Step :=
  { Run := fun _ s => { ok := ok, err := err, state := s } }

/-- A task that honours cancellation: it fails with the error of its context when the
context is done, and succeeds otherwise. -/
def cancellable : Step :=
  { Run := fun ctx s => { ok := ctx.Err.isNone, err := ctx.Err, state := s } }

/-- A cleanup hook that stores an artifact, records its result, and returns the
given pair. -/
def cleanup (ok : Bool) (err : Option GoError) : Step :=
  { Run := fun _ s =>
      { ok := ok, err := err,
        state := (s.StoreArtifact "cleanup" "done").StoreResult "cleanup" "ran" } }

/-- The empty `RunState` of a fresh build. -/
def emptyState : RunState := { artifacts := [], results := [] }

/-- A context cancelled by an operator abort. -/
def abortedCtx : Context := { Err := some GoError.Canceled, Deadline := none }

/-- A context whose deadline (set by a `Timeout` step) has passed. -/
def timedOutCtx : Context := { Err := some GoError.DeadlineExceeded, Deadline := some 30 }

/-! ## ClaimsCacher (`atc/api/accessor`)

The cacher is the access-token LRU cache in front of an `AccessTokenFetcher`; its
behaviour is the one `claims_cacher_test.go` pins down. -/

/-- Modelled from the spec: the type `db.Claims`, with the two fields the test sets. -/
structure Claims where
  Username : String
  RawClaims : List (String × String)
  deriving DecidableEq, Repr

/-- Modelled from the spec: the type `db.AccessToken`, with the field the test sets. -/
structure AccessToken where
  Claims : Claims
  deriving DecidableEq, Repr

/-- Modelled from the spec: the triple `(db.AccessToken, bool, error)` that
`GetAccessToken` returns, as the test reads it (`token, found, err`). -/
structure TokenResult where
  token : AccessToken
  found : Bool
  err : Option GoError
  deriving DecidableEq, Repr

/-- Modelled from the spec: the `AccessTokenFetcher` interface of package `accessor`,
declared outside the test file, with its one method `GetAccessToken(rawToken)`.  An
implementation may be stateful (a database, a fake counting its calls); `δ` is its
state. -/
structure AccessTokenFetcher (δ : Type) where
  GetAccessToken : δ → String → TokenResult × δ

/-- Modelled from the spec: the counterfeiter fake `FakeAccessTokenFetcher` of package
`accessorfakes` after `GetAccessTokenReturns(result)`, as the test uses it: every call
returns `result`; its state is the list of the arguments of the calls so far, whose
length is `GetAccessTokenCallCount()`. -/
def FakeAccessTokenFetcher (result : TokenResult) : AccessTokenFetcher (List String) :=
  { GetAccessToken := fun calls rawToken => (result, calls ++ [rawToken]) }

/-- Modelled from the spec: an entry of the access-token cache, a token under its key
with the size in bytes it was cached at. -/
structure CacheEntry where
  key : String
  token : AccessToken
  size : Nat
  deriving DecidableEq, Repr

/-- Modelled from the spec: the number of bytes the cached entries take together. -/
def cacheSizeBytes (entries : List CacheEntry) : Nat :=
  (entries.map CacheEntry.size).sum

/-- Modelled from the spec: the eviction of the missing `claims_cacher.go`.  The entries
are listed least recently used first; while they exceed the size limit the least
recently used one is dropped. -/
def evictOldest (maxCacheSizeBytes : Int) : List CacheEntry → List CacheEntry
  | [] => []
  | e :: rest =>
      if (cacheSizeBytes (e :: rest) : Int) > maxCacheSizeBytes then
        evictOldest maxCacheSizeBytes rest
      else e :: rest

/-- Modelled from the spec: the missing `claimsCacher` of `claims_cacher.go`, the
access-token LRU cache in front of an `AccessTokenFetcher`.  `claimsSize` is the
size in bytes a token's claims are accounted at, `cache` lists the entries least
recently used first, `db` is the state of the underlying fetcher and `fetched`
records the keys passed on to the fetcher, in order. -/
structure ClaimsCacher (δ : Type) where
  accessTokenFetcher : AccessTokenFetcher δ
  claimsSize : Claims → Nat
  maxCacheSizeBytes : Int
  cache : List CacheEntry
  db : δ
  fetched : List String

/-- Modelled from the spec: the constructor `NewClaimsCacher(fetcher, maxCacheSizeBytes)`
of the missing `claims_cacher.go`; the cache starts empty. -/
def NewClaimsCacher {δ : Type} (fetcher : AccessTokenFetcher δ) (db : δ)
    (claimsSize : Claims → Nat) (maxCacheSizeBytes : Int) : ClaimsCacher δ :=
  { accessTokenFetcher := fetcher, claimsSize := claimsSize,
    maxCacheSizeBytes := maxCacheSizeBytes, cache := [], db := db, fetched := [] }

/-- Modelled from the spec: the lookup of a key in the cache. -/
def ClaimsCacher.cached {δ : Type} (c : ClaimsCacher δ) (rawToken : String) :
    Option CacheEntry :=
  c.cache.find? (fun e => e.key == rawToken)

/-- Modelled from the spec: the method `GetAccessToken(rawToken)` of the missing
`claims_cacher.go`.  A cached key is answered from the cache and becomes the most
recently used.  Otherwise the underlying fetcher is called and its result is
returned as it is; a token that was found without error and whose claims are not
larger than `maxCacheSizeBytes` is cached as the most recently used entry, and least
recently used entries are evicted while the cache exceeds `maxCacheSizeBytes`. -/
def ClaimsCacher.GetAccessToken {δ : Type} (c : ClaimsCacher δ) (rawToken : String) :
    TokenResult × ClaimsCacher δ :=
  match c.cached rawToken with
  | some entry =>
      ({ token := entry.token, found := true, err := none },
       { c with cache := c.cache.filter (fun e => e.key != rawToken) ++ [entry] })
  | none =>
      let r := c.accessTokenFetcher.GetAccessToken c.db rawToken
      let c1 := { c with db := r.2, fetched := c.fetched ++ [rawToken] }
      if r.1.err.isSome || !r.1.found then (r.1, c1)
      else if (c.claimsSize r.1.token.Claims : Int) > c.maxCacheSizeBytes then (r.1, c1)
      else
        let entry : CacheEntry :=
          { key := rawToken, token := r.1.token, size := c.claimsSize r.1.token.Claims }
        (r.1, { c1 with cache := evictOldest c.maxCacheSizeBytes (c.cache ++ [entry]) })

/-- The state of the cacher after `n` calls of `GetAccessToken` with the same key. -/
def ClaimsCacher.getTimes {δ : Type} (c : ClaimsCacher δ) (rawToken : String) :
    Nat → ClaimsCacher δ
  | 0 => c
  | n + 1 => ((c.getTimes rawToken n).GetAccessToken rawToken).2

/-- The state of the cacher after calls of `GetAccessToken` with the given keys, in
order. -/
def ClaimsCacher.getAll {δ : Type} (c : ClaimsCacher δ) : List String → ClaimsCacher δ
  | [] => c
  | k :: ks => ClaimsCacher.getAll (c.GetAccessToken k).2 ks

/-- The fetcher finds a token for every key, without error, and the claims of every
token it returns have size `sz` (as the fake does after `GetAccessTokenReturns`). -/
def AccessTokenFetcher.findsTokensOfSize {δ : Type} (f : AccessTokenFetcher δ)
    (claimsSize : Claims → Nat) (sz : Nat) : Prop :=
  ∀ (d : δ) (k : String), (f.GetAccessToken d k).1.err = none ∧
    (f.GetAccessToken d k).1.found = true ∧
    claimsSize (f.GetAccessToken d k).1.token.Claims = sz

/-- The keys in the cache, least recently used first. -/
def ClaimsCacher.keys {δ : Type} (c : ClaimsCacher δ) : List String :=
  c.cache.map CacheEntry.key

/-! ### Sample tokens -/

/-- A size for claims: the length of the user name and of every raw claim's key and
value. -/
def sampleSize (c : Claims) : Nat :=
  c.Username.length + (c.RawClaims.map (fun p => p.1.length + p.2.length)).sum

/-- A token with one raw claim `a` whose value is the given string. -/
def tokenWith (value : String) : AccessToken :=
  { Claims := { Username := "", RawClaims := [("a", value)] } }

/-- The fake fetcher's answer: the token was found. -/
def foundToken (t : AccessToken) : TokenResult := { token := t, found := true, err := none }

/-! ## Unwrap chains and error messages -/

/-- The function `errors.Unwrap(err)`: the wrapped error, `nil` for an error that has no
method `Unwrap() error` (a joined error has `Unwrap() []error` instead). -/
def GoError.Unwrap : GoError → Option GoError
  | GoError.Wrap _ inner => some inner
  | _ => none

/-- The unwrap chain of an error: the error itself, then what it wraps, and so on; for
a joined error, the chains of the errors it joins, in order. -/
def unwrapChain : GoError → List GoError
  | GoError.Wrap msg inner => GoError.Wrap msg inner :: unwrapChain inner
  | GoError.Join a b => GoError.Join a b :: (unwrapChain a ++ unwrapChain b)
  | e => [e]

/-- The method `Error()` of an error: its message.  A wrapping error carries its whole
formatted message; a joined error gives the messages of its errors, one per line. -/
def GoError.Error : GoError → String
  | GoError.Canceled => "context canceled"
  | GoError.DeadlineExceeded => "context deadline exceeded"
  | GoError.New msg => msg
  | GoError.Wrap msg _ => msg
  | GoError.Join a b => a.Error ++ "\n" ++ b.Error
  | GoError.Matching msg _ => msg

/-- The number of recorded calls of the primary step. -/
def RunOutcome.stepCalls (out : RunOutcome) : Nat :=
  (out.calls.filter (fun c => !c.isHook)).length

/-- The number of recorded calls of the hook. -/
def RunOutcome.hookCalls (out : RunOutcome) : Nat :=
  (out.calls.filter Call.isHook).length

/-! ### Steps that leave a mark of their invocation -/

/-- A fake step that records each of its invocations in the state it is handed, the
way a counterfeiter fake counts its calls: it stores one more result under `id` and
returns the given pair. -/
def recording (id : String) (ok : Bool) (err : Option GoError) : Step :=
  { Run := fun _ s => { ok := ok, err := err, state := s.StoreResult id "called" } }

/-- The number of results stored under `id`, overwritten ones included: the number
of invocations a `recording` step has left in the state. -/
def RunState.recorded (s : RunState) (id : String) : Nat :=
  (s.results.filter (fun p => p.1 == id)).length

/-- A hook that reports the context it is handed: it stores what `ctx.Err()` returns
and whether `ctx.Deadline()` is set, as artifacts of the state. -/
def contextProbe : Step :=
  { Run := fun ctx s =>
      { ok := true, err := none,
        state := (s.StoreArtifact "hook.ctx.Err"
          (match ctx.Err with
           | none => "nil"
           | some e => e.Error)).StoreArtifact "hook.ctx.Deadline"
            (if ctx.Deadline.isSome then "set" else "none") } }

/-- A cleanup hook that honours cancellation itself: under a context that is done it
gives up with the context's error and cleans nothing; otherwise it stores its
artifact. -/
def carefulCleanup : Step :=
  { Run := fun ctx s =>
      match ctx.Err with
      | some e => { ok := false, err := some e, state := s }
      | none => { ok := true, err := none, state := s.StoreArtifact "cleanup" "done" } }

/-- Is the error a step returned an abort-cancellation, that is non-nil with
`errors.Is(err, context.Canceled)`: the two tests of `OnAbortStep.Run` together. -/
def isAbort : Option GoError → Bool
  | none => false
  | some e => errorsIs e GoError.Canceled

/-! ## Policy checker (`atc/policy`)

The checker is the one `checker_test.go` exercises: a filter of HTTP methods and
actions, and a `Check` that hands the input to a policy agent. -/

/-- Modelled from the spec: the type `policy.Filter` of the missing `checker.go`, with
the three lists the test sets. -/
structure Filter where
  HttpMethods : List String
  Actions : List String
  ActionsToSkip : List String
  deriving DecidableEq, Repr

/-- Modelled from the spec: the type `policy.PolicyCheckInput` of the missing
`checker.go`.  The test names `Service`, `ClusterName` and `ClusterVersion`;
`Others` holds the remaining fields by name. -/
structure PolicyCheckInput where
  Service : String
  ClusterName : String
  ClusterVersion : String
  Others : List (String × String)
  deriving DecidableEq, Repr

/-- Modelled from the spec: the policy `Agent` interface of the missing `checker.go`,
with its method `Check(input) (bool, error)`.  An agent may be stateful; `δ` is its
state. -/
structure Agent (δ : Type) where
  Check : δ → PolicyCheckInput → (Bool × Option GoError) × δ

/-- Modelled from the spec: the counterfeiter fake `FakeAgent` of package `policyfakes`
after `CheckReturns(pass, err)`, as the test uses it: every call returns `(pass,
err)`; its state is the list of the inputs of the calls so far, which
`CheckCallCount()` and `CheckArgsForCall(i)` read. -/
def FakeAgent (pass : Bool) (err : Option GoError) : Agent (List PolicyCheckInput) :=
  { Check := fun calls input => ((pass, err), calls ++ [input]) }

/-- Modelled from the spec: the type `policy.Checker` of the missing `checker.go`: the
filter, the agent with its state, and the cluster name and version given to
`Initialize`.  `agentCalls` records the inputs handed to the agent, in order. -/
structure Checker (δ : Type) where
  filter : Filter
  agent : Agent δ
  agentState : δ
  clusterName : String
  clusterVersion : String
  agentCalls : List PolicyCheckInput

/-- Modelled from the spec: `policy.Initialize(logger, clusterName, clusterVersion,
filter)` of the missing `checker.go`, when the agent factory returns `agent`. -/
def Initialize {δ : Type} (agent : Agent δ) (agentState : δ) (clusterName : String)
    (clusterVersion : String) (filter : Filter) : Checker δ :=
  { filter := filter, agent := agent, agentState := agentState, clusterName := clusterName,
    clusterVersion := clusterVersion, agentCalls := [] }

/-- Modelled from the spec: `Checker.ShouldCheckHttpMethod(method)` of the missing
`checker.go`: is the method in the filter's `HttpMethods`? -/
def Checker.ShouldCheckHttpMethod {δ : Type} (c : Checker δ) (method : String) : Bool :=
  c.filter.HttpMethods.any (fun m => m == method)

/-- Modelled from the spec: `Checker.ShouldCheckAction(action)` of the missing
`checker.go`: is the action in the filter's `Actions`? -/
def Checker.ShouldCheckAction {δ : Type} (c : Checker δ) (action : String) : Bool :=
  c.filter.Actions.any (fun a => a == action)

/-- Modelled from the spec: `Checker.ShouldSkipAction(action)` of the missing
`checker.go`: is the action in the filter's `ActionsToSkip`? -/
def Checker.ShouldSkipAction {δ : Type} (c : Checker δ) (action : String) : Bool :=
  c.filter.ActionsToSkip.any (fun a => a == action)

/-- The input the checker hands to the agent: the caller's input with the service
and the cluster's name and version filled in. -/
def Checker.inject {δ : Type} (c : Checker δ) (input : PolicyCheckInput) : PolicyCheckInput :=
  { input with
    Service := "concourse", ClusterName := c.clusterName, ClusterVersion := c.clusterVersion }

/-- Modelled from the spec: `Checker.Check(input)` of the missing `checker.go`: set
`Service`, `ClusterName` and `ClusterVersion` on the input, call the agent with
it, and return what the agent returns. -/
def Checker.Check {δ : Type} (c : Checker δ) (input : PolicyCheckInput) :
    (Bool × Option GoError) × Checker δ :=
  let r := c.agent.Check c.agentState (c.inject input)
  (r.1, { c with agentState := r.2, agentCalls := c.agentCalls ++ [c.inject input] })

/-- The filter of the test. -/
def sampleFilter : Filter :=
  { HttpMethods := ["POST", "PUT"], Actions := ["do_1", "do_2"],
    ActionsToSkip := ["skip_1", "skip_2"] }

/-- The zero `PolicyCheckInput` of the test. -/
def emptyInput : PolicyCheckInput :=
  { Service := "", ClusterName := "", ClusterVersion := "", Others := [] }

/-! ## Prometheus emitter (`atc/metric/emitter/prometheus.go`)

Go values are embedded as follows.

* `float64` is `Float`; no property below depends on floating-point arithmetic.
* A `map[string]V` is an association list with `mapGet`, `mapSet` and `mapDelete`; a Go
  map has every key once.
* `time.Time` and `time.Duration` are integers counting nanoseconds.
* A panic stops the call; the emitter keeps what was written before it, and the call's
  result says that it panicked.
-/

/-- A Go `map[string]V`, as the list of its entries. -/
abbrev GoMap (V : Type) := List (String × V)

/-- The lookup `v, exists := m[k]`. -/
def mapGet {V : Type} : GoMap V → String → Option V
  | [], _ => none
  | (k1, v) :: rest, k => if k1 = k then some v else mapGet rest k

/-- The statement `delete(m, k)`. -/
def mapDelete {V : Type} (m : GoMap V) (k : String) : GoMap V :=
  m.filter (fun p => decide (p.1 ≠ k))

/-- The assignment `m[k] = v`. -/
def mapSet {V : Type} (m : GoMap V) (k : String) (v : V) : GoMap V :=
  (k, v) :: mapDelete m k

/-- The keys of a map. -/
def mapKeys {V : Type} (m : GoMap V) : List String := m.map Prod.fst

/-- The type `prometheus.Labels`, a `map[string]string` from label names to label
values. -/
abbrev Labels := GoMap String

/-- Byte-wise `a < b` on strings, as `sort.Strings` compares them. -/
def lessChars : List Char → List Char → Bool
  | _, [] => false
  | [], _ :: _ => true
  | a :: as, b :: bs =>
      if a.toNat < b.toNat then true
      else if b.toNat < a.toNat then false
      else lessChars as bs

/-- Insert a string into a sorted list of strings. -/
def insertString (s : String) : List String → List String
  | [] => [s]
  | t :: rest =>
      if lessChars t.data s.data then t :: insertString s rest else s :: t :: rest

/-- The function `sort.Strings`. -/
def sortStrings : List String → List String
  | [] => []
  | s :: rest => insertString s (sortStrings rest)

/-- The function `serializeLabels`: the label values, sorted and joined by `_`. -/
def serializeLabels (labels : Labels) : String :=
  "_".intercalate (sortStrings (labels.map Prod.snd))

/-- A point in time (`time.Time`), in nanoseconds. -/
abbrev Time := Int

/-- A `time.Duration`, in nanoseconds. -/
abbrev Duration := Int

/-- The constant `time.Second`. -/
def Second : Duration := 1000000000

/-- The constant `time.Minute`. -/
def Minute : Duration := 60 * Second

/-- The method `t.Sub(u)`: the duration `t - u`, or the largest or smallest `int64`
duration when the difference exceeds it. -/
def timeSub (t u : Time) : Duration :=
  if t - u > 2 ^ 63 - 1 then 2 ^ 63 - 1
  else if t - u < -(2 ^ 63) then -(2 ^ 63)
  else t - u

/-! ### The Prometheus client's metrics -/

/-- A `prometheus.Counter`: the client keeps the integer increments in a `uint64` and
the other increments in a `float64`; the counter's value is their sum. -/
structure Counter where
  valInt : Nat
  valBits : Float

/-- A `prometheus.Gauge`. -/
structure Gauge where
  value : Float

/-- A `prometheus.Histogram`, as the values observed so far, oldest first. -/
structure Histogram where
  observations : List Float

/-- A new counter. -/
def Counter.zero : Counter := { valInt := 0, valBits := 0 }

/-- A new gauge. -/
def Gauge.zero : Gauge := { value := 0 }

/-- A new histogram. -/
def Histogram.zero : Histogram := { observations := [] }

/-- The method `Counter.Inc()`. -/
def Counter.Inc (c : Counter) : Counter :=
  { c with valInt := (c.valInt + 1) % 2 ^ 64 }

/-- The method `Counter.Add(v)`, which panics (`none`) on a negative `v`.  A `v` that
is a whole number below `2^64` (`float64(uint64(v)) == v`) is added to the integer
part; any other `v`, also one of `2^64` or more, which no `uint64` converts back to,
is added to the float part. -/
def Counter.Add (c : Counter) (v : Float) : Option Counter :=
  if v < 0 then none
  else if v < 18446744073709551616 && v.toUInt64.toFloat == v then
    some { c with valInt := (c.valInt + v.toUInt64.toNat) % 2 ^ 64 }
  else some { c with valBits := c.valBits + v }

/-- The method `Gauge.Set(v)`. -/
def Gauge.Set (_g : Gauge) (v : Float) : Gauge := { value := v }

/-- The method `Gauge.Inc()`. -/
def Gauge.Inc (g : Gauge) : Gauge := { value := g.value + 1 }

/-- The method `Gauge.Dec()`. -/
def Gauge.Dec (g : Gauge) : Gauge := { value := g.value - 1 }

/-- The method `Histogram.Observe(v)`. -/
def Histogram.Observe (h : Histogram) (v : Float) : Histogram :=
  { observations := h.observations ++ [v] }

/-- A metric vector (`CounterVec`, `GaugeVec`, `HistogramVec`): the names of its
variable labels, and its series, each under its label values in the order of the
names. -/
structure MetricVec (M : Type) where
  labelNames : List String
  series : List (List String × M)

/-- The series with the given label values, if the vector has it. -/
def MetricVec.find {M : Type} (vec : MetricVec M) (lvs : List String) : Option M :=
  (vec.series.find? (fun p => decide (p.1 = lvs))).map Prod.snd

/-- Has the vector a series with the given label values? -/
def MetricVec.has {M : Type} (vec : MetricVec M) (lvs : List String) : Bool :=
  vec.series.any (fun p => decide (p.1 = lvs))

/-- Put a metric under the given label values, replacing the series that is there. -/
def MetricVec.store {M : Type} (vec : MetricVec M) (lvs : List String) (m : M) :
    MetricVec M :=
  { vec with series := (lvs, m) :: vec.series.filter (fun p => decide (p.1 ≠ lvs)) }

/-- The call `vec.WithLabelValues(lvs...)` followed by an operation on the metric it
returns.  The call panics when the number of values is not the number of label
names; otherwise it returns the series with these values, creating it when it is
not there, and the operation is applied to it.  The result is the vector
afterwards and whether the call or the operation panicked. -/
def MetricVec.WithLabelValues {M : Type} (vec : MetricVec M) (zero : M) (lvs : List String)
    (op : M → Option M) : MetricVec M × Bool :=
  if lvs.length ≠ vec.labelNames.length then (vec, true)
  else
    match op ((vec.find lvs).getD zero) with
    | some m => (vec.store lvs m, false)
    | none => (vec.store lvs ((vec.find lvs).getD zero), true)

/-- The values of the given labels under the given names, when the labels are exactly
these names. -/
def lookupAll (labels : Labels) : List String → Option (List String)
  | [] => some []
  | n :: ns =>
      match mapGet labels n, lookupAll labels ns with
      | some v, some vs => some (v :: vs)
      | _, _ => none

/-- The label values of `labels` in the order of the vector's label names; `none` when
the labels are not consistent with the names (another number of labels, or a name
missing). -/
def MetricVec.labelValues {M : Type} (vec : MetricVec M) (labels : Labels) :
    Option (List String) :=
  if labels.length = vec.labelNames.length then lookupAll labels vec.labelNames else none

/-- The call `vec.With(labels)` followed by an operation on the metric it returns; it
panics when the labels are not consistent with the vector's label names. -/
def MetricVec.With {M : Type} (vec : MetricVec M) (zero : M) (labels : Labels)
    (op : M → Option M) : MetricVec M × Bool :=
  match vec.labelValues labels with
  | none => (vec, true)
  | some lvs => vec.WithLabelValues zero lvs op

/-- The call `vec.Delete(labels)`: remove the series with these labels; nothing is
removed when the labels are not consistent with the vector's label names. -/
def MetricVec.Delete {M : Type} (vec : MetricVec M) (labels : Labels) : MetricVec M :=
  match vec.labelValues labels with
  | none => vec
  | some lvs => { vec with series := vec.series.filter (fun p => decide (p.1 ≠ lvs)) }

/-- Modelled from the spec: the type `metric.Event`, declared outside `prometheus.go`,
with the fields the emitter reads. -/
structure Event where
  Name : String
  Value : Float
  Attributes : GoMap String

/-- The expression `event.Attributes[k]`, the empty string when the key is missing. -/
def Event.attr (event : Event) (k : String) : String :=
  (mapGet event.Attributes k).getD ""

/-! ### The emitter -/

/-- The struct `PrometheusEmitter` (the mutex apart).  `logged` is not a Go field: it
lists the actions handed to `logger.Error`, oldest first. -/
structure PrometheusEmitter where
  jobsScheduled : Counter
  jobsScheduling : Gauge
  buildsStarted : Counter
  buildsRunning : Gauge
  checkBuildsStarted : Counter
  checkBuildsRunning : Gauge
  concurrentRequestsLimitHit : MetricVec Counter
  concurrentRequests : MetricVec Gauge
  stepsWaiting : MetricVec Gauge
  stepsWaitingDuration : MetricVec Histogram
  buildDurationsVec : MetricVec Histogram
  buildsAborted : Counter
  buildsErrored : Counter
  buildsFailed : Counter
  buildsFinished : Counter
  buildsFinishedVec : MetricVec Counter
  buildsSucceeded : Counter
  checkBuildsAborted : Counter
  checkBuildsErrored : Counter
  checkBuildsFailed : Counter
  checkBuildsFinished : Counter
  checkBuildsSucceeded : Counter
  dbConnections : MetricVec Gauge
  dbQueriesTotal : Counter
  errorLogs : MetricVec Counter
  httpRequestsDuration : MetricVec Histogram
  locksHeld : MetricVec Gauge
  checksFinished : MetricVec Counter
  checksStarted : Counter
  checksEnqueued : Counter
  volumesStreamed : Counter
  workerContainers : MetricVec Gauge
  workerUnknownContainers : MetricVec Gauge
  workerVolumes : MetricVec Gauge
  workerUnknownVolumes : MetricVec Gauge
  workerTasks : MetricVec Gauge
  workersRegistered : MetricVec Gauge
  workerContainersLabels : GoMap (GoMap Labels)
  workerVolumesLabels : GoMap (GoMap Labels)
  workerTasksLabels : GoMap (GoMap Labels)
  workerLastSeen : GoMap Time
  logged : List String

/-- A new vector with the given label names. -/
def MetricVec.new {M : Type} (labelNames : List String) : MetricVec M :=
  { labelNames := labelNames, series := [] }

/-- The emitter that `PrometheusConfig.NewEmitter` builds: every metric new, with the
label names it is registered with, and the maps empty. -/
def NewEmitter : PrometheusEmitter :=
  { jobsScheduled := Counter.zero
    jobsScheduling := Gauge.zero
    buildsStarted := Counter.zero
    buildsRunning := Gauge.zero
    checkBuildsStarted := Counter.zero
    checkBuildsRunning := Gauge.zero
    concurrentRequestsLimitHit := MetricVec.new ["action"]
    concurrentRequests := MetricVec.new ["action"]
    stepsWaiting := MetricVec.new ["platform", "teamId", "type", "workerTags"]
    stepsWaitingDuration := MetricVec.new ["platform", "teamId", "type", "workerTags"]
    buildDurationsVec := MetricVec.new ["team", "pipeline", "job"]
    buildsAborted := Counter.zero
    buildsErrored := Counter.zero
    buildsFailed := Counter.zero
    buildsFinished := Counter.zero
    buildsFinishedVec := MetricVec.new ["team", "pipeline", "job", "status"]
    buildsSucceeded := Counter.zero
    checkBuildsAborted := Counter.zero
    checkBuildsErrored := Counter.zero
    checkBuildsFailed := Counter.zero
    checkBuildsFinished := Counter.zero
    checkBuildsSucceeded := Counter.zero
    dbConnections := MetricVec.new ["dbname"]
    dbQueriesTotal := Counter.zero
    errorLogs := MetricVec.new ["message"]
    httpRequestsDuration := MetricVec.new ["method", "route", "status"]
    locksHeld := MetricVec.new ["type"]
    checksFinished := MetricVec.new ["status"]
    checksStarted := Counter.zero
    checksEnqueued := Counter.zero
    volumesStreamed := Counter.zero
    workerContainers := MetricVec.new ["worker", "platform", "team", "tags"]
    workerUnknownContainers := MetricVec.new ["worker"]
    workerVolumes := MetricVec.new ["worker", "platform", "team", "tags"]
    workerUnknownVolumes := MetricVec.new ["worker"]
    workerTasks := MetricVec.new ["worker", "platform"]
    workersRegistered := MetricVec.new ["state"]
    workerContainersLabels := []
    workerVolumesLabels := []
    workerTasksLabels := []
    workerLastSeen := []
    logged := [] }

/-- What a call on the emitter leaves: the emitter afterwards, and whether the call
panicked instead of returning. -/
structure EmitResult where
  emitter : PrometheusEmitter
  panicked : Bool

/-- The call `logger.Error(action, err)`. -/
def PrometheusEmitter.logError (emitter : PrometheusEmitter) (action : String) :
    PrometheusEmitter :=
  { emitter with logged := emitter.logged ++ [action] }

/-- A call that returned. -/
def PrometheusEmitter.returned (emitter : PrometheusEmitter) : EmitResult :=
  { emitter := emitter, panicked := false }

/-- The call `counter.Add(v)` on one of the emitter's counters, written back by `put`
unless it panics. -/
def PrometheusEmitter.addTo (emitter : PrometheusEmitter) (c : Counter) (v : Float)
    (put : Counter → PrometheusEmitter) : EmitResult :=
  match c.Add v with
  | some c1 => { emitter := put c1, panicked := false }
  | none => { emitter := emitter, panicked := true }

/-- The method `lock`. -/
def PrometheusEmitter.lock (emitter : PrometheusEmitter) (event : Event) : EmitResult :=
  match mapGet event.Attributes "type" with
  | none => (emitter.logError "failed-to-find-type-in-event").returned
  | some lockType =>
      if event.Value == 1 then
        let r := emitter.locksHeld.WithLabelValues Gauge.zero [lockType]
          (fun g => some g.Inc)
        { emitter := { emitter with locksHeld := r.1 }, panicked := r.2 }
      else
        let r := emitter.locksHeld.WithLabelValues Gauge.zero [lockType]
          (fun g => some g.Dec)
        { emitter := { emitter with locksHeld := r.1 }, panicked := r.2 }

/-- The method `errorLogsMetric`. -/
def PrometheusEmitter.errorLogsMetric (emitter : PrometheusEmitter) (event : Event) :
    EmitResult :=
  match mapGet event.Attributes "message" with
  | none => (emitter.logError "failed-to-find-message-in-event").returned
  | some message =>
      let r := emitter.errorLogs.WithLabelValues Counter.zero [message] (fun c => some c.Inc)
      { emitter := { emitter with errorLogs := r.1 }, panicked := r.2 }

/-- Modelled from the spec: the constant `db.BuildStatusAborted`, declared outside
`prometheus.go`. -/
def BuildStatusAborted : String := "aborted"

/-- Modelled from the spec: the constant `db.BuildStatusSucceeded`, declared outside
`prometheus.go`. -/
def BuildStatusSucceeded : String := "succeeded"

/-- Modelled from the spec: the constant `db.BuildStatusFailed`, declared outside
`prometheus.go`. -/
def BuildStatusFailed : String := "failed"

/-- Modelled from the spec: the constant `db.BuildStatusErrored`, declared outside
`prometheus.go`. -/
def BuildStatusErrored : String := "errored"

/-- The `switch buildStatus` of `buildFinishedMetrics`: the counter of the status is
incremented. -/
def PrometheusEmitter.countBuildStatus (emitter : PrometheusEmitter) (buildStatus : String) :
    PrometheusEmitter :=
  if buildStatus = BuildStatusAborted then
    { emitter with buildsAborted := emitter.buildsAborted.Inc }
  else if buildStatus = BuildStatusSucceeded then
    { emitter with buildsSucceeded := emitter.buildsSucceeded.Inc }
  else if buildStatus = BuildStatusFailed then
    { emitter with buildsFailed := emitter.buildsFailed.Inc }
  else if buildStatus = BuildStatusErrored then
    { emitter with buildsErrored := emitter.buildsErrored.Inc }
  else emitter

/-- The method `buildFinishedMetrics`. -/
def PrometheusEmitter.buildFinishedMetrics (emitter : PrometheusEmitter) (event : Event) :
    EmitResult :=
  let e1 := { emitter with buildsFinished := emitter.buildsFinished.Inc }
  match mapGet event.Attributes "team_name" with
  | none => (e1.logError "failed-to-find-team-name-in-event").returned
  | some team =>
  match mapGet event.Attributes "pipeline" with
  | none => (e1.logError "failed-to-find-pipeline-in-event").returned
  | some pipeline =>
  match mapGet event.Attributes "job" with
  | none => (e1.logError "failed-to-find-job-in-event").returned
  | some job =>
  match mapGet event.Attributes "build_status" with
  | none => (e1.logError "failed-to-find-build_status-in-event").returned
  | some buildStatus =>
      let r := e1.buildsFinishedVec.WithLabelValues Counter.zero
        [team, pipeline, job, buildStatus] (fun c => some c.Inc)
      let e2 := { e1 with buildsFinishedVec := r.1 }
      if r.2 then { emitter := e2, panicked := true }
      else
        let e3 := e2.countBuildStatus buildStatus
        let d := e3.buildDurationsVec.WithLabelValues Histogram.zero [team, pipeline, job]
          (fun h => some (h.Observe (event.Value / 1000)))
        { emitter := { e3 with buildDurationsVec := d.1 }, panicked := d.2 }

/-- The method `checkBuildFinishedMetrics`. -/
def PrometheusEmitter.checkBuildFinishedMetrics (emitter : PrometheusEmitter)
    (event : Event) : EmitResult :=
  let e1 := { emitter with checkBuildsFinished := emitter.checkBuildsFinished.Inc }
  match mapGet event.Attributes "build_status" with
  | none => (e1.logError "failed-to-find-check-build_status-in-event").returned
  | some buildStatus =>
      if buildStatus = BuildStatusAborted then
        { e1 with checkBuildsAborted := e1.checkBuildsAborted.Inc }.returned
      else if buildStatus = BuildStatusSucceeded then
        { e1 with checkBuildsSucceeded := e1.checkBuildsSucceeded.Inc }.returned
      else if buildStatus = BuildStatusFailed then
        { e1 with checkBuildsFailed := e1.checkBuildsFailed.Inc }.returned
      else if buildStatus = BuildStatusErrored then
        { e1 with checkBuildsErrored := e1.checkBuildsErrored.Inc }.returned
      else e1.returned

/-- The statements `if m[worker] == nil { m[worker] = make(...) }; m[worker][key] =
labels` on one of the label maps. -/
def recordLabels (m : GoMap (GoMap Labels)) (worker : String) (key : String)
    (labels : Labels) : GoMap (GoMap Labels) :=
  mapSet m worker (mapSet ((mapGet m worker).getD []) key labels)

/-- The method `workerContainersMetric`. -/
def PrometheusEmitter.workerContainersMetric (emitter : PrometheusEmitter) (event : Event) :
    EmitResult :=
  match mapGet event.Attributes "worker" with
  | none => (emitter.logError "failed-to-find-worker-in-event").returned
  | some worker =>
  match mapGet event.Attributes "platform" with
  | none => (emitter.logError "failed-to-find-platform-in-event").returned
  | some platform =>
  if platform = "" then (emitter.logError "failed-to-find-platform-in-event").returned
  else
  match mapGet event.Attributes "team_name" with
  | none => (emitter.logError "failed-to-find-team-name-in-event").returned
  | some team =>
      let tags := event.attr "tags"
      let labels : Labels :=
        [("worker", worker), ("platform", platform), ("team", team), ("tags", tags)]
      let key := serializeLabels labels
      let e1 := { emitter with
        workerContainersLabels := recordLabels emitter.workerContainersLabels worker key labels }
      let r := e1.workerContainers.With Gauge.zero labels (fun g => some (g.Set event.Value))
      { emitter := { e1 with workerContainers := r.1 }, panicked := r.2 }

/-- The method `workersRegisteredMetric`. -/
def PrometheusEmitter.workersRegisteredMetric (emitter : PrometheusEmitter) (event : Event) :
    EmitResult :=
  match mapGet event.Attributes "state" with
  | none => (emitter.logError "failed-to-find-state-in-event").returned
  | some state =>
      let r := emitter.workersRegistered.WithLabelValues Gauge.zero [state]
        (fun g => some (g.Set event.Value))
      { emitter := { emitter with workersRegistered := r.1 }, panicked := r.2 }

/-- The method `workerUnknownContainersMetric`. -/
def PrometheusEmitter.workerUnknownContainersMetric (emitter : PrometheusEmitter)
    (event : Event) : EmitResult :=
  match mapGet event.Attributes "worker" with
  | none => (emitter.logError "failed-to-find-worker-in-event").returned
  | some worker =>
      let labels : Labels := [("worker", worker)]
      let key := serializeLabels labels
      let e1 := { emitter with
        workerContainersLabels := recordLabels emitter.workerContainersLabels worker key labels }
      let r := e1.workerUnknownContainers.With Gauge.zero labels
        (fun g => some (g.Set event.Value))
      { emitter := { e1 with workerUnknownContainers := r.1 }, panicked := r.2 }

/-- The method `workerVolumesMetric`. -/
def PrometheusEmitter.workerVolumesMetric (emitter : PrometheusEmitter) (event : Event) :
    EmitResult :=
  match mapGet event.Attributes "worker" with
  | none => (emitter.logError "failed-to-find-worker-in-event").returned
  | some worker =>
  match mapGet event.Attributes "platform" with
  | none => (emitter.logError "failed-to-find-platform-in-event").returned
  | some platform =>
  if platform = "" then (emitter.logError "failed-to-find-platform-in-event").returned
  else
  match mapGet event.Attributes "team_name" with
  | none => (emitter.logError "failed-to-find-team-name-in-event").returned
  | some team =>
      let tags := event.attr "tags"
      let labels : Labels :=
        [("worker", worker), ("platform", platform), ("team", team), ("tags", tags)]
      let key := serializeLabels labels
      let e1 := { emitter with
        workerVolumesLabels := recordLabels emitter.workerVolumesLabels worker key labels }
      let r := e1.workerVolumes.With Gauge.zero labels (fun g => some (g.Set event.Value))
      { emitter := { e1 with workerVolumes := r.1 }, panicked := r.2 }

/-- The method `workerUnknownVolumesMetric`. -/
def PrometheusEmitter.workerUnknownVolumesMetric (emitter : PrometheusEmitter)
    (event : Event) : EmitResult :=
  match mapGet event.Attributes "worker" with
  | none => (emitter.logError "failed-to-find-worker-in-event").returned
  | some worker =>
      let labels : Labels := [("worker", worker)]
      let key := serializeLabels labels
      let e1 := { emitter with
        workerVolumesLabels := recordLabels emitter.workerVolumesLabels worker key labels }
      let r := e1.workerUnknownVolumes.With Gauge.zero labels
        (fun g => some (g.Set event.Value))
      { emitter := { e1 with workerUnknownVolumes := r.1 }, panicked := r.2 }

/-- The method `workerTasksMetric`. -/
def PrometheusEmitter.workerTasksMetric (emitter : PrometheusEmitter) (event : Event) :
    EmitResult :=
  match mapGet event.Attributes "worker" with
  | none => (emitter.logError "failed-to-find-worker-in-event").returned
  | some worker =>
  match mapGet event.Attributes "platform" with
  | none => (emitter.logError "failed-to-find-platform-in-event").returned
  | some platform =>
  if platform = "" then (emitter.logError "failed-to-find-platform-in-event").returned
  else
      let labels : Labels := [("worker", worker), ("platform", platform)]
      let key := serializeLabels labels
      let e1 := { emitter with
        workerTasksLabels := recordLabels emitter.workerTasksLabels worker key labels }
      let r := e1.workerTasks.With Gauge.zero labels (fun g => some (g.Set event.Value))
      { emitter := { e1 with workerTasks := r.1 }, panicked := r.2 }

/-- The method `httpResponseTimeMetrics`. -/
def PrometheusEmitter.httpResponseTimeMetrics (emitter : PrometheusEmitter) (event : Event) :
    EmitResult :=
  match mapGet event.Attributes "route" with
  | none => (emitter.logError "failed-to-find-route-in-event").returned
  | some route =>
  match mapGet event.Attributes "method" with
  | none => (emitter.logError "failed-to-find-method-in-event").returned
  | some method =>
  match mapGet event.Attributes "status" with
  | none => (emitter.logError "failed-to-find-status-in-event").returned
  | some status =>
      let r := emitter.httpRequestsDuration.WithLabelValues Histogram.zero
        [method, route, status] (fun h => some (h.Observe (event.Value / 1000)))
      { emitter := { emitter with httpRequestsDuration := r.1 }, panicked := r.2 }

/-- The method `databaseMetrics`. -/
def PrometheusEmitter.databaseMetrics (emitter : PrometheusEmitter) (event : Event) :
    EmitResult :=
  if event.Name = "database queries" then
    emitter.addTo emitter.dbQueriesTotal event.Value
      (fun c => { emitter with dbQueriesTotal := c })
  else if event.Name = "database connections" then
    match mapGet event.Attributes "ConnectionName" with
    | none => (emitter.logError "failed-to-connection-name-in-event").returned
    | some connectionName =>
        let r := emitter.dbConnections.WithLabelValues Gauge.zero [connectionName]
          (fun g => some (g.Set event.Value))
        { emitter := { emitter with dbConnections := r.1 }, panicked := r.2 }
  else emitter.returned

/-- The method `updateLastSeen`, which tracks for each worker when it last received a
metric event; `now` is what `time.Now()` returns. -/
def PrometheusEmitter.updateLastSeen (emitter : PrometheusEmitter) (now : Time)
    (event : Event) : PrometheusEmitter :=
  match mapGet event.Attributes "worker" with
  | some worker => { emitter with workerLastSeen := mapSet emitter.workerLastSeen worker now }
  | none => emitter

/-- The event names with a `case` of their own in the `switch` of `Emit`. -/
def handledNames : List String :=
  ["error log", "lock held", "jobs scheduled", "jobs scheduling", "builds started",
   "builds running", "check builds started", "check builds running",
   "concurrent requests limit hit", "concurrent requests", "steps waiting",
   "steps waiting duration", "build finished", "check build finished", "worker containers",
   "worker volumes", "worker unknown containers", "worker unknown volumes", "worker tasks",
   "worker state", "http response time", "database queries", "database connections",
   "checks finished", "checks started", "checks enqueued", "volumes streamed"]

/-- The `switch event.Name` of `Emit`. -/
def PrometheusEmitter.dispatch (emitter : PrometheusEmitter) (event : Event) : EmitResult :=
  if event.Name = "error log" then emitter.errorLogsMetric event
  else if event.Name = "lock held" then emitter.lock event
  else if event.Name = "jobs scheduled" then
    emitter.addTo emitter.jobsScheduled event.Value
      (fun c => { emitter with jobsScheduled := c })
  else if event.Name = "jobs scheduling" then
    { emitter with jobsScheduling := emitter.jobsScheduling.Set event.Value }.returned
  else if event.Name = "builds started" then
    emitter.addTo emitter.buildsStarted event.Value
      (fun c => { emitter with buildsStarted := c })
  else if event.Name = "builds running" then
    { emitter with buildsRunning := emitter.buildsRunning.Set event.Value }.returned
  else if event.Name = "check builds started" then
    emitter.addTo emitter.checkBuildsStarted event.Value
      (fun c => { emitter with checkBuildsStarted := c })
  else if event.Name = "check builds running" then
    { emitter with checkBuildsRunning := emitter.checkBuildsRunning.Set event.Value }.returned
  else if event.Name = "concurrent requests limit hit" then
    let r := emitter.concurrentRequestsLimitHit.WithLabelValues Counter.zero
      [event.attr "action"] (fun c => c.Add event.Value)
    { emitter := { emitter with concurrentRequestsLimitHit := r.1 }, panicked := r.2 }
  else if event.Name = "concurrent requests" then
    let r := emitter.concurrentRequests.WithLabelValues Gauge.zero [event.attr "action"]
      (fun g => some (g.Set event.Value))
    { emitter := { emitter with concurrentRequests := r.1 }, panicked := r.2 }
  else if event.Name = "steps waiting" then
    let r := emitter.stepsWaiting.WithLabelValues Gauge.zero
      [event.attr "platform", event.attr "teamId", event.attr "type", event.attr "workerTags"]
      (fun g => some (g.Set event.Value))
    { emitter := { emitter with stepsWaiting := r.1 }, panicked := r.2 }
  else if event.Name = "steps waiting duration" then
    let r := emitter.stepsWaitingDuration.WithLabelValues Histogram.zero
      [event.attr "platform", event.attr "teamId", event.attr "type", event.attr "workerTags"]
      (fun h => some (h.Observe event.Value))
    { emitter := { emitter with stepsWaitingDuration := r.1 }, panicked := r.2 }
  else if event.Name = "build finished" then emitter.buildFinishedMetrics event
  else if event.Name = "check build finished" then emitter.checkBuildFinishedMetrics event
  else if event.Name = "worker containers" then emitter.workerContainersMetric event
  else if event.Name = "worker volumes" then emitter.workerVolumesMetric event
  else if event.Name = "worker unknown containers" then
    emitter.workerUnknownContainersMetric event
  else if event.Name = "worker unknown volumes" then emitter.workerUnknownVolumesMetric event
  else if event.Name = "worker tasks" then emitter.workerTasksMetric event
  else if event.Name = "worker state" then emitter.workersRegisteredMetric event
  else if event.Name = "http response time" then emitter.httpResponseTimeMetrics event
  else if event.Name = "database queries" then emitter.databaseMetrics event
  else if event.Name = "database connections" then emitter.databaseMetrics event
  else if event.Name = "checks finished" then
    let r := emitter.checksFinished.WithLabelValues Counter.zero [event.attr "status"]
      (fun c => c.Add event.Value)
    { emitter := { emitter with checksFinished := r.1 }, panicked := r.2 }
  else if event.Name = "checks started" then
    emitter.addTo emitter.checksStarted event.Value
      (fun c => { emitter with checksStarted := c })
  else if event.Name = "checks enqueued" then
    emitter.addTo emitter.checksEnqueued event.Value
      (fun c => { emitter with checksEnqueued := c })
  else if event.Name = "volumes streamed" then
    emitter.addTo emitter.volumesStreamed event.Value
      (fun c => { emitter with volumesStreamed := c })
  else
    -- unless we have a specific metric, we do nothing
    emitter.returned

/-- The method `Emit`: update the last-seen time, then dispatch on the event's name;
`now` is what `time.Now()` returns. -/
def PrometheusEmitter.Emit (emitter : PrometheusEmitter) (now : Time) (event : Event) :
    EmitResult :=
  (emitter.updateLastSeen now event).dispatch event

/-- The loop `for _, labels := range m[worker] { vec.Delete(labels) }` of
`DoGarbageCollection`. -/
def deleteLabels (vec : MetricVec Gauge) (m : GoMap (GoMap Labels)) (worker : String) :
    MetricVec Gauge :=
  (((mapGet m worker).getD []).map Prod.snd).foldl MetricVec.Delete vec

/-- The function `DoGarbageCollection(emitter, worker)`, which retrieves and deletes
stale metrics by their labels.  The emitter's getters return its own gauge vectors
and label maps, so the deletions act on the emitter's fields. -/
def DoGarbageCollection (emitter : PrometheusEmitter) (worker : String) : PrometheusEmitter :=
  { emitter with
    workerContainers :=
      deleteLabels emitter.workerContainers emitter.workerContainersLabels worker
    workerVolumes := deleteLabels emitter.workerVolumes emitter.workerVolumesLabels worker
    workerTasks := deleteLabels emitter.workerTasks emitter.workerTasksLabels worker
    workerContainersLabels := mapDelete emitter.workerContainersLabels worker
    workerVolumesLabels := mapDelete emitter.workerVolumesLabels worker
    workerTasksLabels := mapDelete emitter.workerTasksLabels worker }

/-- The body of the `range emitter.workerLastSeen` loop of `periodicMetricGC` for one
entry. -/
def PrometheusEmitter.collectIfStale (now : Time) (emitter : PrometheusEmitter)
    (entry : String × Time) : PrometheusEmitter :=
  if timeSub now entry.2 > 5 * Minute then
    { DoGarbageCollection emitter entry.1 with
      workerLastSeen := mapDelete emitter.workerLastSeen entry.1 }
  else emitter

/-- One pass of the endless loop of `periodicMetricGC`: every entry of
`workerLastSeen` is visited; `now` is what `time.Now()` returns. -/
def PrometheusEmitter.periodicMetricGC (emitter : PrometheusEmitter) (now : Time) :
    PrometheusEmitter :=
  emitter.workerLastSeen.foldl (PrometheusEmitter.collectIfStale now) emitter

/-- The emitter after a list of events, each with the time it is emitted at; a panic
ends the run. -/
def PrometheusEmitter.emitAll (emitter : PrometheusEmitter) :
    List (Time × Event) → PrometheusEmitter
  | [] => emitter
  | (now, event) :: rest =>
      if (emitter.Emit now event).panicked then (emitter.Emit now event).emitter
      else PrometheusEmitter.emitAll (emitter.Emit now event).emitter rest

/-! ### Sample events -/

/-- A `worker containers` event of worker `w` on linux for team main. -/
def containersEvent (w : String) : Event :=
  { Name := "worker containers", Value := 3,
    Attributes := [("worker", w), ("platform", "linux"), ("team_name", "main")] }

/-- A `worker containers` event of worker `w` with the given platform and team. -/
def containersEventFor (w platform team : String) : Event :=
  { Name := "worker containers", Value := 3,
    Attributes := [("worker", w), ("platform", platform), ("team_name", team)] }

/-- A `worker unknown containers` event of worker `w`. -/
def unknownContainersEvent (w : String) : Event :=
  { Name := "worker unknown containers", Value := 2, Attributes := [("worker", w)] }

/-- A `worker unknown volumes` event of worker `w`. -/
def unknownVolumesEvent (w : String) : Event :=
  { Name := "worker unknown volumes", Value := 2, Attributes := [("worker", w)] }

/-- A `worker tasks` event of worker `w` on linux. -/
def tasksEvent (w : String) : Event :=
  { Name := "worker tasks", Value := 1, Attributes := [("worker", w), ("platform", "linux")] }

/-- An event with a name that `Emit` has no case for, carrying a worker. -/
def otherEvent (w : String) : Event :=
  { Name := "scheduling: loading versions db", Value := 7, Attributes := [("worker", w)] }

/-! ## FakeTaskDelegate (`atc/exec/execfakes/fake_task_delegate.go`)

The counterfeiter fake of `exec.TaskDelegate`, for its method `SelectWorker`.  A call
takes the fake's mutex while it records its arguments, so calls take effect one
after the other. -/

/-- The types of package `worker` and `db` that `SelectWorker` takes and returns,
declared outside `fake_task_delegate.go`. -/
structure WorkerTypes where
  Pool : Type
  ContainerOwner : Type
  ContainerSpec : Type
  WorkerSpec : Type
  ContainerPlacementStrategy : Type
  Client : Type

/-- The arguments of one `SelectWorker` call, as the fake records them. -/
structure SelectWorkerArgs (T : WorkerTypes) where
  arg1 : Context
  arg2 : T.Pool
  arg3 : T.ContainerOwner
  arg4 : T.ContainerSpec
  arg5 : T.WorkerSpec
  arg6 : T.ContainerPlacementStrategy
  arg7 : Duration
  arg8 : Duration

/-- The results `(worker.Client, error)` of `SelectWorker`. -/
structure SelectWorkerResult (T : WorkerTypes) where
  result1 : T.Client
  result2 : Option GoError

/-- The struct `FakeTaskDelegate`, for its method `SelectWorker`: the stub, the recorded
arguments, the configured returns, and the `SelectWorker` entry of `invocations`. -/
structure FakeTaskDelegate (T : WorkerTypes) where
  SelectWorkerStub : Option (SelectWorkerArgs T → SelectWorkerResult T)
  selectWorkerArgsForCall : List (SelectWorkerArgs T)
  selectWorkerReturns : SelectWorkerResult T
  selectWorkerReturnsOnCall : List (Nat × SelectWorkerResult T)
  invocations : GoMap (List (SelectWorkerArgs T))

/-- The zero `FakeTaskDelegate` that `new(FakeTaskDelegate)` gives; `nilClient` is the
nil `worker.Client`. -/
def FakeTaskDelegate.new {T : WorkerTypes} (nilClient : T.Client) : FakeTaskDelegate T :=
  { SelectWorkerStub := none, selectWorkerArgsForCall := [],
    selectWorkerReturns := { result1 := nilClient, result2 := none },
    selectWorkerReturnsOnCall := [], invocations := [] }

/-- The method `recordInvocation(key, args)`. -/
def FakeTaskDelegate.recordInvocation {T : WorkerTypes} (fake : FakeTaskDelegate T)
    (key : String) (args : SelectWorkerArgs T) : FakeTaskDelegate T :=
  let recorded := (mapGet fake.invocations key).getD [] ++ [args]
  { fake with invocations := mapSet fake.invocations key recorded }

/-- The method `SelectWorker(arg1, ..., arg8)`: the results and the fake afterwards. -/
def FakeTaskDelegate.SelectWorker {T : WorkerTypes} (fake : FakeTaskDelegate T)
    (args : SelectWorkerArgs T) : SelectWorkerResult T × FakeTaskDelegate T :=
  let specific := (fake.selectWorkerReturnsOnCall.find?
    (fun p => p.1 == fake.selectWorkerArgsForCall.length)).map Prod.snd
  let fake1 := { fake with selectWorkerArgsForCall := fake.selectWorkerArgsForCall ++ [args] }
  let stub := fake.SelectWorkerStub
  let fakeReturns := fake.selectWorkerReturns
  let fake2 := fake1.recordInvocation "SelectWorker" args
  match stub with
  | some f => (f args, fake2)
  | none =>
      match specific with
      | some ret => (ret, fake2)
      | none => (fakeReturns, fake2)

/-- The method `SelectWorkerCallCount()`. -/
def FakeTaskDelegate.SelectWorkerCallCount {T : WorkerTypes} (fake : FakeTaskDelegate T) :
    Nat :=
  fake.selectWorkerArgsForCall.length

/-- The method `SelectWorkerArgsForCall(i)`; `none` when the index is out of range and
the call panics. -/
def FakeTaskDelegate.SelectWorkerArgsForCall {T : WorkerTypes} (fake : FakeTaskDelegate T)
    (i : Nat) : Option (SelectWorkerArgs T) :=
  fake.selectWorkerArgsForCall[i]?

/-- The fake after a sequence of `SelectWorker` calls, in order. -/
def FakeTaskDelegate.selectAll {T : WorkerTypes} (fake : FakeTaskDelegate T) :
    List (SelectWorkerArgs T) → FakeTaskDelegate T
  | [] => fake
  | args :: rest => FakeTaskDelegate.selectAll (fake.SelectWorker args).2 rest

/-- Stand-ins for the worker types: names. -/
def sampleTypes : WorkerTypes :=
  { Pool := String, ContainerOwner := String, ContainerSpec := String, WorkerSpec := String,
    ContainerPlacementStrategy := String, Client := Option String }

/-- The arguments of a `SelectWorker` call of the step with the given name. -/
def sampleArgs (step : String) : SelectWorkerArgs sampleTypes :=
  { arg1 := Context.Background, arg2 := "pool", arg3 := step, arg4 := "spec", arg5 := "linux",
    arg6 := "fewest-build-containers", arg7 := 5 * Minute, arg8 := Minute }

/-! ### Build counters of the emitter -/

/-- The five counters that `buildFinishedMetrics` increments: finished, aborted,
succeeded, failed and errored builds. -/
def PrometheusEmitter.buildCounters (emitter : PrometheusEmitter) :
    Counter × Counter × Counter × Counter × Counter :=
  (emitter.buildsFinished, emitter.buildsAborted, emitter.buildsSucceeded,
   emitter.buildsFailed, emitter.buildsErrored)

/-- The count of the aborted, succeeded, failed and errored builds together. -/
def PrometheusEmitter.statusTotal (emitter : PrometheusEmitter) : Nat :=
  emitter.buildsAborted.valInt + emitter.buildsSucceeded.valInt +
    emitter.buildsFailed.valInt + emitter.buildsErrored.valInt

/-- Between two states of the emitter, at most one of the aborted, succeeded, failed
and errored counters was incremented, once, and the others are as they were. -/
def atMostOneStatusInc (before after : PrometheusEmitter) : Prop :=
  (after.buildsAborted = before.buildsAborted ∧ after.buildsSucceeded = before.buildsSucceeded ∧
    after.buildsFailed = before.buildsFailed ∧ after.buildsErrored = before.buildsErrored) ∨
  (after.buildsAborted = before.buildsAborted.Inc ∧
    after.buildsSucceeded = before.buildsSucceeded ∧
    after.buildsFailed = before.buildsFailed ∧ after.buildsErrored = before.buildsErrored) ∨
  (after.buildsAborted = before.buildsAborted ∧
    after.buildsSucceeded = before.buildsSucceeded.Inc ∧
    after.buildsFailed = before.buildsFailed ∧ after.buildsErrored = before.buildsErrored) ∨
  (after.buildsAborted = before.buildsAborted ∧ after.buildsSucceeded = before.buildsSucceeded ∧
    after.buildsFailed = before.buildsFailed.Inc ∧
    after.buildsErrored = before.buildsErrored) ∨
  (after.buildsAborted = before.buildsAborted ∧ after.buildsSucceeded = before.buildsSucceeded ∧
    after.buildsFailed = before.buildsFailed ∧
    after.buildsErrored = before.buildsErrored.Inc)

/-- A `build finished` event with the given attributes. -/
def buildFinishedEvent (attributes : GoMap String) : Event :=
  { Name := "build finished", Value := 1500, Attributes := attributes }

/-- The attributes of a finished build of job `main/pipe/unit` with the given status. -/
def buildAttributes (status : String) : GoMap String :=
  [("team_name", "main"), ("pipeline", "pipe"), ("job", "unit"), ("build_status", status)]

/-! ## Migration 1516643303, down
(`atc/db/migration/migrations/1516643303_update_auth_providers.down.go`)

The transaction, the encryption strategy and the package `encoding/json` are the
migration's collaborators; they are taken as given functions that may fail.  A
value written under `UPDATE teams` is recorded in the list of executed updates. -/

/-- A decoded JSON value, as `json.Unmarshal` stores it in an `interface{}`: `nil`, a
`bool`, a `float64`, a `string`, a `[]interface{}` or a `map[string]interface{}`. -/
inductive JSONValue where
  | null : JSONValue
  | bool (b : Bool) : JSONValue
  | number (n : Float) : JSONValue
  | string (s : String) : JSONValue
  | array (items : List JSONValue) : JSONValue
  | object (fields : List (String × JSONValue)) : JSONValue

/-- The local struct `team` of the migration: a row of the table `teams`. -/
structure TeamRow where
  id : Int
  auth : String
  nonce : Option String
  deriving DecidableEq, Repr

/-- The arguments of the statement `UPDATE teams SET basic_auth = $1, auth = $2, nonce =
$3 WHERE id = $4`. -/
structure UpdateArgs where
  basicAuth : String
  auth : String
  nonce : Option String
  id : Int
  deriving DecidableEq, Repr

/-- The struct `migrations` with what the migration calls: the encryption `Strategy`,
the functions of `encoding/json` at the types they are used at, and the transaction
`Tx` (the rows that the `SELECT` scans, the outcome of the `ALTER TABLE` and of an
`UPDATE`).  A `nil` map is `none`. -/
structure Migrations where
  Decrypt : String → Option String → Except GoError String
  Encrypt : String → Except GoError (String × Option String)
  Unmarshal : String → Except GoError (Option (GoMap JSONValue))
  MarshalAuth : Option (GoMap JSONValue) → Except GoError String
  MarshalBasicAuth : Option (GoMap String) → Except GoError String
  queryTeams : Except GoError (List TeamRow)
  execAlter : Option GoError
  execUpdate : UpdateArgs → Option GoError

/-- What the `basicauth` block of the loop body comes to: the basic auth config (a
`nil` map when there is no `basicauth` entry), the return of the error `malformed
basicauth provider`, or a panic of a type assertion. -/
inductive BasicAuthStep where
  | config (basicAuthConfig : Option (GoMap String)) : BasicAuthStep
  | malformed : BasicAuthStep
  | panic : BasicAuthStep
  deriving DecidableEq, Repr

/-- The `basicauth` block of the loop body (lines 58 to 68). -/
def extractBasicAuth (authConfig : Option (GoMap JSONValue)) : BasicAuthStep :=
  match mapGet (authConfig.getD []) "basicauth" with
  | none => BasicAuthStep.config none
  | some (JSONValue.object configMap) =>
      match mapGet configMap "username" with
      | some (JSONValue.string username) =>
          match mapGet configMap "password" with
          | some (JSONValue.string password) =>
              BasicAuthStep.config (some (mapSet (mapSet [] "basic_auth_username" username)
                "basic_auth_password" password))
          | _ => BasicAuthStep.panic
      | _ => BasicAuthStep.panic
  | some _ => BasicAuthStep.malformed

/-- The statements `delete(authConfig, "noauth")` and `delete(authConfig, "basicauth")`. -/
def stripProviders (authConfig : Option (GoMap JSONValue)) : Option (GoMap JSONValue) :=
  authConfig.map (fun c => mapDelete (mapDelete c "noauth") "basicauth")

/-- What the loop body comes to for one team: the `UPDATE` it executed, the error it
returned, or a panic. -/
inductive TeamStep where
  | updated (args : UpdateArgs) : TeamStep
  | failed (err : GoError) : TeamStep
  | panicked : TeamStep
  deriving DecidableEq, Repr

/-- The body of the loop `for _, team := range teams` (lines 40 to 92). -/
def downTeam (m : Migrations) (team : TeamRow) : TeamStep :=
  match m.Decrypt team.auth team.nonce with
  | Except.error err => TeamStep.failed err
  | Except.ok decryptedAuth =>
  match m.Unmarshal decryptedAuth with
  | Except.error err => TeamStep.failed err
  | Except.ok authConfig =>
  match extractBasicAuth authConfig with
  | BasicAuthStep.malformed => TeamStep.failed (GoError.New "malformed basicauth provider")
  | BasicAuthStep.panic => TeamStep.panicked
  | BasicAuthStep.config basicAuthConfig =>
  match m.MarshalAuth (stripProviders authConfig) with
  | Except.error err => TeamStep.failed err
  | Except.ok newAuth =>
  match m.MarshalBasicAuth basicAuthConfig with
  | Except.error err => TeamStep.failed err
  | Except.ok newBasicAuth =>
  match m.Encrypt newAuth with
  | Except.error err => TeamStep.failed err
  | Except.ok (encryptedAuth, noncense) =>
  match m.execUpdate
      { basicAuth := newBasicAuth, auth := encryptedAuth, nonce := noncense, id := team.id } with
  | some err => TeamStep.failed err
  | none => TeamStep.updated
      { basicAuth := newBasicAuth, auth := encryptedAuth, nonce := noncense, id := team.id }

/-- What a run of the migration comes to: the error it returned (`none` for `nil`),
whether it panicked, and the updates it executed, in order. -/
structure MigrationResult where
  err : Option GoError
  panicked : Bool
  updates : List UpdateArgs
  deriving DecidableEq, Repr

/-- The loop `for _, team := range teams`; `done` are the updates executed so far. -/
def downTeams (m : Migrations) : List TeamRow → List UpdateArgs → MigrationResult
  | [], done => { err := none, panicked := false, updates := done }
  | team :: rest, done =>
      match downTeam m team with
      | TeamStep.updated args => downTeams m rest (done ++ [args])
      | TeamStep.failed err => { err := some err, panicked := false, updates := done }
      | TeamStep.panicked => { err := none, panicked := true, updates := done }

/-- The method `Down_1516643303`. -/
def Down_1516643303 (m : Migrations) : MigrationResult :=
  match m.queryTeams with
  | Except.error err => { err := some err, panicked := false, updates := [] }
  | Except.ok teams =>
      match m.execAlter with
      | some err => { err := some err, panicked := false, updates := [] }
      | none => downTeams m teams []

/-- A decoded auth config with a github, a noauth and a well-formed basicauth
provider. -/
def sampleAuthConfig : GoMap JSONValue :=
  [("github", JSONValue.object [("client_id", JSONValue.string "id")]),
   ("noauth", JSONValue.object [("noauth", JSONValue.bool true)]),
   ("basicauth", JSONValue.object [("username", JSONValue.string "admin"),
      ("password", JSONValue.string "secret")])]

/-- A sample setting: no encryption; the stored auth `github+basic` decodes to
`sampleAuthConfig`, `github` to an object with a github provider only, `malformed`
to an object whose basicauth entry is a string; the encoder writes the keys of the
auth config, and the entries of the basic auth config. -/
def sampleMigrations (teams : List TeamRow) : Migrations :=
  { Decrypt := fun auth _ => Except.ok auth
    Encrypt := fun plain => Except.ok (plain, none)
    Unmarshal := fun plain =>
      if plain = "github+basic" then Except.ok (some sampleAuthConfig)
      else if plain = "github" then
        Except.ok (some [("github", JSONValue.object [("client_id", JSONValue.string "id")])])
      else if plain = "malformed" then
        Except.ok (some [("basicauth", JSONValue.string "admin:secret")])
      else Except.error (GoError.New "invalid character")
    MarshalAuth := fun c => Except.ok (",".intercalate (mapKeys (c.getD [])))
    MarshalBasicAuth := fun c =>
      Except.ok (",".intercalate ((c.getD []).map (fun p => p.1 ++ "=" ++ p.2)))
    queryTeams := Except.ok teams
    execAlter := none
    execUpdate := fun _ => none }

end Concourse

/-! # Theorems -/

namespace Concourse

/-! ## OnAbortStep -/

/-- The sentinel `context.DeadlineExceeded` is not an abort-cancellation. -/
theorem errorsIs_deadlineExceeded_canceled :
    errorsIs GoError.DeadlineExceeded GoError.Canceled = false := by
  simp [errorsIs]

/-- An error made by `errors.New` is not an abort-cancellation. -/
theorem errorsIs_new_canceled (msg : String) :
    errorsIs (GoError.New msg) GoError.Canceled = false := by
  simp [errorsIs]

/-- When the primary returns a nil error, `Run` returns at once. -/
theorem OnAbortStep.Run_of_nil (o : OnAbortStep) (ctx : Context) (state : RunState)
    (h : (o.step.Run ctx state).err = none) :
    o.Run ctx state =
      { ok := (o.step.Run ctx state).ok, err := none, state := (o.step.Run ctx state).state,
        calls := [Call.step ctx state] } := by
  simp [OnAbortStep.Run, h]

/-- When the primary returns an abort-cancellation, `Run` runs the hook on a
background context and returns the primary's pair. -/
theorem OnAbortStep.Run_of_abort (o : OnAbortStep) (ctx : Context) (state : RunState)
    (e : GoError) (h : (o.step.Run ctx state).err = some e)
    (hc : errorsIs e GoError.Canceled = true) :
    o.Run ctx state =
      { ok := (o.step.Run ctx state).ok, err := some e,
        state := (o.hook.Run Context.Background (o.step.Run ctx state).state).state,
        calls := [Call.step ctx state,
                  Call.hook Context.Background (o.step.Run ctx state).state] } := by
  simp [OnAbortStep.Run, h, hc]

/-- When the primary returns any other error, `Run` returns the primary's pair
without running the hook. -/
theorem OnAbortStep.Run_of_error (o : OnAbortStep) (ctx : Context) (state : RunState)
    (e : GoError) (h : (o.step.Run ctx state).err = some e)
    (hc : errorsIs e GoError.Canceled = false) :
    o.Run ctx state =
      { ok := (o.step.Run ctx state).ok, err := some e, state := (o.step.Run ctx state).state,
        calls := [Call.step ctx state] } := by
  simp [OnAbortStep.Run, h, hc]

/-- The abort test of `Run`: a non-nil error for which `errors.Is(err,
context.Canceled)` holds. -/
theorem isAbort_iff (err : Option GoError) :
    isAbort err = true ↔ ∃ e, err = some e ∧ errorsIs e GoError.Canceled = true := by
  cases err with
  | none => simp [isAbort]
  | some e => simp [isAbort]

/-- When the primary's error is no abort-cancellation, `Run` is the primary's run and
nothing else. -/
theorem OnAbortStep.Run_of_not_abort (o : OnAbortStep) (ctx : Context) (state : RunState)
    (h : ¬ ∃ e, (o.step.Run ctx state).err = some e ∧ errorsIs e GoError.Canceled = true) :
    o.Run ctx state =
      { ok := (o.step.Run ctx state).ok, err := (o.step.Run ctx state).err,
        state := (o.step.Run ctx state).state, calls := [Call.step ctx state] } := by
  cases he : (o.step.Run ctx state).err with
  | none => exact OnAbortStep.Run_of_nil o ctx state he
  | some e =>
    cases hc : errorsIs e GoError.Canceled with
    | true => exact absurd ⟨e, he, hc⟩ h
    | false => exact OnAbortStep.Run_of_error o ctx state e he hc

/-- Storing a result under `id` is one more result recorded under `id`. -/
theorem RunState.recorded_StoreResult (s : RunState) (id outcome : String) :
    (s.StoreResult id outcome).recorded id = s.recorded id + 1 := by
  simp [RunState.recorded, RunState.StoreResult]

/-- C1: `OnAbortStep.Run` invokes the hook if and only if the primary step returned
a non-nil error that is an abort-cancellation (`errors.Is(err, context.Canceled)`).
Then the state `Run` leaves is the state the hook leaves when it is applied to the
primary's state.  Otherwise, and so when the primary returns a nil error (whatever
`ok` is), the timeout-cancellation `context.DeadlineExceeded`, or any error that is
not an abort-cancellation, the hook is not applied: the state is as the primary left
it and the outcome is the same whatever the hook is.  A hook that records its
invocations has recorded one more exactly in the first case, and none otherwise. -/
theorem OnAbortStep.hook_runs_iff_abort (o : OnAbortStep) (ctx : Context) (state : RunState) :
    ((∃ e, (o.step.Run ctx state).err = some e ∧ errorsIs e GoError.Canceled = true) →
        (o.Run ctx state).state
          = (o.hook.Run Context.Background (o.step.Run ctx state).state).state) ∧
    ((¬ ∃ e, (o.step.Run ctx state).err = some e ∧ errorsIs e GoError.Canceled = true) →
        (o.Run ctx state).state = (o.step.Run ctx state).state ∧
        ∀ hook2 : Step, (OnAbort o.step hook2).Run ctx state = o.Run ctx state) ∧
    ((o.step.Run ctx state).err = none →
        (o.Run ctx state).state = (o.step.Run ctx state).state) ∧
    ((o.step.Run ctx state).err = some GoError.DeadlineExceeded →
        (o.Run ctx state).state = (o.step.Run ctx state).state) ∧
    (∀ e, (o.step.Run ctx state).err = some e → errorsIs e GoError.Canceled = false →
        (o.Run ctx state).state = (o.step.Run ctx state).state) ∧
    (∀ (hok : Bool) (herr : Option GoError),
        (((OnAbort o.step (recording "hook" hok herr)).Run ctx state).state.recorded "hook"
            = (o.step.Run ctx state).state.recorded "hook" + 1 ↔
          ∃ e, (o.step.Run ctx state).err = some e ∧ errorsIs e GoError.Canceled = true) ∧
        (((OnAbort o.step (recording "hook" hok herr)).Run ctx state).state.recorded "hook"
            = (o.step.Run ctx state).state.recorded "hook" ↔
          ¬ ∃ e, (o.step.Run ctx state).err = some e ∧ errorsIs e GoError.Canceled = true)) ∧
    ((o.Run ctx state).hookRan = true ↔
        ∃ e, (o.step.Run ctx state).err = some e ∧ errorsIs e GoError.Canceled = true) := by
  have habort : ∀ o2 : OnAbortStep,
      (∃ e, (o2.step.Run ctx state).err = some e ∧ errorsIs e GoError.Canceled = true) →
      (o2.Run ctx state).state
        = (o2.hook.Run Context.Background (o2.step.Run ctx state).state).state ∧
      (o2.Run ctx state).hookRan = true := by
    rintro o2 ⟨e, he, hc⟩
    rw [OnAbortStep.Run_of_abort o2 ctx state e he hc]
    exact ⟨rfl, by simp [RunOutcome.hookRan, Call.isHook]⟩
  have hnot : ∀ o2 : OnAbortStep,
      (¬ ∃ e, (o2.step.Run ctx state).err = some e ∧ errorsIs e GoError.Canceled = true) →
      (o2.Run ctx state).state = (o2.step.Run ctx state).state ∧
      (o2.Run ctx state).hookRan = false := by
    intro o2 h
    rw [OnAbortStep.Run_of_not_abort o2 ctx state h]
    exact ⟨rfl, by simp [RunOutcome.hookRan, Call.isHook]⟩
  refine ⟨fun h => (habort o h).1, ?_, ?_, ?_, ?_, ?_, ?_⟩
  · intro h
    refine ⟨(hnot o h).1, fun hook2 => ?_⟩
    rw [OnAbortStep.Run_of_not_abort o ctx state h,
      OnAbortStep.Run_of_not_abort (OnAbort o.step hook2) ctx state h]
    rfl
  · intro h
    refine (hnot o ?_).1
    rintro ⟨e, he, -⟩
    rw [h] at he
    cases he
  · intro h
    refine (hnot o ?_).1
    rintro ⟨e, he, hc⟩
    rw [h] at he
    cases he
    rw [errorsIs_deadlineExceeded_canceled] at hc
    cases hc
  · intro e he hc
    refine (hnot o ?_).1
    rintro ⟨e2, he2, hc2⟩
    rw [he] at he2
    cases he2
    rw [hc] at hc2
    cases hc2
  · intro hok herr
    by_cases h : ∃ e, (o.step.Run ctx state).err = some e ∧ errorsIs e GoError.Canceled = true
    · have hs := (habort (OnAbort o.step (recording "hook" hok herr)) h).1
      have hval : ((OnAbort o.step (recording "hook" hok herr)).Run ctx state).state.recorded
          "hook" = (o.step.Run ctx state).state.recorded "hook" + 1 := by
        rw [hs]
        exact RunState.recorded_StoreResult _ _ _
      constructor
      · exact ⟨fun _ => h, fun _ => hval⟩
      · constructor
        · intro heq
          rw [hval] at heq
          omega
        · intro hn
          exact absurd h hn
    · have hs := (hnot (OnAbort o.step (recording "hook" hok herr)) h).1
      have hval : ((OnAbort o.step (recording "hook" hok herr)).Run ctx state).state.recorded
          "hook" = (o.step.Run ctx state).state.recorded "hook" := by
        rw [hs]
        rfl
      constructor
      · constructor
        · intro heq
          rw [hval] at heq
          omega
        · intro hy
          exact absurd hy h
      · exact ⟨fun _ => h, fun _ => hval⟩
  · constructor
    · intro hr
      by_contra h
      rw [(hnot o h).2] at hr
      cases hr
    · intro h
      exact (habort o h).2

/-- C1 at concrete inputs: on an aborted context the cancellable task's cleanup hook
is applied and leaves its artifact, and a recording hook has recorded one call; a
nil error with `ok = false` and a timed-out context leave the state as the task left
it, without the artifact. -/
theorem OnAbortStep.hook_runs_iff_abort_witness :
    (((OnAbort cancellable (cleanup true none)).Run abortedCtx emptyState).state
        = ((cleanup true none).Run Context.Background
            (cancellable.Run abortedCtx emptyState).state).state ∧
      ((OnAbort cancellable (cleanup true none)).Run abortedCtx emptyState).state.Artifact
        "cleanup" = some "done") ∧
    ((OnAbort cancellable (recording "hook" true none)).Run abortedCtx
        emptyState).state.recorded "hook"
      = (cancellable.Run abortedCtx emptyState).state.recorded "hook" + 1 ∧
    (((OnAbort (returning false none) (cleanup true none)).Run abortedCtx emptyState).state
        = ((returning false none).Run abortedCtx emptyState).state ∧
      ((OnAbort (returning false none) (cleanup true none)).Run abortedCtx
        emptyState).state.Artifact "cleanup" = none) ∧
    (((OnAbort cancellable (cleanup true none)).Run timedOutCtx emptyState).state
        = (cancellable.Run timedOutCtx emptyState).state ∧
      ((OnAbort cancellable (cleanup true none)).Run timedOutCtx emptyState).state.Artifact
        "cleanup" = none) := by
  refine ⟨⟨?_, by decide⟩, ?_, ⟨?_, by decide⟩, ⟨?_, by decide⟩⟩
  · exact (OnAbortStep.hook_runs_iff_abort (OnAbort cancellable (cleanup true none))
      abortedCtx emptyState).1 ⟨GoError.Canceled, rfl, by decide⟩
  · exact ((OnAbortStep.hook_runs_iff_abort (OnAbort cancellable (cleanup true none))
      abortedCtx emptyState).2.2.2.2.2.1 true none).1.2 ⟨GoError.Canceled, rfl, by decide⟩
  · exact (OnAbortStep.hook_runs_iff_abort (OnAbort (returning false none) (cleanup true none))
      abortedCtx emptyState).2.2.1 rfl
  · exact (OnAbortStep.hook_runs_iff_abort (OnAbort cancellable (cleanup true none))
      timedOutCtx emptyState).2.2.2.1 rfl

/-- C2: `OnAbortStep.Run` returns exactly the `(ok, err)` pair the primary step
returned, whatever the hook is and whatever the hook returns; in particular two
runs that differ only in the hook return the same pair. -/
theorem OnAbortStep.returns_primary_pair (step hook hook2 : Step) (ctx : Context)
    (state : RunState) :
    ((OnAbort step hook).Run ctx state).ok = (step.Run ctx state).ok ∧
    ((OnAbort step hook).Run ctx state).err = (step.Run ctx state).err ∧
    ((OnAbort step hook).Run ctx state).ok = ((OnAbort step hook2).Run ctx state).ok ∧
    ((OnAbort step hook).Run ctx state).err = ((OnAbort step hook2).Run ctx state).err := by
  have main : ∀ h : Step, ((OnAbort step h).Run ctx state).ok = (step.Run ctx state).ok ∧
      ((OnAbort step h).Run ctx state).err = (step.Run ctx state).err := by
    intro h
    cases he : (step.Run ctx state).err with
    | none =>
      rw [OnAbortStep.Run_of_nil (OnAbort step h) ctx state he]
      simp [OnAbort]
    | some e =>
      cases hc : errorsIs e GoError.Canceled with
      | true =>
        rw [OnAbortStep.Run_of_abort (OnAbort step h) ctx state e he hc]
        simp [OnAbort]
      | false =>
        rw [OnAbortStep.Run_of_error (OnAbort step h) ctx state e he hc]
        simp [OnAbort]
  refine ⟨(main hook).1, (main hook).2, ?_, ?_⟩
  · rw [(main hook).1, (main hook2).1]
  · rw [(main hook).2, (main hook2).2]

/-- C3: whenever `OnAbortStep.Run` runs the hook, the context it applies the hook to is
`context.Background()`, which is not cancelled (`Err()` is nil) and has no deadline,
whatever the caller's context is: the state `Run` leaves is the one the hook leaves
under `context.Background()`; a hook that reports the context it is handed reports a
nil `Err()` and no deadline; and a hook that gives up under a cancelled context does
its work. -/
theorem OnAbortStep.hook_gets_background (o : OnAbortStep) (ctx : Context) (state : RunState)
    (e : GoError) (he : (o.step.Run ctx state).err = some e)
    (hc : errorsIs e GoError.Canceled = true) :
    (o.Run ctx state).state
        = (o.hook.Run Context.Background (o.step.Run ctx state).state).state ∧
    (Context.Background.Err = none ∧ Context.Background.Deadline = none) ∧
    (((OnAbort o.step contextProbe).Run ctx state).state.Artifact "hook.ctx.Err" = some "nil" ∧
     ((OnAbort o.step contextProbe).Run ctx state).state.Artifact "hook.ctx.Deadline"
        = some "none") ∧
    ((OnAbort o.step carefulCleanup).Run ctx state).state
        = (o.step.Run ctx state).state.StoreArtifact "cleanup" "done" := by
  refine ⟨?_, ⟨rfl, rfl⟩, ⟨?_, ?_⟩, ?_⟩
  · rw [OnAbortStep.Run_of_abort o ctx state e he hc]
  · rw [OnAbortStep.Run_of_abort (OnAbort o.step contextProbe) ctx state e he hc]
    simp [OnAbort, contextProbe, Context.Background, RunState.Artifact,
      RunState.StoreArtifact]
  · rw [OnAbortStep.Run_of_abort (OnAbort o.step contextProbe) ctx state e he hc]
    simp [OnAbort, contextProbe, Context.Background, RunState.Artifact,
      RunState.StoreArtifact]
  · rw [OnAbortStep.Run_of_abort (OnAbort o.step carefulCleanup) ctx state e he hc]
    rfl

/-- C3 at a concrete input: the caller's context is already cancelled; the hook
reports a context that is not, and the careful cleanup leaves its artifact. -/
theorem OnAbortStep.hook_gets_background_witness :
    abortedCtx.Err = some GoError.Canceled ∧
    ((OnAbort cancellable (cleanup true none)).Run abortedCtx emptyState).state
        = ((cleanup true none).Run Context.Background
            (cancellable.Run abortedCtx emptyState).state).state ∧
    (Context.Background.Err = none ∧ Context.Background.Deadline = none) ∧
    (((OnAbort cancellable contextProbe).Run abortedCtx emptyState).state.Artifact
        "hook.ctx.Err" = some "nil" ∧
     ((OnAbort cancellable contextProbe).Run abortedCtx emptyState).state.Artifact
        "hook.ctx.Deadline" = some "none") ∧
    ((OnAbort cancellable carefulCleanup).Run abortedCtx emptyState).state
        = (cancellable.Run abortedCtx emptyState).state.StoreArtifact "cleanup" "done" :=
  ⟨rfl, OnAbortStep.hook_gets_background (OnAbort cancellable (cleanup true none)) abortedCtx
    emptyState GoError.Canceled rfl (by decide)⟩

/-- C4: for `OnAbort(A, cleanup)`, if `A` returns the explicit abort
`context.Canceled` then cleanup runs: the state `Run` leaves is the state cleanup
leaves when applied to `A`'s state.  If in the same setup `A` returns the timeout
cancellation `context.DeadlineExceeded` then cleanup does not run, the state is as `A`
left it and the outcome is the same whatever the cleanup is, and `Run` returns `A`'s
`(ok, context.DeadlineExceeded)` unchanged.  A cleanup that stores an artifact and a
result has stored them after the abort and not after the timeout. -/
theorem OnAbortStep.abort_runs_cleanup_timeout_does_not (A hook : Step) (ctx : Context)
    (state : RunState) (cok : Bool) (cerr : Option GoError) :
    ((A.Run ctx state).err = some GoError.Canceled →
        ((OnAbort A hook).Run ctx state).state
          = (hook.Run Context.Background (A.Run ctx state).state).state ∧
        ((OnAbort A (cleanup cok cerr)).Run ctx state).state
          = ((A.Run ctx state).state.StoreArtifact "cleanup" "done").StoreResult
              "cleanup" "ran" ∧
        ((OnAbort A hook).Run ctx state).hookRan = true) ∧
    ((A.Run ctx state).err = some GoError.DeadlineExceeded →
        ((OnAbort A hook).Run ctx state).state = (A.Run ctx state).state ∧
        ((OnAbort A (cleanup cok cerr)).Run ctx state).state = (A.Run ctx state).state ∧
        (∀ hook2 : Step, (OnAbort A hook2).Run ctx state = (OnAbort A hook).Run ctx state) ∧
        ((OnAbort A hook).Run ctx state).hookRan = false ∧
        ((OnAbort A hook).Run ctx state).ok = (A.Run ctx state).ok ∧
        ((OnAbort A hook).Run ctx state).err = some GoError.DeadlineExceeded) := by
  constructor
  · intro h
    rw [OnAbortStep.Run_of_abort (OnAbort A hook) ctx state GoError.Canceled h (by decide),
      OnAbortStep.Run_of_abort (OnAbort A (cleanup cok cerr)) ctx state GoError.Canceled h
        (by decide)]
    exact ⟨rfl, rfl, by simp [RunOutcome.hookRan, Call.isHook]⟩
  · intro h
    have key : ∀ h2 : Step, (OnAbort A h2).Run ctx state =
        { ok := (A.Run ctx state).ok, err := some GoError.DeadlineExceeded,
          state := (A.Run ctx state).state, calls := [Call.step ctx state] } := fun h2 =>
      OnAbortStep.Run_of_error (OnAbort A h2) ctx state GoError.DeadlineExceeded h (by decide)
    refine ⟨?_, ?_, ?_, ?_, ?_, ?_⟩
    · rw [key hook]
    · rw [key (cleanup cok cerr)]
    · intro hook2
      rw [key hook2, key hook]
    · rw [key hook]
      simp [RunOutcome.hookRan, Call.isHook]
    · rw [key hook]
    · rw [key hook]

/-- C4 at concrete inputs: the same task and cleanup, once under an aborted context,
where the cleanup's artifact is stored, and once under a timed-out one, where it is
not. -/
theorem OnAbortStep.abort_runs_cleanup_timeout_does_not_witness :
    (((OnAbort cancellable (cleanup true none)).Run abortedCtx emptyState).state
        = ((cleanup true none).Run Context.Background
            (cancellable.Run abortedCtx emptyState).state).state ∧
      ((OnAbort cancellable (cleanup true none)).Run abortedCtx emptyState).state.Artifact
        "cleanup" = some "done") ∧
    (((OnAbort cancellable (cleanup true none)).Run timedOutCtx emptyState).state
        = (cancellable.Run timedOutCtx emptyState).state ∧
      ((OnAbort cancellable (cleanup true none)).Run timedOutCtx emptyState).state.Artifact
        "cleanup" = none ∧
      ((OnAbort cancellable (cleanup true none)).Run timedOutCtx emptyState).ok
        = (cancellable.Run timedOutCtx emptyState).ok ∧
      ((OnAbort cancellable (cleanup true none)).Run timedOutCtx emptyState).err
        = some GoError.DeadlineExceeded) :=
  have ha := (OnAbortStep.abort_runs_cleanup_timeout_does_not cancellable (cleanup true none)
    abortedCtx emptyState true none).1 rfl
  have ht := (OnAbortStep.abort_runs_cleanup_timeout_does_not cancellable (cleanup true none)
    timedOutCtx emptyState true none).2 rfl
  ⟨⟨ha.1, by decide⟩, ⟨ht.1, by decide, ht.2.2.2.2.1, ht.2.2.2.2.2⟩⟩

/-- C5: at an aborted primary whose hook runs and returns the error
`errors.New("cleanup failed")`, `OnAbortStep.Run` returns the primary's
`context.Canceled`, not the hook's error. -/
theorem OnAbortStep.hook_error_dropped :
    ((OnAbort (returning false (some GoError.Canceled))
        (cleanup false (some (GoError.New "cleanup failed")))).Run abortedCtx emptyState).hookRan
      = true ∧
    ((cleanup false (some (GoError.New "cleanup failed"))).Run Context.Background
        ((returning false (some GoError.Canceled)).Run abortedCtx emptyState).state).err
      = some (GoError.New "cleanup failed") ∧
    ((OnAbort (returning false (some GoError.Canceled))
        (cleanup false (some (GoError.New "cleanup failed")))).Run abortedCtx emptyState).err
      = some GoError.Canceled ∧
    ((OnAbort (returning false (some GoError.Canceled))
        (cleanup false (some (GoError.New "cleanup failed")))).Run abortedCtx emptyState).err
      ≠ some (GoError.New "cleanup failed") := by
  refine ⟨by decide, rfl, rfl, by decide⟩

/-- C6 fails: after an aborted run the artifact and the result the cleanup hook
stored are in the caller's `RunState`, which held neither before the run nor after
the primary step. -/
theorem OnAbortStep.hook_writes_reach_parent :
    emptyState.Artifact "cleanup" = none ∧
    (cancellable.Run abortedCtx emptyState).state.Artifact "cleanup" = none ∧
    ((OnAbort cancellable (cleanup true none)).Run abortedCtx emptyState).state.Artifact
      "cleanup" = some "done" ∧
    ((OnAbort cancellable (cleanup true none)).Run abortedCtx emptyState).state.Result
      "cleanup" = some "ran" := by
  refine ⟨by decide, by decide, by decide, by decide⟩

/-- C6 as amended: `OnAbortStep.Run` hands the hook the caller's own `RunState`, as the
primary step left it, without a local scope.  When the hook runs, the caller's
state after `Run` is the state as the hook left it; when it does not run, the
caller's state is as the primary left it. -/
theorem OnAbortStep.hook_shares_state (o : OnAbortStep) (ctx : Context) (state : RunState) :
    (∀ c ∈ (o.Run ctx state).calls, c.isHook = true →
        c.state = (o.step.Run ctx state).state) ∧
    ((o.Run ctx state).hookRan = true →
        (o.Run ctx state).state
          = (o.hook.Run Context.Background (o.step.Run ctx state).state).state) ∧
    ((o.Run ctx state).hookRan = false →
        (o.Run ctx state).state = (o.step.Run ctx state).state) := by
  cases he : (o.step.Run ctx state).err with
  | none =>
    rw [OnAbortStep.Run_of_nil o ctx state he]
    simp [RunOutcome.hookRan, Call.isHook]
  | some e =>
    cases hcan : errorsIs e GoError.Canceled with
    | true =>
      rw [OnAbortStep.Run_of_abort o ctx state e he hcan]
      simp [RunOutcome.hookRan, Call.isHook, Call.state]
    | false =>
      rw [OnAbortStep.Run_of_error o ctx state e he hcan]
      simp [RunOutcome.hookRan, Call.isHook]

/-- C6 as amended, at a concrete input: the cleanup hook of an aborted task starts
from the caller's state and its writes are the caller's state afterwards. -/
theorem OnAbortStep.hook_shares_state_witness :
    (Call.hook Context.Background emptyState).state
        = (cancellable.Run abortedCtx emptyState).state ∧
    ((OnAbort cancellable (cleanup true none)).Run abortedCtx emptyState).state
        = ((cleanup true none).Run Context.Background
            (cancellable.Run abortedCtx emptyState).state).state :=
  ⟨(OnAbortStep.hook_shares_state (OnAbort cancellable (cleanup true none)) abortedCtx
      emptyState).1 (Call.hook Context.Background emptyState) (by decide) rfl,
   (OnAbortStep.hook_shares_state (OnAbort cancellable (cleanup true none)) abortedCtx
      emptyState).2.1 (by decide)⟩

/-! ## ClaimsCacher -/

/-- A cached key is answered from the cache without a fetch. -/
theorem ClaimsCacher.GetAccessToken_hit {δ : Type} (c : ClaimsCacher δ) (k : String)
    (e : CacheEntry) (h : c.cached k = some e) :
    c.GetAccessToken k =
      ({ token := e.token, found := true, err := none },
       { c with cache := c.cache.filter (fun x => x.key != k) ++ [e] }) := by
  simp [ClaimsCacher.GetAccessToken, h]

/-- A miss whose fetched token is found without error and fits is cached. -/
theorem ClaimsCacher.GetAccessToken_miss_fit {δ : Type} (c : ClaimsCacher δ) (k : String)
    (h : c.cached k = none)
    (herr : (c.accessTokenFetcher.GetAccessToken c.db k).1.err = none)
    (hfound : (c.accessTokenFetcher.GetAccessToken c.db k).1.found = true)
    (hfit : (c.claimsSize (c.accessTokenFetcher.GetAccessToken c.db k).1.token.Claims : Int)
      ≤ c.maxCacheSizeBytes) :
    c.GetAccessToken k =
      ((c.accessTokenFetcher.GetAccessToken c.db k).1,
       { c with
         db := (c.accessTokenFetcher.GetAccessToken c.db k).2
         fetched := c.fetched ++ [k]
         cache := evictOldest c.maxCacheSizeBytes
           (c.cache ++ [{ key := k
                          token := (c.accessTokenFetcher.GetAccessToken c.db k).1.token
                          size := c.claimsSize
                            (c.accessTokenFetcher.GetAccessToken c.db k).1.token.Claims }]) }) := by
  have hnot : ¬ (c.maxCacheSizeBytes
      < (c.claimsSize (c.accessTokenFetcher.GetAccessToken c.db k).1.token.Claims : Int)) := by
    omega
  simp [ClaimsCacher.GetAccessToken, h, herr, hfound, hnot]

/-- A miss whose fetch fails, finds nothing, or finds a token larger than the limit
leaves the cache as it was. -/
theorem ClaimsCacher.GetAccessToken_miss_skip {δ : Type} (c : ClaimsCacher δ) (k : String)
    (h : c.cached k = none)
    (hskip : (c.accessTokenFetcher.GetAccessToken c.db k).1.err.isSome = true ∨
      (c.accessTokenFetcher.GetAccessToken c.db k).1.found = false ∨
      (c.claimsSize (c.accessTokenFetcher.GetAccessToken c.db k).1.token.Claims : Int)
        > c.maxCacheSizeBytes) :
    c.GetAccessToken k =
      ((c.accessTokenFetcher.GetAccessToken c.db k).1,
       { c with
         db := (c.accessTokenFetcher.GetAccessToken c.db k).2
         fetched := c.fetched ++ [k] }) := by
  unfold ClaimsCacher.GetAccessToken
  rw [h]
  rcases hskip with hs | hs | hs
  · simp [hs]
  · simp [hs]
  · by_cases hc : ((c.accessTokenFetcher.GetAccessToken c.db k).1.err.isSome ||
        !(c.accessTokenFetcher.GetAccessToken c.db k).1.found) = true
    · simp only [hc, if_true]
    · simp only [hc, hs, if_true]
      simp

/-- The entry added last survives the eviction when it fits by itself: only a
least recently used part of the older entries is dropped, nothing is dropped when
all entries fit, and what is kept fits. -/
theorem evictOldest_append_fits (max : Int) (e : CacheEntry) (he : (e.size : Int) ≤ max)
    (l : List CacheEntry) :
    ∃ dropped kept, l = dropped ++ kept ∧ evictOldest max (l ++ [e]) = kept ++ [e] ∧
      (cacheSizeBytes (kept ++ [e]) : Int) ≤ max ∧
      ((cacheSizeBytes (l ++ [e]) : Int) ≤ max → dropped = []) := by
  induction l with
  | nil =>
    refine ⟨[], [], rfl, ?_, ?_, fun _ => rfl⟩
    · have : ¬ (max < (e.size : Int)) := by omega
      simp [evictOldest, cacheSizeBytes, this]
    · simpa [cacheSizeBytes] using he
  | cons a t ih =>
    obtain ⟨dropped, kept, hl, hev, hle, -⟩ := ih
    by_cases hc : (cacheSizeBytes (a :: (t ++ [e])) : Int) > max
    · refine ⟨a :: dropped, kept, by simp [hl], ?_, hle, ?_⟩
      · rw [List.cons_append, evictOldest, if_pos hc]
        exact hev
      · intro h
        rw [List.cons_append] at h
        omega
    · refine ⟨[], a :: t, rfl, ?_, ?_, fun _ => rfl⟩
      · rw [List.cons_append, evictOldest, if_neg hc]
      · rw [List.cons_append]
        omega

/-- Looking a key up among entries none of which has it, followed by an entry that
has it, finds that entry. -/
theorem find_key_append (l : List CacheEntry) (e : CacheEntry) (k : String)
    (hl : l.find? (fun x => x.key == k) = none) (he : e.key = k) :
    (l ++ [e]).find? (fun x => x.key == k) = some e := by
  rw [List.find?_append, hl]
  simp [he]

/-- C7: when a key is not cached and the fetched token is found without error and
fits within `maxCacheSizeBytes`, a second `GetAccessToken` call with the same key is
answered from the cache: across the two calls the underlying fetcher is called
exactly once (with that key), and the second call returns what the first one
returned, the fetched token. -/
theorem ClaimsCacher.second_call_served_from_cache {δ : Type} (c : ClaimsCacher δ)
    (k : String) (hmiss : c.cached k = none)
    (herr : (c.accessTokenFetcher.GetAccessToken c.db k).1.err = none)
    (hfound : (c.accessTokenFetcher.GetAccessToken c.db k).1.found = true)
    (hfit : (c.claimsSize (c.accessTokenFetcher.GetAccessToken c.db k).1.token.Claims : Int)
      ≤ c.maxCacheSizeBytes) :
    (c.GetAccessToken k).2.fetched = c.fetched ++ [k] ∧
    ((c.GetAccessToken k).2.GetAccessToken k).2.fetched = c.fetched ++ [k] ∧
    ((c.GetAccessToken k).2.GetAccessToken k).2.db
      = (c.accessTokenFetcher.GetAccessToken c.db k).2 ∧
    ((c.GetAccessToken k).2.GetAccessToken k).1 = (c.GetAccessToken k).1 ∧
    (c.GetAccessToken k).1 = (c.accessTokenFetcher.GetAccessToken c.db k).1 := by
  obtain ⟨dropped, kept, hsplit, hev, -, -⟩ := evictOldest_append_fits c.maxCacheSizeBytes
    { key := k, token := (c.accessTokenFetcher.GetAccessToken c.db k).1.token,
      size := c.claimsSize (c.accessTokenFetcher.GetAccessToken c.db k).1.token.Claims }
    hfit c.cache
  have hkept : kept.find? (fun x => x.key == k) = none := by
    have h := hmiss
    unfold ClaimsCacher.cached at h
    rw [hsplit, List.find?_append] at h
    cases hd : List.find? (fun x => x.key == k) dropped with
    | none => simpa [hd] using h
    | some x => simp [hd] at h
  have hfirst := ClaimsCacher.GetAccessToken_miss_fit c k hmiss herr hfound hfit
  rw [hev] at hfirst
  have hhit : (c.GetAccessToken k).2.cached k = some
      { key := k, token := (c.accessTokenFetcher.GetAccessToken c.db k).1.token,
        size := c.claimsSize (c.accessTokenFetcher.GetAccessToken c.db k).1.token.Claims } := by
    rw [hfirst]
    exact find_key_append kept _ k hkept rfl
  have hsecond := ClaimsCacher.GetAccessToken_hit _ k _ hhit
  refine ⟨by rw [hfirst], by rw [hsecond, hfirst], by rw [hsecond, hfirst], ?_, by rw [hfirst]⟩
  rw [hsecond, hfirst]
  cases hr : (c.accessTokenFetcher.GetAccessToken c.db k).1 with
  | mk token found err =>
    rw [hr] at herr hfound
    simp only at herr hfound
    subst herr hfound
    rfl

/-- C7 at the test's input: two calls for one key on a fresh cacher of 1000 bytes in
front of the fake fetcher. -/
theorem ClaimsCacher.second_call_served_from_cache_witness :
    ((NewClaimsCacher (FakeAccessTokenFetcher (foundToken (tokenWith "aaaa"))) [] sampleSize
        1000).GetAccessToken "token").2.fetched = [] ++ ["token"] ∧
    (((NewClaimsCacher (FakeAccessTokenFetcher (foundToken (tokenWith "aaaa"))) [] sampleSize
        1000).GetAccessToken "token").2.GetAccessToken "token").2.fetched = [] ++ ["token"] ∧
    (((NewClaimsCacher (FakeAccessTokenFetcher (foundToken (tokenWith "aaaa"))) [] sampleSize
        1000).GetAccessToken "token").2.GetAccessToken "token").2.db = [] ++ ["token"] ∧
    (((NewClaimsCacher (FakeAccessTokenFetcher (foundToken (tokenWith "aaaa"))) [] sampleSize
        1000).GetAccessToken "token").2.GetAccessToken "token").1
      = ((NewClaimsCacher (FakeAccessTokenFetcher (foundToken (tokenWith "aaaa"))) []
          sampleSize 1000).GetAccessToken "token").1 ∧
    ((NewClaimsCacher (FakeAccessTokenFetcher (foundToken (tokenWith "aaaa"))) [] sampleSize
        1000).GetAccessToken "token").1 = foundToken (tokenWith "aaaa") :=
  ClaimsCacher.second_call_served_from_cache
    (NewClaimsCacher (FakeAccessTokenFetcher (foundToken (tokenWith "aaaa"))) [] sampleSize 1000)
    "token" rfl rfl rfl (by decide)

/-- C10: on a cache miss `GetAccessToken` calls the underlying fetcher once and returns
exactly what it returns: the fetched token with `found = true` and no error, `found
= false` with no error when the token does not exist, and the fetcher's error when
it fails. -/
theorem ClaimsCacher.miss_returns_fetched {δ : Type} (c : ClaimsCacher δ) (k : String)
    (hmiss : c.cached k = none) :
    (c.GetAccessToken k).1 = (c.accessTokenFetcher.GetAccessToken c.db k).1 ∧
    (c.GetAccessToken k).2.fetched = c.fetched ++ [k] ∧
    (∀ t, (c.accessTokenFetcher.GetAccessToken c.db k).1
          = { token := t, found := true, err := none } →
        (c.GetAccessToken k).1 = { token := t, found := true, err := none }) ∧
    (∀ t, (c.accessTokenFetcher.GetAccessToken c.db k).1
          = { token := t, found := false, err := none } →
        (c.GetAccessToken k).1.found = false ∧ (c.GetAccessToken k).1.err = none) ∧
    (∀ t b e, (c.accessTokenFetcher.GetAccessToken c.db k).1
          = { token := t, found := b, err := some e } →
        (c.GetAccessToken k).1.err = some e) := by
  have h1 : (c.GetAccessToken k).1 = (c.accessTokenFetcher.GetAccessToken c.db k).1 ∧
      (c.GetAccessToken k).2.fetched = c.fetched ++ [k] := by
    unfold ClaimsCacher.GetAccessToken
    rw [hmiss]
    simp only
    split_ifs <;> exact ⟨rfl, rfl⟩
  refine ⟨h1.1, h1.2, ?_, ?_, ?_⟩
  · intro t ht
    rw [h1.1, ht]
  · intro t ht
    rw [h1.1, ht]
    exact ⟨rfl, rfl⟩
  · intro t b e ht
    rw [h1.1, ht]

/-- C10 at the test's inputs: a found token, a missing token and a failing fetcher. -/
theorem ClaimsCacher.miss_returns_fetched_witness :
    ((NewClaimsCacher (FakeAccessTokenFetcher
        { token := { Claims := { Username := "foo", RawClaims := [] } }, found := true,
          err := none }) [] sampleSize 1000).GetAccessToken "token").1
      = { token := { Claims := { Username := "foo", RawClaims := [] } }, found := true,
          err := none } ∧
    (((NewClaimsCacher (FakeAccessTokenFetcher
        { token := { Claims := { Username := "", RawClaims := [] } }, found := false,
          err := none }) [] sampleSize 1000).GetAccessToken "token").1.found = false ∧
     ((NewClaimsCacher (FakeAccessTokenFetcher
        { token := { Claims := { Username := "", RawClaims := [] } }, found := false,
          err := none }) [] sampleSize 1000).GetAccessToken "token").1.err = none) ∧
    ((NewClaimsCacher (FakeAccessTokenFetcher
        { token := { Claims := { Username := "", RawClaims := [] } }, found := false,
          err := some (GoError.New "error") }) [] sampleSize 1000).GetAccessToken "token").1.err
      = some (GoError.New "error") :=
  ⟨(ClaimsCacher.miss_returns_fetched (NewClaimsCacher (FakeAccessTokenFetcher
        { token := { Claims := { Username := "foo", RawClaims := [] } }, found := true,
          err := none }) [] sampleSize 1000) "token" rfl).2.2.1 _ rfl,
   (ClaimsCacher.miss_returns_fetched (NewClaimsCacher (FakeAccessTokenFetcher
        { token := { Claims := { Username := "", RawClaims := [] } }, found := false,
          err := none }) [] sampleSize 1000) "token" rfl).2.2.2.1 _ rfl,
   (ClaimsCacher.miss_returns_fetched (NewClaimsCacher (FakeAccessTokenFetcher
        { token := { Claims := { Username := "", RawClaims := [] } }, found := false,
          err := some (GoError.New "error") }) [] sampleSize 1000) "token" rfl).2.2.2.2 _ _ _
      rfl⟩

/-- Entries within the limit are all kept. -/
theorem evictOldest_of_le (max : Int) (l : List CacheEntry)
    (h : (cacheSizeBytes l : Int) ≤ max) : evictOldest max l = l := by
  cases l with
  | nil => rfl
  | cons a t =>
    have hc : ¬ ((cacheSizeBytes (a :: t) : Int) > max) := by omega
    rw [evictOldest, if_neg hc]

/-- Entries beyond the limit lose the least recently used one. -/
theorem evictOldest_cons_of_gt (max : Int) (a : CacheEntry) (t : List CacheEntry)
    (h : (cacheSizeBytes (a :: t) : Int) > max) :
    evictOldest max (a :: t) = evictOldest max t := by
  rw [evictOldest, if_pos h]

/-- One miss in front of a fetcher that finds tokens of size `sz`, when `sz` fits. -/
theorem ClaimsCacher.miss_step {δ : Type} (c : ClaimsCacher δ) (k : String) (sz : Nat)
    (hmiss : c.cached k = none)
    (hf : c.accessTokenFetcher.findsTokensOfSize c.claimsSize sz)
    (hsz : (sz : Int) ≤ c.maxCacheSizeBytes) :
    ∃ t, (c.GetAccessToken k).1 = { token := t, found := true, err := none } ∧
      (c.GetAccessToken k).2.cache
        = evictOldest c.maxCacheSizeBytes (c.cache ++ [{ key := k, token := t, size := sz }]) ∧
      (c.GetAccessToken k).2.fetched = c.fetched ++ [k] ∧
      (c.GetAccessToken k).2.accessTokenFetcher = c.accessTokenFetcher ∧
      (c.GetAccessToken k).2.claimsSize = c.claimsSize ∧
      (c.GetAccessToken k).2.maxCacheSizeBytes = c.maxCacheSizeBytes := by
  obtain ⟨herr, hfound, hsize⟩ := hf c.db k
  have hfit : (c.claimsSize (c.accessTokenFetcher.GetAccessToken c.db k).1.token.Claims : Int)
      ≤ c.maxCacheSizeBytes := by rw [hsize]; exact hsz
  rw [ClaimsCacher.GetAccessToken_miss_fit c k hmiss herr hfound hfit, hsize]
  refine ⟨(c.accessTokenFetcher.GetAccessToken c.db k).1.token, ?_, rfl, rfl, rfl, rfl, rfl⟩
  cases hr : (c.accessTokenFetcher.GetAccessToken c.db k).1 with
  | mk token found err =>
    rw [hr] at herr hfound
    simp only at herr hfound
    subst herr hfound
    rfl

/-- One hit: nothing is fetched. -/
theorem ClaimsCacher.hit_step {δ : Type} (c : ClaimsCacher δ) (k : String) (e : CacheEntry)
    (h : c.cached k = some e) :
    (c.GetAccessToken k).1 = { token := e.token, found := true, err := none } ∧
    (c.GetAccessToken k).2.fetched = c.fetched := by
  rw [ClaimsCacher.GetAccessToken_hit c k e h]
  exact ⟨rfl, rfl⟩

/-- C9: a key that is not cached and for which the fetcher returns a token whose claims
are by themselves larger than `maxCacheSizeBytes` is never cached: after `n` calls of
`GetAccessToken` for it the fetcher has been called `n` more times, each time
with that key, the key is still not cached and the cache is as it was. -/
theorem ClaimsCacher.oversize_never_cached {δ : Type} (c : ClaimsCacher δ) (k : String)
    (n : Nat) (hmiss : c.cached k = none)
    (hbig : ∀ d : δ, (c.claimsSize (c.accessTokenFetcher.GetAccessToken d k).1.token.Claims : Int)
      > c.maxCacheSizeBytes) :
    (c.getTimes k n).fetched = c.fetched ++ List.replicate n k ∧
    ((c.getTimes k n).fetched.length = c.fetched.length + n) ∧
    (c.getTimes k n).cached k = none ∧
    (c.getTimes k n).cache = c.cache := by
  have inv : ∀ m, (c.getTimes k m).fetched = c.fetched ++ List.replicate m k ∧
      (c.getTimes k m).cache = c.cache ∧
      (c.getTimes k m).accessTokenFetcher = c.accessTokenFetcher ∧
      (c.getTimes k m).claimsSize = c.claimsSize ∧
      (c.getTimes k m).maxCacheSizeBytes = c.maxCacheSizeBytes := by
    intro m
    induction m with
    | zero => simp [ClaimsCacher.getTimes]
    | succ m ih =>
      obtain ⟨hfe, hca, hfa, hcs, hmx⟩ := ih
      have hm : (c.getTimes k m).cached k = none := by
        unfold ClaimsCacher.cached
        rw [hca]
        exact hmiss
      have hb : ((c.getTimes k m).claimsSize ((c.getTimes k m).accessTokenFetcher.GetAccessToken
          (c.getTimes k m).db k).1.token.Claims : Int) > (c.getTimes k m).maxCacheSizeBytes := by
        rw [hfa, hcs, hmx]
        exact hbig _
      have hstep := ClaimsCacher.GetAccessToken_miss_skip (c.getTimes k m) k hm
        (Or.inr (Or.inr hb))
      simp only [ClaimsCacher.getTimes]
      rw [hstep]
      refine ⟨?_, hca, hfa, hcs, hmx⟩
      simp only [hfe, List.replicate_succ', List.append_assoc]
  obtain ⟨hfe, hca, -, -, -⟩ := inv n
  refine ⟨hfe, ?_, ?_, hca⟩
  · rw [hfe]
    simp
  · unfold ClaimsCacher.cached
    rw [hca]
    exact hmiss

/-- C9 at the test's input: two calls for a token of 2001 bytes, more than the limit
of 1000, give two fetches. -/
theorem ClaimsCacher.oversize_never_cached_witness :
    ((NewClaimsCacher (FakeAccessTokenFetcher (foundToken (tokenWith "aaaaaaaaaaaa"))) []
        sampleSize 10).getTimes "token" 2).fetched = [] ++ List.replicate 2 "token" ∧
    (((NewClaimsCacher (FakeAccessTokenFetcher (foundToken (tokenWith "aaaaaaaaaaaa"))) []
        sampleSize 10).getTimes "token" 2).fetched.length = ([] : List String).length + 2) ∧
    ((NewClaimsCacher (FakeAccessTokenFetcher (foundToken (tokenWith "aaaaaaaaaaaa"))) []
        sampleSize 10).getTimes "token" 2).cached "token" = none ∧
    ((NewClaimsCacher (FakeAccessTokenFetcher (foundToken (tokenWith "aaaaaaaaaaaa"))) []
        sampleSize 10).getTimes "token" 2).cache = [] :=
  ClaimsCacher.oversize_never_cached
    (NewClaimsCacher (FakeAccessTokenFetcher (foundToken (tokenWith "aaaaaaaaaaaa"))) []
      sampleSize 10) "token" 2 rfl
    (fun _ => (by decide : ((sampleSize (tokenWith "aaaaaaaaaaaa").Claims : Nat) : Int) > 10))

/-- One hit: the entry becomes the most recently used, the other entries keep their
order, and nothing else changes. -/
theorem ClaimsCacher.hit_state {δ : Type} (c : ClaimsCacher δ) (k : String) (e : CacheEntry)
    (h : c.cached k = some e) :
    (c.GetAccessToken k).2.cache = c.cache.filter (fun x => x.key != k) ++ [e] ∧
    (c.GetAccessToken k).2.fetched = c.fetched ∧
    (c.GetAccessToken k).2.db = c.db ∧
    (c.GetAccessToken k).2.accessTokenFetcher = c.accessTokenFetcher ∧
    (c.GetAccessToken k).2.claimsSize = c.claimsSize ∧
    (c.GetAccessToken k).2.maxCacheSizeBytes = c.maxCacheSizeBytes := by
  rw [ClaimsCacher.GetAccessToken_hit c k e h]
  exact ⟨rfl, rfl, rfl, rfl, rfl, rfl⟩

/-- C8: when a newly fetched token that fits by itself is cached, the cacher evicts
least recently used entries only, keeps the newest, ends within `maxCacheSizeBytes`,
and evicts nothing unless the cache would exceed the limit; and a key served from the
cache becomes the most recently used, the other entries keeping their order.  In
particular, on a fresh cacher whose limit holds two tokens but not three, after
fetching `k1`, `k2`, `k3` in that order `k1` is no longer cached and is fetched again,
while `k3` is then still served from the cache; and after `k1`, `k2`, then `k1` again
from the cache, fetching `k3` evicts `k2`, not `k1`: `k1` is still served from the
cache and `k2` is fetched again. -/
theorem ClaimsCacher.evicts_least_recently_used {δ : Type} (c : ClaimsCacher δ) (k : String)
    (f : AccessTokenFetcher δ) (db : δ) (claimsSize : Claims → Nat) (max : Int) (sz : Nat)
    (k1 k2 k3 : String) :
    (c.cached k = none →
      (c.accessTokenFetcher.GetAccessToken c.db k).1.err = none →
      (c.accessTokenFetcher.GetAccessToken c.db k).1.found = true →
      (c.claimsSize (c.accessTokenFetcher.GetAccessToken c.db k).1.token.Claims : Int)
        ≤ c.maxCacheSizeBytes →
      ∃ dropped kept, c.cache = dropped ++ kept ∧
        (c.GetAccessToken k).2.cache = kept ++
          [{ key := k, token := (c.accessTokenFetcher.GetAccessToken c.db k).1.token,
             size := c.claimsSize (c.accessTokenFetcher.GetAccessToken c.db k).1.token.Claims }] ∧
        (cacheSizeBytes (c.GetAccessToken k).2.cache : Int) ≤ c.maxCacheSizeBytes ∧
        ((cacheSizeBytes (c.cache ++
          [{ key := k, token := (c.accessTokenFetcher.GetAccessToken c.db k).1.token,
             size := c.claimsSize (c.accessTokenFetcher.GetAccessToken c.db k).1.token.Claims }])
            : Int) ≤ c.maxCacheSizeBytes → dropped = [])) ∧
    (∀ e : CacheEntry, c.cached k = some e →
      (c.GetAccessToken k).1 = { token := e.token, found := true, err := none } ∧
      (c.GetAccessToken k).2.cache = c.cache.filter (fun x => x.key != k) ++ [e] ∧
      (c.GetAccessToken k).2.fetched = c.fetched) ∧
    (f.findsTokensOfSize claimsSize sz → (2 * sz : Int) ≤ max → max < (3 * sz : Int) →
      k1 ≠ k2 → k1 ≠ k3 → k2 ≠ k3 →
      (((NewClaimsCacher f db claimsSize max).getAll [k1, k2]).fetched = [k1, k2] ∧
       ((NewClaimsCacher f db claimsSize max).getAll [k1, k2]).keys = [k1, k2] ∧
       ((NewClaimsCacher f db claimsSize max).getAll [k1, k2, k3]).fetched = [k1, k2, k3] ∧
       ((NewClaimsCacher f db claimsSize max).getAll [k1, k2, k3]).keys = [k2, k3] ∧
       ((NewClaimsCacher f db claimsSize max).getAll [k1, k2, k3]).cached k1 = none ∧
       ((NewClaimsCacher f db claimsSize max).getAll [k1, k2, k3, k1]).fetched
         = [k1, k2, k3, k1] ∧
       ((NewClaimsCacher f db claimsSize max).getAll [k1, k2, k3, k1]).keys = [k3, k1] ∧
       ((NewClaimsCacher f db claimsSize max).getAll [k1, k2, k3, k1, k3]).fetched
         = [k1, k2, k3, k1]) ∧
      (((NewClaimsCacher f db claimsSize max).getAll [k1, k2, k1]).fetched = [k1, k2] ∧
       ((NewClaimsCacher f db claimsSize max).getAll [k1, k2, k1]).keys = [k2, k1] ∧
       ((NewClaimsCacher f db claimsSize max).getAll [k1, k2, k1, k3]).fetched
         = [k1, k2, k3] ∧
       ((NewClaimsCacher f db claimsSize max).getAll [k1, k2, k1, k3]).keys = [k1, k3] ∧
       ((NewClaimsCacher f db claimsSize max).getAll [k1, k2, k1, k3]).cached k2 = none ∧
       (((NewClaimsCacher f db claimsSize max).getAll [k1, k2, k1, k3]).cached k1).map
         CacheEntry.key = some k1 ∧
       ((NewClaimsCacher f db claimsSize max).getAll [k1, k2, k1, k3, k1]).fetched
         = [k1, k2, k3] ∧
       ((NewClaimsCacher f db claimsSize max).getAll [k1, k2, k1, k3, k1, k2]).fetched
         = [k1, k2, k3, k2])) := by
  refine ⟨?_, ?_, ?_⟩
  · intro hmiss herr hfound hfit
    obtain ⟨dropped, kept, hsplit, hev, hle, hmin⟩ := evictOldest_append_fits
      c.maxCacheSizeBytes
      { key := k, token := (c.accessTokenFetcher.GetAccessToken c.db k).1.token,
        size := c.claimsSize (c.accessTokenFetcher.GetAccessToken c.db k).1.token.Claims }
      hfit c.cache
    have hfirst := ClaimsCacher.GetAccessToken_miss_fit c k hmiss herr hfound hfit
    rw [hev] at hfirst
    refine ⟨dropped, kept, hsplit, by rw [hfirst], ?_, hmin⟩
    rw [hfirst]
    exact hle
  · intro e he
    exact ⟨(ClaimsCacher.hit_step c k e he).1, (ClaimsCacher.hit_state c k e he).1,
      (ClaimsCacher.hit_state c k e he).2.1⟩
  · intro hf h2 h3 h12 h13 h23
    simp only [ClaimsCacher.getAll]
    -- first call: a miss on the empty cache
    obtain ⟨t1, -, hc1, hf1, ha1, hs1, hm1⟩ := ClaimsCacher.miss_step
      (NewClaimsCacher f db claimsSize max) k1 sz rfl hf (by
        show (sz : Int) ≤ max
        omega)
    generalize ((NewClaimsCacher f db claimsSize max).GetAccessToken k1).2 = s1 at *
    have e1 : s1.cache = [{ key := k1, token := t1, size := sz }] := by
      rw [hc1]
      apply evictOldest_of_le
      simp only [NewClaimsCacher, cacheSizeBytes, List.nil_append, List.map_cons, List.map_nil,
        List.sum_cons, List.sum_nil]
      omega
    have hfs1 : s1.accessTokenFetcher.findsTokensOfSize s1.claimsSize sz := by
      rw [ha1, hs1]; exact hf
    have hmx1 : s1.maxCacheSizeBytes = max := hm1
    have hfe1 : s1.fetched = [k1] := hf1
    -- second call: a miss, both tokens fit
    obtain ⟨t2, -, hc2, hf2, ha2, hs2, hm2⟩ := ClaimsCacher.miss_step s1 k2 sz
      (by simp [ClaimsCacher.cached, e1, h12]) hfs1 (by rw [hmx1]; omega)
    generalize (s1.GetAccessToken k2).2 = s2 at *
    have e2 : s2.cache = [{ key := k1, token := t1, size := sz },
        { key := k2, token := t2, size := sz }] := by
      rw [hc2, e1, hmx1]
      apply evictOldest_of_le
      simp only [cacheSizeBytes, List.cons_append, List.nil_append, List.map_cons, List.map_nil,
        List.sum_cons, List.sum_nil]
      omega
    have hfs2 : s2.accessTokenFetcher.findsTokensOfSize s2.claimsSize sz := by
      rw [ha2, hs2]; exact hfs1
    have hmx2 : s2.maxCacheSizeBytes = max := by rw [hm2, hmx1]
    have hfe2 : s2.fetched = [k1, k2] := by rw [hf2, hfe1]; rfl
    constructor
    · -- third call: a miss that overflows the cache, the oldest entry goes
      obtain ⟨t3, -, hc3, hf3, ha3, hs3, hm3⟩ := ClaimsCacher.miss_step s2 k3 sz
        (by simp [ClaimsCacher.cached, e2, h13, h23]) hfs2 (by rw [hmx2]; omega)
      generalize (s2.GetAccessToken k3).2 = s3 at *
      have e3 : s3.cache = [{ key := k2, token := t2, size := sz },
          { key := k3, token := t3, size := sz }] := by
        rw [hc3, e2, hmx2]
        simp only [List.cons_append, List.nil_append]
        rw [evictOldest_cons_of_gt]
        · apply evictOldest_of_le
          simp only [cacheSizeBytes, List.map_cons, List.map_nil, List.sum_cons, List.sum_nil]
          omega
        · simp only [cacheSizeBytes, List.map_cons, List.map_nil, List.sum_cons, List.sum_nil]
          omega
      have hfs3 : s3.accessTokenFetcher.findsTokensOfSize s3.claimsSize sz := by
        rw [ha3, hs3]; exact hfs2
      have hmx3 : s3.maxCacheSizeBytes = max := by rw [hm3, hmx2]
      have hfe3 : s3.fetched = [k1, k2, k3] := by rw [hf3, hfe2]; rfl
      have hmiss1 : s3.cached k1 = none := by
        simp [ClaimsCacher.cached, e3, Ne.symm h12, Ne.symm h13]
      -- fourth call: the evicted key is fetched again
      obtain ⟨t4, -, hc4, hf4, -, -, -⟩ := ClaimsCacher.miss_step s3 k1 sz hmiss1 hfs3
        (by rw [hmx3]; omega)
      generalize (s3.GetAccessToken k1).2 = s4 at *
      have e4 : s4.cache = [{ key := k3, token := t3, size := sz },
          { key := k1, token := t4, size := sz }] := by
        rw [hc4, e3, hmx3]
        simp only [List.cons_append, List.nil_append]
        rw [evictOldest_cons_of_gt]
        · apply evictOldest_of_le
          simp only [cacheSizeBytes, List.map_cons, List.map_nil, List.sum_cons, List.sum_nil]
          omega
        · simp only [cacheSizeBytes, List.map_cons, List.map_nil, List.sum_cons, List.sum_nil]
          omega
      have hfe4 : s4.fetched = [k1, k2, k3, k1] := by rw [hf4, hfe3]; rfl
      -- fifth call: the newest of the first three is still cached
      have hhit : s4.cached k3 = some { key := k3, token := t3, size := sz } := by
        simp [ClaimsCacher.cached, e4]
      have h5 := (ClaimsCacher.hit_step s4 k3 _ hhit).2
      refine ⟨hfe2, ?_, hfe3, ?_, hmiss1, hfe4, ?_, ?_⟩
      · simp [ClaimsCacher.keys, e2]
      · simp [ClaimsCacher.keys, e3]
      · simp [ClaimsCacher.keys, e4]
      · rw [h5, hfe4]
    · -- third call: the first key again, served from the cache and made the newest
      have hhit1 : s2.cached k1 = some { key := k1, token := t1, size := sz } := by
        simp [ClaimsCacher.cached, e2]
      obtain ⟨hu3c, hu3f, -, hu3a, hu3s, hu3m⟩ := ClaimsCacher.hit_state s2 k1 _ hhit1
      generalize (s2.GetAccessToken k1).2 = u3 at *
      have eu3 : u3.cache = [{ key := k2, token := t2, size := sz },
          { key := k1, token := t1, size := sz }] := by
        have hb : (k2 != k1) = true := by
          simp only [bne_iff_ne, ne_eq]
          exact Ne.symm h12
        rw [hu3c, e2]
        simp [List.filter, hb]
      have hfu3 : u3.accessTokenFetcher.findsTokensOfSize u3.claimsSize sz := by
        rw [hu3a, hu3s]; exact hfs2
      have hmu3 : u3.maxCacheSizeBytes = max := by rw [hu3m, hmx2]
      have hfeu3 : u3.fetched = [k1, k2] := by rw [hu3f, hfe2]
      -- fourth call: a miss that overflows the cache; the entry unused for longest goes
      obtain ⟨t3, -, hu4c, hu4f, hu4a, hu4s, hu4m⟩ := ClaimsCacher.miss_step u3 k3 sz
        (by simp [ClaimsCacher.cached, eu3, h13, h23]) hfu3 (by rw [hmu3]; omega)
      generalize (u3.GetAccessToken k3).2 = u4 at *
      have eu4 : u4.cache = [{ key := k1, token := t1, size := sz },
          { key := k3, token := t3, size := sz }] := by
        rw [hu4c, eu3, hmu3]
        simp only [List.cons_append, List.nil_append]
        rw [evictOldest_cons_of_gt]
        · apply evictOldest_of_le
          simp only [cacheSizeBytes, List.map_cons, List.map_nil, List.sum_cons, List.sum_nil]
          omega
        · simp only [cacheSizeBytes, List.map_cons, List.map_nil, List.sum_cons, List.sum_nil]
          omega
      have hfu4 : u4.accessTokenFetcher.findsTokensOfSize u4.claimsSize sz := by
        rw [hu4a, hu4s]; exact hfu3
      have hmu4 : u4.maxCacheSizeBytes = max := by rw [hu4m, hmu3]
      have hfeu4 : u4.fetched = [k1, k2, k3] := by rw [hu4f, hfeu3]; rfl
      have hmiss2 : u4.cached k2 = none := by
        simp [ClaimsCacher.cached, eu4, h12, Ne.symm h23]
      have hhit4 : u4.cached k1 = some { key := k1, token := t1, size := sz } := by
        simp [ClaimsCacher.cached, eu4]
      -- fifth call: the first key is still served from the cache
      obtain ⟨hu5c, hu5f, -, hu5a, hu5s, hu5m⟩ := ClaimsCacher.hit_state u4 k1 _ hhit4
      generalize (u4.GetAccessToken k1).2 = u5 at *
      have eu5 : u5.cache = [{ key := k3, token := t3, size := sz },
          { key := k1, token := t1, size := sz }] := by
        have hb : (k3 != k1) = true := by
          simp only [bne_iff_ne, ne_eq]
          exact Ne.symm h13
        rw [hu5c, eu4]
        simp [List.filter, hb]
      have hfu5 : u5.accessTokenFetcher.findsTokensOfSize u5.claimsSize sz := by
        rw [hu5a, hu5s]; exact hfu4
      have hmu5 : u5.maxCacheSizeBytes = max := by rw [hu5m, hmu4]
      have hfeu5 : u5.fetched = [k1, k2, k3] := by rw [hu5f, hfeu4]
      -- sixth call: the evicted second key is fetched again
      obtain ⟨t6, -, -, hu6f, -, -, -⟩ := ClaimsCacher.miss_step u5 k2 sz
        (by simp [ClaimsCacher.cached, eu5, Ne.symm h23, h12]) hfu5 (by rw [hmu5]; omega)
      refine ⟨hfeu3, ?_, hfeu4, ?_, hmiss2, ?_, hfeu5, ?_⟩
      · simp [ClaimsCacher.keys, eu3]
      · simp [ClaimsCacher.keys, eu4]
      · rw [hhit4]
        rfl
      · rw [hu6f, hfeu5]
        rfl

/-- C8 at the test's scenario, scaled down: tokens of 5 bytes under a limit of 10,
with and without a use of `token1` between the fetches of `token2` and `token3`. -/
theorem ClaimsCacher.evicts_least_recently_used_witness :
    (∃ dropped kept,
      ((NewClaimsCacher (FakeAccessTokenFetcher (foundToken (tokenWith "aaaa"))) [] sampleSize
          10).getAll ["token1", "token2"]).cache = dropped ++ kept ∧
      (((NewClaimsCacher (FakeAccessTokenFetcher (foundToken (tokenWith "aaaa"))) [] sampleSize
          10).getAll ["token1", "token2"]).GetAccessToken "token3").2.cache
        = kept ++ [{ key := "token3", token := tokenWith "aaaa", size := 5 }]) ∧
    ((NewClaimsCacher (FakeAccessTokenFetcher (foundToken (tokenWith "aaaa"))) [] sampleSize
        10).getAll ["token1", "token2", "token3"]).keys = ["token2", "token3"] ∧
    ((NewClaimsCacher (FakeAccessTokenFetcher (foundToken (tokenWith "aaaa"))) [] sampleSize
        10).getAll ["token1", "token2", "token3", "token1"]).fetched
      = ["token1", "token2", "token3", "token1"] ∧
    ((NewClaimsCacher (FakeAccessTokenFetcher (foundToken (tokenWith "aaaa"))) [] sampleSize
        10).getAll ["token1", "token2", "token3", "token1", "token3"]).fetched
      = ["token1", "token2", "token3", "token1"] ∧
    ((NewClaimsCacher (FakeAccessTokenFetcher (foundToken (tokenWith "aaaa"))) [] sampleSize
        10).getAll ["token1", "token2", "token1"]).keys = ["token2", "token1"] ∧
    ((NewClaimsCacher (FakeAccessTokenFetcher (foundToken (tokenWith "aaaa"))) [] sampleSize
        10).getAll ["token1", "token2", "token1", "token3"]).keys = ["token1", "token3"] ∧
    ((NewClaimsCacher (FakeAccessTokenFetcher (foundToken (tokenWith "aaaa"))) [] sampleSize
        10).getAll ["token1", "token2", "token1", "token3"]).cached "token2" = none ∧
    ((NewClaimsCacher (FakeAccessTokenFetcher (foundToken (tokenWith "aaaa"))) [] sampleSize
        10).getAll ["token1", "token2", "token1", "token3", "token1"]).fetched
      = ["token1", "token2", "token3"] ∧
    ((NewClaimsCacher (FakeAccessTokenFetcher (foundToken (tokenWith "aaaa"))) [] sampleSize
        10).getAll ["token1", "token2", "token1", "token3", "token1", "token2"]).fetched
      = ["token1", "token2", "token3", "token2"] :=
  have h := ClaimsCacher.evicts_least_recently_used
    ((NewClaimsCacher (FakeAccessTokenFetcher (foundToken (tokenWith "aaaa"))) [] sampleSize
      10).getAll ["token1", "token2"])
    "token3" (FakeAccessTokenFetcher (foundToken (tokenWith "aaaa"))) [] sampleSize 10 5
    "token1" "token2" "token3"
  have hg := h.1 (by decide) rfl rfl (by decide)
  have hs := h.2.2
    (fun _ _ => ⟨rfl, rfl, (by decide : sampleSize (tokenWith "aaaa").Claims = 5)⟩)
    (by decide) (by decide) (by decide) (by decide) (by decide)
  ⟨Exists.elim hg (fun dropped hk => Exists.elim hk (fun kept hp =>
      ⟨dropped, kept, hp.1, hp.2.1⟩)),
   hs.1.2.2.2.1, hs.1.2.2.2.2.2.1, hs.1.2.2.2.2.2.2.2,
   hs.2.2.1, hs.2.2.2.2.1, hs.2.2.2.2.2.1, hs.2.2.2.2.2.2.2.1, hs.2.2.2.2.2.2.2.2⟩

/-! ## OnAbortStep: calls and wrapped aborts -/

/-- An error whose unwrap chain reaches `context.Canceled` is an abort-cancellation. -/
theorem errorsIs_canceled_of_mem_unwrapChain (e : GoError)
    (h : GoError.Canceled ∈ unwrapChain e) : errorsIs e GoError.Canceled = true := by
  induction e with
  | Canceled => simp [errorsIs]
  | DeadlineExceeded => simp [unwrapChain] at h
  | New msg => simp [unwrapChain] at h
  | Wrap msg inner ih =>
    simp only [unwrapChain, List.mem_cons] at h
    rcases h with h | h
    · cases h
    · simp [errorsIs, ih h]
  | Join a b iha ihb =>
    simp only [unwrapChain, List.mem_cons, List.mem_append] at h
    rcases h with h | h | h
    · cases h
    · simp [errorsIs, iha h]
    · simp [errorsIs, ihb h]
  | Matching msg t _ => simp [unwrapChain] at h

/-- For an error without an `Is` method on its chain, being an abort-cancellation is
reaching `context.Canceled` on the unwrap chain. -/
theorem errorsIs_canceled_iff_mem_unwrapChain (e : GoError)
    (hplain : ∀ msg t, GoError.Matching msg t ∉ unwrapChain e) :
    errorsIs e GoError.Canceled = true ↔ GoError.Canceled ∈ unwrapChain e := by
  refine ⟨?_, errorsIs_canceled_of_mem_unwrapChain e⟩
  induction e with
  | Canceled => simp [unwrapChain]
  | DeadlineExceeded => simp [errorsIs]
  | New msg => simp [errorsIs]
  | Wrap msg inner ih =>
    intro h
    simp only [unwrapChain, List.mem_cons] at hplain ⊢
    right
    apply ih (fun msg t hm => hplain msg t (Or.inr hm))
    simpa [errorsIs] using h
  | Join a b iha ihb =>
    intro h
    simp only [unwrapChain, List.mem_cons, List.mem_append] at hplain ⊢
    have h2 : errorsIs a GoError.Canceled = true ∨ errorsIs b GoError.Canceled = true := by
      simpa [errorsIs] using h
    rcases h2 with h2 | h2
    · exact Or.inr (Or.inl (iha (fun msg t hm => hplain msg t (Or.inr (Or.inl hm))) h2))
    · exact Or.inr (Or.inr (ihb (fun msg t hm => hplain msg t (Or.inr (Or.inr hm))) h2))
  | Matching msg t _ =>
    intro _
    exact absurd (by simp [unwrapChain]) (hplain msg t)

/-- C17: each call of `OnAbortStep.Run` invokes the primary step's `Run` exactly once
and the hook's `Run` at most once: once when the primary returned an
abort-cancellation, never otherwise; and the hook is started only after the primary
has returned, on the state the primary left.  The pair `Run` returns is that of the
one application of the primary to the caller's context and state, and the state it
leaves is that of the one application of the hook to the primary's state on an abort
and the primary's state otherwise.  Steps that record their invocations have recorded
one more call of the primary, one more of the hook on an abort and none otherwise,
the hook's after the primary's. -/
theorem OnAbortStep.calls_once_in_order (o : OnAbortStep) (ctx : Context) (state : RunState)
    (pok hok : Bool) (perr herr : Option GoError) :
    ((o.Run ctx state).ok = (o.step.Run ctx state).ok ∧
     (o.Run ctx state).err = (o.step.Run ctx state).err ∧
     (o.Run ctx state).state =
        if isAbort (o.step.Run ctx state).err
        then (o.hook.Run Context.Background (o.step.Run ctx state).state).state
        else (o.step.Run ctx state).state) ∧
    (((OnAbort (recording "step" pok perr) (recording "hook" hok herr)).Run ctx
          state).state.recorded "step" = state.recorded "step" + 1 ∧
     ((OnAbort (recording "step" pok perr) (recording "hook" hok herr)).Run ctx
          state).state.recorded "hook"
        = state.recorded "hook" + (if isAbort perr then 1 else 0) ∧
     ((OnAbort (recording "step" pok perr) (recording "hook" hok herr)).Run ctx
          state).state.recorded "hook" ≤ state.recorded "hook" + 1 ∧
     ((OnAbort (recording "step" pok perr) (recording "hook" hok herr)).Run ctx
          state).state.results
        = if isAbort perr
          then ("hook", "called") :: ("step", "called") :: state.results
          else ("step", "called") :: state.results) ∧
    ((o.Run ctx state).stepCalls = 1 ∧
     (o.Run ctx state).hookCalls ≤ 1 ∧
     ((o.Run ctx state).hookCalls = 1 ↔ isAbort (o.step.Run ctx state).err = true) ∧
     (o.Run ctx state).calls =
        if isAbort (o.step.Run ctx state).err
        then [Call.step ctx state, Call.hook Context.Background (o.step.Run ctx state).state]
        else [Call.step ctx state]) := by
  have gen : ∀ o2 : OnAbortStep,
      (o2.Run ctx state).ok = (o2.step.Run ctx state).ok ∧
      (o2.Run ctx state).err = (o2.step.Run ctx state).err ∧
      ((o2.Run ctx state).state =
        if isAbort (o2.step.Run ctx state).err
        then (o2.hook.Run Context.Background (o2.step.Run ctx state).state).state
        else (o2.step.Run ctx state).state) ∧
      (o2.Run ctx state).calls =
        if isAbort (o2.step.Run ctx state).err
        then [Call.step ctx state,
              Call.hook Context.Background (o2.step.Run ctx state).state]
        else [Call.step ctx state] := by
    intro o2
    cases he : (o2.step.Run ctx state).err with
    | none =>
      rw [OnAbortStep.Run_of_nil o2 ctx state he]
      simp [isAbort]
    | some e =>
      cases hcan : errorsIs e GoError.Canceled with
      | true =>
        rw [OnAbortStep.Run_of_abort o2 ctx state e he hcan]
        simp [isAbort, hcan]
      | false =>
        rw [OnAbortStep.Run_of_error o2 ctx state e he hcan]
        simp [isAbort, hcan]
  obtain ⟨hok1, herr1, hst1, hcalls1⟩ := gen o
  refine ⟨⟨hok1, herr1, hst1⟩, ?_, ?_⟩
  · have hres : ((OnAbort (recording "step" pok perr) (recording "hook" hok herr)).Run ctx
          state).state.results
        = if isAbort perr
          then ("hook", "called") :: ("step", "called") :: state.results
          else ("step", "called") :: state.results := by
      rw [(gen (OnAbort (recording "step" pok perr) (recording "hook" hok herr))).2.2.1]
      cases hab : isAbort perr <;>
        simp [OnAbort, recording, RunState.StoreResult, hab]
    refine ⟨?_, ?_, ?_, hres⟩
    · unfold RunState.recorded
      rw [hres]
      cases hab : isAbort perr <;> simp
    · unfold RunState.recorded
      rw [hres]
      cases hab : isAbort perr <;> simp
    · unfold RunState.recorded
      rw [hres]
      cases hab : isAbort perr <;> simp
  · unfold RunOutcome.stepCalls RunOutcome.hookCalls
    rw [hcalls1]
    cases hab : isAbort (o.step.Run ctx state).err <;> simp [Call.isHook]

/-- C18: an error whose unwrap chain reaches `context.Canceled` counts as an abort: the
hook runs, so that the state `Run` leaves is the state the hook leaves when applied to
the primary's state, and `Run` returns the primary's error itself, which for an error
that merely wraps `context.Canceled` is not the bare `context.Canceled`. -/
theorem OnAbortStep.wrapped_abort_runs_hook (o : OnAbortStep) (ctx : Context)
    (state : RunState) (e : GoError) (he : (o.step.Run ctx state).err = some e)
    (hchain : GoError.Canceled ∈ unwrapChain e) :
    (o.Run ctx state).state
        = (o.hook.Run Context.Background (o.step.Run ctx state).state).state ∧
    (∀ (hok : Bool) (herr : Option GoError),
        ((OnAbort o.step (recording "hook" hok herr)).Run ctx state).state.recorded "hook"
          = (o.step.Run ctx state).state.recorded "hook" + 1) ∧
    (o.Run ctx state).hookRan = true ∧
    (o.Run ctx state).err = some e ∧
    (e ≠ GoError.Canceled → (o.Run ctx state).err ≠ some GoError.Canceled) := by
  have hcan := errorsIs_canceled_of_mem_unwrapChain e hchain
  refine ⟨?_, ?_, ?_⟩
  · rw [OnAbortStep.Run_of_abort o ctx state e he hcan]
  · intro hok herr
    rw [OnAbortStep.Run_of_abort (OnAbort o.step (recording "hook" hok herr)) ctx state e he
      hcan]
    exact RunState.recorded_StoreResult _ _ _
  · rw [OnAbortStep.Run_of_abort o ctx state e he hcan]
    refine ⟨by simp [RunOutcome.hookRan, Call.isHook], rfl, ?_⟩
    intro hne h
    exact hne (Option.some.inj h)

/-- C18 at concrete inputs: the primary fails with an error wrapping
`context.Canceled`, and with an error joining another error and `context.Canceled`;
each time the cleanup hook leaves its artifact. -/
theorem OnAbortStep.wrapped_abort_runs_hook_witness :
    (((OnAbort (returning false (some (GoError.Wrap "running task: context canceled"
        GoError.Canceled))) (cleanup true none)).Run abortedCtx emptyState).state
      = ((cleanup true none).Run Context.Background
          ((returning false (some (GoError.Wrap "running task: context canceled"
            GoError.Canceled))).Run abortedCtx emptyState).state).state ∧
     ((OnAbort (returning false (some (GoError.Wrap "running task: context canceled"
        GoError.Canceled))) (cleanup true none)).Run abortedCtx emptyState).state.Artifact
          "cleanup" = some "done" ∧
     ((OnAbort (returning false (some (GoError.Wrap "running task: context canceled"
        GoError.Canceled))) (cleanup true none)).Run abortedCtx emptyState).err
      = some (GoError.Wrap "running task: context canceled" GoError.Canceled) ∧
     ((OnAbort (returning false (some (GoError.Wrap "running task: context canceled"
        GoError.Canceled))) (cleanup true none)).Run abortedCtx emptyState).err
      ≠ some GoError.Canceled) ∧
    (((OnAbort (returning false (some (GoError.Join (GoError.New "task failed")
        GoError.Canceled))) (cleanup true none)).Run abortedCtx emptyState).state
      = ((cleanup true none).Run Context.Background
          ((returning false (some (GoError.Join (GoError.New "task failed")
            GoError.Canceled))).Run abortedCtx emptyState).state).state ∧
     ((OnAbort (returning false (some (GoError.Join (GoError.New "task failed")
        GoError.Canceled))) (cleanup true none)).Run abortedCtx emptyState).state.Artifact
          "cleanup" = some "done") :=
  have h := OnAbortStep.wrapped_abort_runs_hook
    (OnAbort (returning false (some (GoError.Wrap "running task: context canceled"
      GoError.Canceled))) (cleanup true none)) abortedCtx emptyState
    (GoError.Wrap "running task: context canceled" GoError.Canceled) rfl (by decide)
  have hj := OnAbortStep.wrapped_abort_runs_hook
    (OnAbort (returning false (some (GoError.Join (GoError.New "task failed")
      GoError.Canceled))) (cleanup true none)) abortedCtx emptyState
    (GoError.Join (GoError.New "task failed") GoError.Canceled) rfl (by decide)
  ⟨⟨h.1, by decide, h.2.2.2.1, h.2.2.2.2 (by decide)⟩, ⟨hj.1, by decide⟩⟩

/-! ## Policy checker -/

/-- C11: `Checker.Check` calls the agent exactly once, with the caller's input in which
`Service` is `"concourse"` and `ClusterName` and `ClusterVersion` are the cluster
name and version given to `Initialize`; every other field is as the caller supplied
it. -/
theorem Checker.Check_calls_agent_once {δ : Type} (agent : Agent δ) (agentState : δ)
    (clusterName clusterVersion : String) (filter : Filter) (input : PolicyCheckInput) :
    ((Initialize agent agentState clusterName clusterVersion filter).Check input).2.agentCalls
      = [{ Service := "concourse", ClusterName := clusterName,
           ClusterVersion := clusterVersion, Others := input.Others }] ∧
    ((Initialize agent agentState clusterName clusterVersion filter).Check input).2.agentState
      = (agent.Check agentState
          { Service := "concourse", ClusterName := clusterName,
            ClusterVersion := clusterVersion, Others := input.Others }).2 ∧
    ∀ c : Checker δ, (c.Check input).2.agentCalls = c.agentCalls ++
      [{ Service := "concourse", ClusterName := c.clusterName,
         ClusterVersion := c.clusterVersion, Others := input.Others }] := by
  refine ⟨rfl, rfl, fun c => rfl⟩

/-- C12: `Checker.Check` returns the agent's verdict and error unchanged: `(true, nil)`
when the agent passes, `(false, nil)` when it does not pass, and `(false, err)` with
the agent's own error, hence the same message, when the agent fails. -/
theorem Checker.Check_returns_agent_result {δ : Type} (c : Checker δ)
    (input : PolicyCheckInput) :
    (c.Check input).1 = (c.agent.Check c.agentState (c.inject input)).1 ∧
    ((c.agent.Check c.agentState (c.inject input)).1 = (true, none) →
        (c.Check input).1 = (true, none)) ∧
    ((c.agent.Check c.agentState (c.inject input)).1 = (false, none) →
        (c.Check input).1 = (false, none)) ∧
    (∀ e, (c.agent.Check c.agentState (c.inject input)).1 = (false, some e) →
        (c.Check input).1 = (false, some e) ∧
        (c.Check input).1.2.map GoError.Error = some e.Error) := by
  have h : (c.Check input).1 = (c.agent.Check c.agentState (c.inject input)).1 := rfl
  refine ⟨h, fun hp => ?_, fun hp => ?_, fun e hp => ?_⟩
  · rw [h, hp]
  · rw [h, hp]
  · rw [h, hp]
    exact ⟨rfl, rfl⟩

/-- C12 at the test's inputs: the fake agent passing, not passing, and failing with
`some-error`. -/
theorem Checker.Check_returns_agent_result_witness :
    ((Initialize (FakeAgent true none) [] "some-cluster" "some-version" sampleFilter).Check
        emptyInput).1 = (true, none) ∧
    ((Initialize (FakeAgent false none) [] "some-cluster" "some-version" sampleFilter).Check
        emptyInput).1 = (false, none) ∧
    (((Initialize (FakeAgent false (some (GoError.New "some-error"))) [] "some-cluster"
        "some-version" sampleFilter).Check emptyInput).1
        = (false, some (GoError.New "some-error")) ∧
     ((Initialize (FakeAgent false (some (GoError.New "some-error"))) [] "some-cluster"
        "some-version" sampleFilter).Check emptyInput).1.2.map GoError.Error
        = some (GoError.New "some-error").Error) :=
  ⟨(Checker.Check_returns_agent_result
      (Initialize (FakeAgent true none) [] "some-cluster" "some-version" sampleFilter)
      emptyInput).2.1 rfl,
   (Checker.Check_returns_agent_result
      (Initialize (FakeAgent false none) [] "some-cluster" "some-version" sampleFilter)
      emptyInput).2.2.1 rfl,
   (Checker.Check_returns_agent_result
      (Initialize (FakeAgent false (some (GoError.New "some-error"))) [] "some-cluster"
        "some-version" sampleFilter) emptyInput).2.2.2 (GoError.New "some-error") rfl⟩

/-- Searching a list for a string finds it exactly when it is an element. -/
theorem any_beq_iff_mem (l : List String) (s : String) :
    l.any (fun m => m == s) = true ↔ s ∈ l := by
  induction l with
  | nil => simp
  | cons a t ih =>
    simp only [List.any_cons, Bool.or_eq_true, ih, List.mem_cons, beq_iff_eq]
    constructor
    · rintro (h | h)
      · exact Or.inl h.symm
      · exact Or.inr h
    · rintro (h | h)
      · exact Or.inl h.symm
      · exact Or.inr h

/-- Searching a list for a string fails exactly when it is not an element. -/
theorem any_beq_false_iff_not_mem (l : List String) (s : String) :
    l.any (fun m => m == s) = false ↔ s ∉ l := by
  rw [← any_beq_iff_mem l s, Bool.not_eq_true]

/-- C13: `ShouldCheckHttpMethod(s)`, `ShouldCheckAction(s)` and `ShouldSkipAction(s)` are
true exactly when `s` is an element of the filter's `HttpMethods`, `Actions` and
`ActionsToSkip` list respectively, and false otherwise. -/
theorem Checker.should_iff_mem {δ : Type} (agent : Agent δ) (agentState : δ)
    (clusterName clusterVersion : String) (filter : Filter) (s : String) :
    ((Initialize agent agentState clusterName clusterVersion filter).ShouldCheckHttpMethod s
        = true ↔ s ∈ filter.HttpMethods) ∧
    ((Initialize agent agentState clusterName clusterVersion filter).ShouldCheckAction s
        = true ↔ s ∈ filter.Actions) ∧
    ((Initialize agent agentState clusterName clusterVersion filter).ShouldSkipAction s
        = true ↔ s ∈ filter.ActionsToSkip) ∧
    ((Initialize agent agentState clusterName clusterVersion filter).ShouldCheckHttpMethod s
        = false ↔ s ∉ filter.HttpMethods) ∧
    ((Initialize agent agentState clusterName clusterVersion filter).ShouldCheckAction s
        = false ↔ s ∉ filter.Actions) ∧
    ((Initialize agent agentState clusterName clusterVersion filter).ShouldSkipAction s
        = false ↔ s ∉ filter.ActionsToSkip) := by
  exact ⟨any_beq_iff_mem _ s, any_beq_iff_mem _ s, any_beq_iff_mem _ s,
    any_beq_false_iff_not_mem _ s, any_beq_false_iff_not_mem _ s,
    any_beq_false_iff_not_mem _ s⟩

/-! ## Prometheus emitter -/

/-- Looking a key up among the entries whose key passes a test. -/
theorem mapGet_filter {V : Type} (q : String → Bool) (m : GoMap V) (k : String) :
    mapGet (m.filter (fun p => q p.1)) k = if q k = true then mapGet m k else none := by
  induction m with
  | nil => simp [mapGet]
  | cons a t ih =>
    obtain ⟨k1, v⟩ := a
    by_cases hq : q k1 = true
    · rw [List.filter_cons_of_pos (by simpa using hq)]
      by_cases hk : k1 = k
      · subst hk
        simp [mapGet, hq]
      · simp only [mapGet, hk, if_false]
        exact ih
    · rw [List.filter_cons_of_neg (by simpa using hq)]
      by_cases hk : k1 = k
      · subst hk
        rw [ih]
        simp [hq]
      · simp only [mapGet, hk, if_false]
        exact ih

/-- A deleted key is not in the map. -/
theorem mapGet_mapDelete_self {V : Type} (m : GoMap V) (k : String) :
    mapGet (mapDelete m k) k = none := by
  have h := mapGet_filter (fun x => decide (x ≠ k)) m k
  simpa [mapDelete] using h

/-- Deleting a key leaves the other keys as they are. -/
theorem mapGet_mapDelete_ne {V : Type} (m : GoMap V) (k other : String) (h : other ≠ k) :
    mapGet (mapDelete m k) other = mapGet m other := by
  have h1 := mapGet_filter (fun x => decide (x ≠ k)) m other
  simpa [mapDelete, h] using h1

/-- A deleted key is not among the keys. -/
theorem not_mem_mapKeys_mapDelete {V : Type} (m : GoMap V) (k : String) :
    k ∉ mapKeys (mapDelete m k) := by
  simp [mapKeys, mapDelete]

/-- A key that was set has the value it was set to. -/
theorem mapGet_mapSet_self {V : Type} (m : GoMap V) (k : String) (v : V) :
    mapGet (mapSet m k v) k = some v := by
  simp [mapSet, mapGet]

/-- Setting a key leaves the other keys as they are. -/
theorem mapGet_mapSet_ne {V : Type} (m : GoMap V) (k other : String) (v : V)
    (h : other ≠ k) : mapGet (mapSet m k v) other = mapGet m other := by
  simp only [mapSet, mapGet, Ne.symm h, if_false]
  exact mapGet_mapDelete_ne m k other h

/-- C14: after `DoGarbageCollection(emitter, worker)` the worker has no entry in the
worker-containers, worker-volumes and worker-tasks label maps, and the entries of
every other worker in those three maps are unchanged. -/
theorem DoGarbageCollection_label_maps (emitter : PrometheusEmitter) (worker : String) :
    (mapGet (DoGarbageCollection emitter worker).workerContainersLabels worker = none ∧
     mapGet (DoGarbageCollection emitter worker).workerVolumesLabels worker = none ∧
     mapGet (DoGarbageCollection emitter worker).workerTasksLabels worker = none) ∧
    (worker ∉ mapKeys (DoGarbageCollection emitter worker).workerContainersLabels ∧
     worker ∉ mapKeys (DoGarbageCollection emitter worker).workerVolumesLabels ∧
     worker ∉ mapKeys (DoGarbageCollection emitter worker).workerTasksLabels) ∧
    (∀ other, other ≠ worker →
      mapGet (DoGarbageCollection emitter worker).workerContainersLabels other
        = mapGet emitter.workerContainersLabels other ∧
      mapGet (DoGarbageCollection emitter worker).workerVolumesLabels other
        = mapGet emitter.workerVolumesLabels other ∧
      mapGet (DoGarbageCollection emitter worker).workerTasksLabels other
        = mapGet emitter.workerTasksLabels other) := by
  refine ⟨⟨mapGet_mapDelete_self _ _, mapGet_mapDelete_self _ _, mapGet_mapDelete_self _ _⟩,
    ⟨not_mem_mapKeys_mapDelete _ _, not_mem_mapKeys_mapDelete _ _,
      not_mem_mapKeys_mapDelete _ _⟩, ?_⟩
  intro other h
  exact ⟨mapGet_mapDelete_ne _ _ _ h, mapGet_mapDelete_ne _ _ _ h, mapGet_mapDelete_ne _ _ _ h⟩

/-- C14 at a concrete input: worker `w1` is collected, worker `w2` keeps its task
labels. -/
theorem DoGarbageCollection_label_maps_witness :
    mapGet (DoGarbageCollection
        (NewEmitter.emitAll [(100, containersEvent "w1"), (200, tasksEvent "w2")])
        "w1").workerContainersLabels "w1" = none ∧
    mapGet (DoGarbageCollection
        (NewEmitter.emitAll [(100, containersEvent "w1"), (200, tasksEvent "w2")])
        "w1").workerTasksLabels "w2"
      = mapGet (NewEmitter.emitAll [(100, containersEvent "w1"),
          (200, tasksEvent "w2")]).workerTasksLabels "w2" :=
  have h := DoGarbageCollection_label_maps
    (NewEmitter.emitAll [(100, containersEvent "w1"), (200, tasksEvent "w2")]) "w1"
  ⟨h.1.1, (h.2.2 "w2" (by decide)).2.2⟩

/-- C15: after a `worker unknown containers` and a `worker unknown volumes` event of
worker `w1`, the label set of `w1` is recorded in the containers and the volumes
label map, and after `DoGarbageCollection` for `w1` the series of `w1` are still in
the unknown-containers and the unknown-volumes gauge vectors, while the label maps
no longer know `w1`.  Likewise, of two `worker containers` label sets of `w1` with
the same sorted values, which `serializeLabels` gives one key, the first stays in the
containers gauge vector. -/
theorem DoGarbageCollection_leaves_unknown_series :
    mapGet (NewEmitter.emitAll [(100, unknownContainersEvent "w1"),
        (100, unknownVolumesEvent "w1")]).workerContainersLabels "w1"
      = some [("w1", [("worker", "w1")])] ∧
    mapGet (NewEmitter.emitAll [(100, unknownContainersEvent "w1"),
        (100, unknownVolumesEvent "w1")]).workerVolumesLabels "w1"
      = some [("w1", [("worker", "w1")])] ∧
    (DoGarbageCollection (NewEmitter.emitAll [(100, unknownContainersEvent "w1"),
        (100, unknownVolumesEvent "w1")]) "w1").workerUnknownContainers.has ["w1"] = true ∧
    (DoGarbageCollection (NewEmitter.emitAll [(100, unknownContainersEvent "w1"),
        (100, unknownVolumesEvent "w1")]) "w1").workerUnknownVolumes.has ["w1"] = true ∧
    mapGet (DoGarbageCollection (NewEmitter.emitAll [(100, unknownContainersEvent "w1"),
        (100, unknownVolumesEvent "w1")]) "w1").workerContainersLabels "w1" = none ∧
    mapGet (DoGarbageCollection (NewEmitter.emitAll [(100, unknownContainersEvent "w1"),
        (100, unknownVolumesEvent "w1")]) "w1").workerVolumesLabels "w1" = none ∧
    (NewEmitter.emitAll [(100, containersEventFor "w1" "linux" "main"),
        (100, containersEventFor "w1" "main" "linux")]).workerContainers.has
        ["w1", "linux", "main", ""] = true ∧
    (DoGarbageCollection (NewEmitter.emitAll [(100, containersEventFor "w1" "linux" "main"),
        (100, containersEventFor "w1" "main" "linux")]) "w1").workerContainers.has
        ["w1", "linux", "main", ""] = true := by
  refine ⟨by decide, by decide, by decide, by decide, by decide, by decide, by decide,
    by decide⟩

/-- An event name outside `handledNames` takes the `default` case of the `switch`. -/
theorem PrometheusEmitter.dispatch_default (emitter : PrometheusEmitter) (event : Event)
    (h : event.Name ∉ handledNames) : emitter.dispatch event = emitter.returned := by
  simp only [handledNames, List.mem_cons, List.mem_singleton, List.not_mem_nil, not_or,
    or_false] at h
  obtain ⟨h1, h2, h3, h4, h5, h6, h7, h8, h9, h10, h11, h12, h13, h14, h15, h16, h17, h18,
    h19, h20, h21, h22, h23, h24, h25, h26, h27⟩ := h
  unfold PrometheusEmitter.dispatch
  rw [if_neg h1, if_neg h2, if_neg h3, if_neg h4, if_neg h5, if_neg h6, if_neg h7, if_neg h8,
    if_neg h9, if_neg h10, if_neg h11, if_neg h12, if_neg h13, if_neg h14, if_neg h15,
    if_neg h16, if_neg h17, if_neg h18, if_neg h19, if_neg h20, if_neg h21, if_neg h22,
    if_neg h23, if_neg h24, if_neg h25, if_neg h26, if_neg h27]

/-- C16 fails: an event with a name that `Emit` has no case for, carrying a worker,
changes the last-seen map. -/
theorem PrometheusEmitter.Emit_other_changes_lastSeen :
    (otherEvent "w1").Name ∉ handledNames ∧
    mapGet NewEmitter.workerLastSeen "w1" = none ∧
    mapGet (NewEmitter.Emit 100 (otherEvent "w1")).emitter.workerLastSeen "w1" = some 100 := by
  refine ⟨by decide, by decide, by decide⟩

/-- C16 as amended: for an event whose name has no case in `Emit`, `Emit` returns and
changes no counter, gauge, histogram or label map and logs nothing; the only
change is that of `updateLastSeen`: the last-seen time of the event's worker is set
to the current time.  An event without a worker changes nothing at all. -/
theorem PrometheusEmitter.Emit_other_only_updates_lastSeen (emitter : PrometheusEmitter)
    (now : Time) (event : Event) (h : event.Name ∉ handledNames) :
    (emitter.Emit now event).panicked = false ∧
    (emitter.Emit now event).emitter = emitter.updateLastSeen now event ∧
    (mapGet event.Attributes "worker" = none → (emitter.Emit now event).emitter = emitter) ∧
    (∀ w, mapGet event.Attributes "worker" = some w →
      (emitter.Emit now event).emitter
        = { emitter with workerLastSeen := mapSet emitter.workerLastSeen w now }) := by
  have hd : emitter.Emit now event = (emitter.updateLastSeen now event).returned := by
    unfold PrometheusEmitter.Emit
    exact PrometheusEmitter.dispatch_default _ event h
  rw [hd]
  refine ⟨rfl, rfl, ?_, ?_⟩
  · intro hw
    simp [PrometheusEmitter.returned, PrometheusEmitter.updateLastSeen, hw]
  · intro w hw
    simp [PrometheusEmitter.returned, PrometheusEmitter.updateLastSeen, hw]

/-- C16 as amended, at a concrete input: an unhandled event of worker `w1` at time 100. -/
theorem PrometheusEmitter.Emit_other_only_updates_lastSeen_witness :
    (NewEmitter.Emit 100 (otherEvent "w1")).panicked = false ∧
    (NewEmitter.Emit 100 (otherEvent "w1")).emitter
      = { NewEmitter with workerLastSeen := mapSet NewEmitter.workerLastSeen "w1" 100 } :=
  have h := PrometheusEmitter.Emit_other_only_updates_lastSeen NewEmitter 100
    (otherEvent "w1") (by decide)
  ⟨h.1, h.2.2.2 "w1" rfl⟩

/-- The call `counter.Add(v)` leaves the last-seen map alone when writing the counter
back does. -/
theorem PrometheusEmitter.addTo_workerLastSeen (emitter : PrometheusEmitter) (c : Counter)
    (v : Float) (put : Counter → PrometheusEmitter)
    (h : ∀ c1, (put c1).workerLastSeen = emitter.workerLastSeen) :
    (emitter.addTo c v put).emitter.workerLastSeen = emitter.workerLastSeen := by
  unfold PrometheusEmitter.addTo
  split
  · exact h _
  · rfl

/-- The method `errorLogsMetric` leaves the last-seen map alone. -/
theorem PrometheusEmitter.errorLogsMetric_workerLastSeen (emitter : PrometheusEmitter)
    (event : Event) :
    (emitter.errorLogsMetric event).emitter.workerLastSeen = emitter.workerLastSeen := by
  unfold PrometheusEmitter.errorLogsMetric
  repeat (first | rfl | split)

/-- The method `lock` leaves the last-seen map alone. -/
theorem PrometheusEmitter.lock_workerLastSeen (emitter : PrometheusEmitter)
    (event : Event) :
    (emitter.lock event).emitter.workerLastSeen = emitter.workerLastSeen := by
  unfold PrometheusEmitter.lock
  repeat (first | rfl | split)

/-- Counting the build status leaves the last-seen map alone. -/
theorem PrometheusEmitter.countBuildStatus_workerLastSeen (emitter : PrometheusEmitter)
    (buildStatus : String) :
    (emitter.countBuildStatus buildStatus).workerLastSeen = emitter.workerLastSeen := by
  unfold PrometheusEmitter.countBuildStatus
  repeat (first | rfl | split)

/-- The method `buildFinishedMetrics` leaves the last-seen map alone. -/
theorem PrometheusEmitter.buildFinishedMetrics_workerLastSeen (emitter : PrometheusEmitter)
    (event : Event) :
    (emitter.buildFinishedMetrics event).emitter.workerLastSeen = emitter.workerLastSeen := by
  unfold PrometheusEmitter.buildFinishedMetrics
  split
  · rfl
  split
  · rfl
  split
  · rfl
  split
  · rfl
  dsimp only
  split
  · rfl
  · exact PrometheusEmitter.countBuildStatus_workerLastSeen _ _

/-- The method `checkBuildFinishedMetrics` leaves the last-seen map alone. -/
theorem PrometheusEmitter.checkBuildFinishedMetrics_workerLastSeen (emitter : PrometheusEmitter)
    (event : Event) :
    (emitter.checkBuildFinishedMetrics event).emitter.workerLastSeen = emitter.workerLastSeen := by
  unfold PrometheusEmitter.checkBuildFinishedMetrics
  repeat (first | rfl | split)

/-- The method `workerContainersMetric` leaves the last-seen map alone. -/
theorem PrometheusEmitter.workerContainersMetric_workerLastSeen (emitter : PrometheusEmitter)
    (event : Event) :
    (emitter.workerContainersMetric event).emitter.workerLastSeen = emitter.workerLastSeen := by
  unfold PrometheusEmitter.workerContainersMetric
  repeat (first | rfl | split)

/-- The method `workerVolumesMetric` leaves the last-seen map alone. -/
theorem PrometheusEmitter.workerVolumesMetric_workerLastSeen (emitter : PrometheusEmitter)
    (event : Event) :
    (emitter.workerVolumesMetric event).emitter.workerLastSeen = emitter.workerLastSeen := by
  unfold PrometheusEmitter.workerVolumesMetric
  repeat (first | rfl | split)

/-- The method `workerUnknownContainersMetric` leaves the last-seen map alone. -/
theorem PrometheusEmitter.workerUnknownContainersMetric_workerLastSeen (emitter : PrometheusEmitter)
    (event : Event) :
    (emitter.workerUnknownContainersMetric event).emitter.workerLastSeen = emitter.workerLastSeen := by
  unfold PrometheusEmitter.workerUnknownContainersMetric
  repeat (first | rfl | split)

/-- The method `workerUnknownVolumesMetric` leaves the last-seen map alone. -/
theorem PrometheusEmitter.workerUnknownVolumesMetric_workerLastSeen (emitter : PrometheusEmitter)
    (event : Event) :
    (emitter.workerUnknownVolumesMetric event).emitter.workerLastSeen = emitter.workerLastSeen := by
  unfold PrometheusEmitter.workerUnknownVolumesMetric
  repeat (first | rfl | split)

/-- The method `workerTasksMetric` leaves the last-seen map alone. -/
theorem PrometheusEmitter.workerTasksMetric_workerLastSeen (emitter : PrometheusEmitter)
    (event : Event) :
    (emitter.workerTasksMetric event).emitter.workerLastSeen = emitter.workerLastSeen := by
  unfold PrometheusEmitter.workerTasksMetric
  repeat (first | rfl | split)

/-- The method `workersRegisteredMetric` leaves the last-seen map alone. -/
theorem PrometheusEmitter.workersRegisteredMetric_workerLastSeen (emitter : PrometheusEmitter)
    (event : Event) :
    (emitter.workersRegisteredMetric event).emitter.workerLastSeen = emitter.workerLastSeen := by
  unfold PrometheusEmitter.workersRegisteredMetric
  repeat (first | rfl | split)

/-- The method `httpResponseTimeMetrics` leaves the last-seen map alone. -/
theorem PrometheusEmitter.httpResponseTimeMetrics_workerLastSeen (emitter : PrometheusEmitter)
    (event : Event) :
    (emitter.httpResponseTimeMetrics event).emitter.workerLastSeen = emitter.workerLastSeen := by
  unfold PrometheusEmitter.httpResponseTimeMetrics
  repeat (first | rfl | split)

/-- The method `databaseMetrics` leaves the last-seen map alone. -/
theorem PrometheusEmitter.databaseMetrics_workerLastSeen (emitter : PrometheusEmitter)
    (event : Event) :
    (emitter.databaseMetrics event).emitter.workerLastSeen = emitter.workerLastSeen := by
  unfold PrometheusEmitter.databaseMetrics
  split
  · exact PrometheusEmitter.addTo_workerLastSeen _ _ _ _ (fun _ => rfl)
  · repeat (first | rfl | split)

/-- No case of the `switch` of `Emit` touches the last-seen map. -/
theorem PrometheusEmitter.dispatch_workerLastSeen (emitter : PrometheusEmitter)
    (event : Event) :
    (emitter.dispatch event).emitter.workerLastSeen = emitter.workerLastSeen := by
  unfold PrometheusEmitter.dispatch
  by_cases h1 : event.Name = "error log"
  · rw [if_pos h1]
    exact PrometheusEmitter.errorLogsMetric_workerLastSeen _ _
  rw [if_neg h1]
  by_cases h2 : event.Name = "lock held"
  · rw [if_pos h2]
    exact PrometheusEmitter.lock_workerLastSeen _ _
  rw [if_neg h2]
  by_cases h3 : event.Name = "jobs scheduled"
  · rw [if_pos h3]
    exact PrometheusEmitter.addTo_workerLastSeen _ _ _ _ (fun _ => rfl)
  rw [if_neg h3]
  by_cases h4 : event.Name = "jobs scheduling"
  · rw [if_pos h4]
    rfl
  rw [if_neg h4]
  by_cases h5 : event.Name = "builds started"
  · rw [if_pos h5]
    exact PrometheusEmitter.addTo_workerLastSeen _ _ _ _ (fun _ => rfl)
  rw [if_neg h5]
  by_cases h6 : event.Name = "builds running"
  · rw [if_pos h6]
    rfl
  rw [if_neg h6]
  by_cases h7 : event.Name = "check builds started"
  · rw [if_pos h7]
    exact PrometheusEmitter.addTo_workerLastSeen _ _ _ _ (fun _ => rfl)
  rw [if_neg h7]
  by_cases h8 : event.Name = "check builds running"
  · rw [if_pos h8]
    rfl
  rw [if_neg h8]
  by_cases h9 : event.Name = "concurrent requests limit hit"
  · rw [if_pos h9]
  rw [if_neg h9]
  by_cases h10 : event.Name = "concurrent requests"
  · rw [if_pos h10]
  rw [if_neg h10]
  by_cases h11 : event.Name = "steps waiting"
  · rw [if_pos h11]
  rw [if_neg h11]
  by_cases h12 : event.Name = "steps waiting duration"
  · rw [if_pos h12]
  rw [if_neg h12]
  by_cases h13 : event.Name = "build finished"
  · rw [if_pos h13]
    exact PrometheusEmitter.buildFinishedMetrics_workerLastSeen _ _
  rw [if_neg h13]
  by_cases h14 : event.Name = "check build finished"
  · rw [if_pos h14]
    exact PrometheusEmitter.checkBuildFinishedMetrics_workerLastSeen _ _
  rw [if_neg h14]
  by_cases h15 : event.Name = "worker containers"
  · rw [if_pos h15]
    exact PrometheusEmitter.workerContainersMetric_workerLastSeen _ _
  rw [if_neg h15]
  by_cases h16 : event.Name = "worker volumes"
  · rw [if_pos h16]
    exact PrometheusEmitter.workerVolumesMetric_workerLastSeen _ _
  rw [if_neg h16]
  by_cases h17 : event.Name = "worker unknown containers"
  · rw [if_pos h17]
    exact PrometheusEmitter.workerUnknownContainersMetric_workerLastSeen _ _
  rw [if_neg h17]
  by_cases h18 : event.Name = "worker unknown volumes"
  · rw [if_pos h18]
    exact PrometheusEmitter.workerUnknownVolumesMetric_workerLastSeen _ _
  rw [if_neg h18]
  by_cases h19 : event.Name = "worker tasks"
  · rw [if_pos h19]
    exact PrometheusEmitter.workerTasksMetric_workerLastSeen _ _
  rw [if_neg h19]
  by_cases h20 : event.Name = "worker state"
  · rw [if_pos h20]
    exact PrometheusEmitter.workersRegisteredMetric_workerLastSeen _ _
  rw [if_neg h20]
  by_cases h21 : event.Name = "http response time"
  · rw [if_pos h21]
    exact PrometheusEmitter.httpResponseTimeMetrics_workerLastSeen _ _
  rw [if_neg h21]
  by_cases h22 : event.Name = "database queries"
  · rw [if_pos h22]
    exact PrometheusEmitter.databaseMetrics_workerLastSeen _ _
  rw [if_neg h22]
  by_cases h23 : event.Name = "database connections"
  · rw [if_pos h23]
    exact PrometheusEmitter.databaseMetrics_workerLastSeen _ _
  rw [if_neg h23]
  by_cases h24 : event.Name = "checks finished"
  · rw [if_pos h24]
  rw [if_neg h24]
  by_cases h25 : event.Name = "checks started"
  · rw [if_pos h25]
    exact PrometheusEmitter.addTo_workerLastSeen _ _ _ _ (fun _ => rfl)
  rw [if_neg h25]
  by_cases h26 : event.Name = "checks enqueued"
  · rw [if_pos h26]
    exact PrometheusEmitter.addTo_workerLastSeen _ _ _ _ (fun _ => rfl)
  rw [if_neg h26]
  by_cases h27 : event.Name = "volumes streamed"
  · rw [if_pos h27]
    exact PrometheusEmitter.addTo_workerLastSeen _ _ _ _ (fun _ => rfl)
  rw [if_neg h27]
  rfl

/-- C19: for every event carrying a `worker` attribute, whatever its name and whether
or not handling it panics, `Emit` sets that worker's last-seen time to the current
time, replacing any earlier value, and leaves the other workers' times unchanged;
an event without the attribute leaves the last-seen map unchanged. -/
theorem PrometheusEmitter.Emit_updates_lastSeen (emitter : PrometheusEmitter) (now : Time)
    (event : Event) :
    (∀ worker, mapGet event.Attributes "worker" = some worker →
      mapGet (emitter.Emit now event).emitter.workerLastSeen worker = some now ∧
      ∀ other, other ≠ worker →
        mapGet (emitter.Emit now event).emitter.workerLastSeen other
          = mapGet emitter.workerLastSeen other) ∧
    (mapGet event.Attributes "worker" = none →
      (emitter.Emit now event).emitter.workerLastSeen = emitter.workerLastSeen) := by
  have hd : (emitter.Emit now event).emitter.workerLastSeen
      = (emitter.updateLastSeen now event).workerLastSeen := by
    unfold PrometheusEmitter.Emit
    exact PrometheusEmitter.dispatch_workerLastSeen _ event
  rw [hd]
  constructor
  · intro worker hw
    simp only [PrometheusEmitter.updateLastSeen, hw]
    exact ⟨mapGet_mapSet_self _ _ _, fun other ho => mapGet_mapSet_ne _ _ _ _ ho⟩
  · intro hw
    simp only [PrometheusEmitter.updateLastSeen, hw]

/-- C19 at concrete inputs: worker `w1`, last seen at 100, is seen again at 500 through
an event that `Emit` has no case for; worker `w2` keeps its time; an event without
a worker changes nothing. -/
theorem PrometheusEmitter.Emit_updates_lastSeen_witness :
    mapGet ((NewEmitter.emitAll [(100, containersEvent "w1"), (200, tasksEvent "w2")]).Emit 500
        (otherEvent "w1")).emitter.workerLastSeen "w1" = some 500 ∧
    mapGet ((NewEmitter.emitAll [(100, containersEvent "w1"), (200, tasksEvent "w2")]).Emit 500
        (otherEvent "w1")).emitter.workerLastSeen "w2"
      = mapGet (NewEmitter.emitAll [(100, containersEvent "w1"),
          (200, tasksEvent "w2")]).workerLastSeen "w2" ∧
    ((NewEmitter.emitAll [(100, containersEvent "w1"), (200, tasksEvent "w2")]).Emit 500
        { Name := "jobs scheduling", Value := 4, Attributes := [] }).emitter.workerLastSeen
      = (NewEmitter.emitAll [(100, containersEvent "w1"),
          (200, tasksEvent "w2")]).workerLastSeen :=
  have h := (PrometheusEmitter.Emit_updates_lastSeen
    (NewEmitter.emitAll [(100, containersEvent "w1"), (200, tasksEvent "w2")]) 500
    (otherEvent "w1")).1 "w1" rfl
  ⟨h.1, h.2 "w2" (by decide),
   (PrometheusEmitter.Emit_updates_lastSeen
    (NewEmitter.emitAll [(100, containersEvent "w1"), (200, tasksEvent "w2")]) 500
    { Name := "jobs scheduling", Value := 4, Attributes := [] }).2 rfl⟩

/-! ## Prometheus emitter: garbage collection of stale workers -/

/-- Beyond five minutes the saturation of `Sub` does not matter. -/
theorem timeSub_gt_five_minutes (now lastSeen : Time) :
    timeSub now lastSeen > 5 * Minute ↔ now - lastSeen > 5 * Minute := by
  have key : ∀ a b : Int,
      (if a - b > 2 ^ 63 - 1 then (2 ^ 63 - 1 : Int)
        else if a - b < -(2 ^ 63) then -(2 ^ 63) else a - b) > 5 * (60 * 1000000000)
      ↔ a - b > 5 * (60 * 1000000000) := by
    intro a b
    norm_num
    split_ifs <;> constructor <;> intro h <;> omega
  exact key now lastSeen

/-- In a map with every key once, the value found under a key is the value of every
entry with that key. -/
theorem mapGet_of_mem_nodup {V : Type} (m : GoMap V) (h : (mapKeys m).Nodup) (k : String)
    (v : V) (hm : (k, v) ∈ m) : mapGet m k = some v := by
  induction m with
  | nil => cases hm
  | cons a t ih =>
    obtain ⟨k1, v1⟩ := a
    simp only [mapKeys, List.map_cons, List.nodup_cons] at h
    rcases List.mem_cons.1 hm with heq | hmem
    · cases heq
      simp [mapGet]
    · have hne : k1 ≠ k := by
        intro hk
        subst hk
        exact h.1 (List.mem_map_of_mem Prod.fst hmem)
      simp only [mapGet, hne, if_false]
      exact ih h.2 hmem

/-- The entry found under a key is an entry of the map. -/
theorem mem_of_mapGet {V : Type} (m : GoMap V) (k : String) (v : V)
    (h : mapGet m k = some v) : (k, v) ∈ m := by
  induction m with
  | nil => simp [mapGet] at h
  | cons a t ih =>
    obtain ⟨k1, v1⟩ := a
    by_cases hk : k1 = k
    · subst hk
      simp only [mapGet, if_true, Option.some.injEq] at h
      subst h
      exact List.mem_cons_self _ _
    · simp only [mapGet, hk, if_false] at h
      exact List.mem_cons_of_mem _ (ih h)

/-- One pass over the entries deletes from a map of the emitter exactly the keys of
the stale entries, when each step deletes the stale entry's key from it. -/
theorem fold_collectIfStale_map {V : Type} (now : Time) (proj : PrometheusEmitter → GoMap V)
    (hproj : ∀ (e : PrometheusEmitter) (x : String × Time),
      proj (PrometheusEmitter.collectIfStale now e x)
        = if timeSub now x.2 > 5 * Minute then mapDelete (proj e) x.1 else proj e)
    (entries : List (String × Time)) (e : PrometheusEmitter) :
    proj (entries.foldl (PrometheusEmitter.collectIfStale now) e)
      = (proj e).filter (fun p =>
          !(entries.any (fun x => decide (x.1 = p.1 ∧ timeSub now x.2 > 5 * Minute)))) := by
  induction entries generalizing e with
  | nil => simp
  | cons x xs ih =>
    rw [List.foldl_cons, ih, hproj]
    by_cases hs : timeSub now x.2 > 5 * Minute
    · rw [if_pos hs, mapDelete, List.filter_filter]
      apply List.filter_congr
      intro p _
      by_cases hp : x.1 = p.1
      · simp [hp, hs]
      · have hp2 : ¬ p.1 = x.1 := fun h => hp h.symm
        simp [hp, hp2, hs]
    · rw [if_neg hs]
      apply List.filter_congr
      intro p _
      simp [hs]

/-- The call `Delete` keeps the label names of the vector. -/
theorem MetricVec.Delete_labelNames {M : Type} (vec : MetricVec M) (labels : Labels) :
    (vec.Delete labels).labelNames = vec.labelNames := by
  unfold MetricVec.Delete
  split <;> rfl

/-- The call `Delete` adds no series. -/
theorem MetricVec.has_of_has_Delete {M : Type} (vec : MetricVec M) (labels : Labels)
    (lvs : List String) (h : (vec.Delete labels).has lvs = true) : vec.has lvs = true := by
  unfold MetricVec.Delete at h
  split at h
  · exact h
  · simp only [MetricVec.has, List.any_eq_true, List.mem_filter] at h ⊢
    obtain ⟨p, ⟨hp, -⟩, hq⟩ := h
    exact ⟨p, hp, hq⟩

/-- The call `Delete` removes the series of labels that are consistent with the
vector. -/
theorem MetricVec.has_Delete_self {M : Type} (vec : MetricVec M) (labels : Labels)
    (lvs : List String) (h : vec.labelValues labels = some lvs) :
    (vec.Delete labels).has lvs = false := by
  unfold MetricVec.Delete
  rw [h]
  simp [MetricVec.has]

/-- What `labelValues` gives depends on the label names of the vector only. -/
theorem MetricVec.labelValues_congr {M : Type} (v1 v2 : MetricVec M)
    (h : v1.labelNames = v2.labelNames) (labels : Labels) :
    v1.labelValues labels = v2.labelValues labels := by
  unfold MetricVec.labelValues
  rw [h]

/-- A run of `Delete` calls keeps the label names of the vector. -/
theorem foldl_Delete_labelNames {M : Type} (ls : List Labels) (vec : MetricVec M) :
    (ls.foldl MetricVec.Delete vec).labelNames = vec.labelNames := by
  induction ls generalizing vec with
  | nil => rfl
  | cons l t ih => rw [List.foldl_cons, ih, MetricVec.Delete_labelNames]

/-- A run of `Delete` calls adds no series. -/
theorem has_of_has_foldl_Delete {M : Type} (ls : List Labels) (vec : MetricVec M)
    (lvs : List String) (h : (ls.foldl MetricVec.Delete vec).has lvs = true) :
    vec.has lvs = true := by
  induction ls generalizing vec with
  | nil => exact h
  | cons l t ih =>
    rw [List.foldl_cons] at h
    exact MetricVec.has_of_has_Delete vec l lvs (ih _ h)

/-- A run of `Delete` calls removes the series of each of its label sets that is
consistent with the vector. -/
theorem has_foldl_Delete_of_mem {M : Type} (ls : List Labels) (vec : MetricVec M)
    (labels : Labels) (lvs : List String) (hmem : labels ∈ ls)
    (h : vec.labelValues labels = some lvs) :
    (ls.foldl MetricVec.Delete vec).has lvs = false := by
  induction ls generalizing vec with
  | nil => cases hmem
  | cons l t ih =>
    rw [List.foldl_cons]
    rcases List.mem_cons.1 hmem with heq | hin
    · subst heq
      cases hh : (List.foldl MetricVec.Delete (vec.Delete labels) t).has lvs with
      | false => rfl
      | true =>
        have h1 := has_of_has_foldl_Delete t _ lvs hh
        rw [MetricVec.has_Delete_self vec labels lvs h] at h1
        cases h1
    · apply ih _ hin
      rw [MetricVec.labelValues_congr _ vec (MetricVec.Delete_labelNames vec l)]
      exact h

/-- One pass over the entries adds no series to a gauge vector of the emitter, when
each step only deletes label sets from it. -/
theorem fold_collectIfStale_has (now : Time) (gauge : PrometheusEmitter → MetricVec Gauge)
    (proj : PrometheusEmitter → GoMap (GoMap Labels))
    (hgauge : ∀ (e : PrometheusEmitter) (x : String × Time),
      gauge (PrometheusEmitter.collectIfStale now e x)
        = if timeSub now x.2 > 5 * Minute then deleteLabels (gauge e) (proj e) x.1
          else gauge e)
    (entries : List (String × Time)) (e : PrometheusEmitter) (lvs : List String)
    (h : (gauge (entries.foldl (PrometheusEmitter.collectIfStale now) e)).has lvs = true) :
    (gauge e).has lvs = true := by
  induction entries generalizing e with
  | nil => exact h
  | cons x xs ih =>
    rw [List.foldl_cons] at h
    have h1 := ih _ h
    rw [hgauge] at h1
    split at h1
    · exact has_of_has_foldl_Delete _ _ lvs h1
    · exact h1

/-- One pass over the entries deletes from a gauge vector of the emitter the series of
every label set recorded for a stale entry's worker, when each step deletes the
stale entry's label sets from the vector and its key from the label map. -/
theorem fold_collectIfStale_deletes (now : Time) (gauge : PrometheusEmitter → MetricVec Gauge)
    (proj : PrometheusEmitter → GoMap (GoMap Labels))
    (hgauge : ∀ (e : PrometheusEmitter) (x : String × Time),
      gauge (PrometheusEmitter.collectIfStale now e x)
        = if timeSub now x.2 > 5 * Minute then deleteLabels (gauge e) (proj e) x.1
          else gauge e)
    (hproj : ∀ (e : PrometheusEmitter) (x : String × Time),
      proj (PrometheusEmitter.collectIfStale now e x)
        = if timeSub now x.2 > 5 * Minute then mapDelete (proj e) x.1 else proj e)
    (entries : List (String × Time)) (e : PrometheusEmitter) (x : String × Time)
    (hx : x ∈ entries) (hstale : timeSub now x.2 > 5 * Minute) (labels : Labels)
    (hlabels : labels ∈ ((mapGet (proj e) x.1).getD []).map Prod.snd) (lvs : List String)
    (hlvs : (gauge e).labelValues labels = some lvs) :
    (gauge (entries.foldl (PrometheusEmitter.collectIfStale now) e)).has lvs = false := by
  induction entries generalizing e with
  | nil => cases hx
  | cons y ys ih =>
    rw [List.foldl_cons]
    -- once the series is gone after the step for `y`, it stays gone
    have gone : (gauge (PrometheusEmitter.collectIfStale now e y)).has lvs = false →
        (gauge (ys.foldl (PrometheusEmitter.collectIfStale now)
          (PrometheusEmitter.collectIfStale now e y))).has lvs = false := by
      intro hg
      cases hh : (gauge (ys.foldl (PrometheusEmitter.collectIfStale now)
          (PrometheusEmitter.collectIfStale now e y))).has lvs with
      | false => rfl
      | true =>
        rw [fold_collectIfStale_has now gauge proj hgauge ys _ lvs hh] at hg
        cases hg
    by_cases hy : timeSub now y.2 > 5 * Minute ∧ y.1 = x.1
    · -- the step for `y` collects the worker of `x`
      apply gone
      rw [hgauge, if_pos hy.1, hy.2]
      exact has_foldl_Delete_of_mem _ _ labels lvs hlabels hlvs
    · rcases List.mem_cons.1 hx with heq | hin
      · subst heq
        exact absurd ⟨hstale, rfl⟩ hy
      · apply ih _ hin
        · rw [hproj]
          split
          · rename_i hs
            have hne : x.1 ≠ y.1 := fun h => hy ⟨hs, h.symm⟩
            rw [mapGet_mapDelete_ne _ _ _ hne]
            exact hlabels
          · exact hlabels
        · rw [MetricVec.labelValues_congr _ (gauge e) _]
          · exact hlvs
          · rw [hgauge]
            split
            · exact foldl_Delete_labelNames _ _
            · rfl

/-- The step for one entry deletes a stale worker from `workerLastSeen`. -/
theorem PrometheusEmitter.collectIfStale_workerLastSeen (now : Time) (e : PrometheusEmitter)
    (x : String × Time) :
    (PrometheusEmitter.collectIfStale now e x).workerLastSeen
      = if timeSub now x.2 > 5 * Minute then mapDelete e.workerLastSeen x.1
        else e.workerLastSeen := by
  unfold PrometheusEmitter.collectIfStale
  by_cases hs : timeSub now x.2 > 5 * Minute
  · rw [if_pos hs, if_pos hs]
  · rw [if_neg hs, if_neg hs]

/-- The step for one entry deletes a stale worker from `workerContainersLabels`. -/
theorem PrometheusEmitter.collectIfStale_workerContainersLabels (now : Time) (e : PrometheusEmitter)
    (x : String × Time) :
    (PrometheusEmitter.collectIfStale now e x).workerContainersLabels
      = if timeSub now x.2 > 5 * Minute then mapDelete e.workerContainersLabels x.1
        else e.workerContainersLabels := by
  unfold PrometheusEmitter.collectIfStale
  by_cases hs : timeSub now x.2 > 5 * Minute
  · rw [if_pos hs, if_pos hs]
    rfl
  · rw [if_neg hs, if_neg hs]

/-- The step for one entry deletes a stale worker from `workerVolumesLabels`. -/
theorem PrometheusEmitter.collectIfStale_workerVolumesLabels (now : Time) (e : PrometheusEmitter)
    (x : String × Time) :
    (PrometheusEmitter.collectIfStale now e x).workerVolumesLabels
      = if timeSub now x.2 > 5 * Minute then mapDelete e.workerVolumesLabels x.1
        else e.workerVolumesLabels := by
  unfold PrometheusEmitter.collectIfStale
  by_cases hs : timeSub now x.2 > 5 * Minute
  · rw [if_pos hs, if_pos hs]
    rfl
  · rw [if_neg hs, if_neg hs]

/-- The step for one entry deletes a stale worker from `workerTasksLabels`. -/
theorem PrometheusEmitter.collectIfStale_workerTasksLabels (now : Time) (e : PrometheusEmitter)
    (x : String × Time) :
    (PrometheusEmitter.collectIfStale now e x).workerTasksLabels
      = if timeSub now x.2 > 5 * Minute then mapDelete e.workerTasksLabels x.1
        else e.workerTasksLabels := by
  unfold PrometheusEmitter.collectIfStale
  by_cases hs : timeSub now x.2 > 5 * Minute
  · rw [if_pos hs, if_pos hs]
    rfl
  · rw [if_neg hs, if_neg hs]

/-- The step for one entry deletes a stale worker's label sets from `workerContainers`. -/
theorem PrometheusEmitter.collectIfStale_workerContainers (now : Time) (e : PrometheusEmitter)
    (x : String × Time) :
    (PrometheusEmitter.collectIfStale now e x).workerContainers
      = if timeSub now x.2 > 5 * Minute then
          deleteLabels e.workerContainers e.workerContainersLabels x.1
        else e.workerContainers := by
  unfold PrometheusEmitter.collectIfStale
  by_cases hs : timeSub now x.2 > 5 * Minute
  · rw [if_pos hs, if_pos hs]
    rfl
  · rw [if_neg hs, if_neg hs]

/-- The step for one entry deletes a stale worker's label sets from `workerVolumes`. -/
theorem PrometheusEmitter.collectIfStale_workerVolumes (now : Time) (e : PrometheusEmitter)
    (x : String × Time) :
    (PrometheusEmitter.collectIfStale now e x).workerVolumes
      = if timeSub now x.2 > 5 * Minute then deleteLabels e.workerVolumes e.workerVolumesLabels x.1
        else e.workerVolumes := by
  unfold PrometheusEmitter.collectIfStale
  by_cases hs : timeSub now x.2 > 5 * Minute
  · rw [if_pos hs, if_pos hs]
    rfl
  · rw [if_neg hs, if_neg hs]

/-- The step for one entry deletes a stale worker's label sets from `workerTasks`. -/
theorem PrometheusEmitter.collectIfStale_workerTasks (now : Time) (e : PrometheusEmitter)
    (x : String × Time) :
    (PrometheusEmitter.collectIfStale now e x).workerTasks
      = if timeSub now x.2 > 5 * Minute then deleteLabels e.workerTasks e.workerTasksLabels x.1
        else e.workerTasks := by
  unfold PrometheusEmitter.collectIfStale
  by_cases hs : timeSub now x.2 > 5 * Minute
  · rw [if_pos hs, if_pos hs]
    rfl
  · rw [if_neg hs, if_neg hs]

/-- In a map with every key once, a key has a stale entry exactly when the entry found
under it is stale. -/
theorem any_stale_iff (now : Time) (m : GoMap Time) (hmap : (mapKeys m).Nodup)
    (worker : String) (lastSeen : Time) (hseen : mapGet m worker = some lastSeen) :
    m.any (fun x => decide (x.1 = worker ∧ timeSub now x.2 > 5 * Minute)) = true
      ↔ now - lastSeen > 5 * Minute := by
  rw [← timeSub_gt_five_minutes]
  simp only [List.any_eq_true, decide_eq_true_eq]
  constructor
  · rintro ⟨⟨k, t⟩, hmem, hk, hs⟩
    simp only at hk hs
    subst hk
    have h1 := mapGet_of_mem_nodup m hmap k t hmem
    rw [hseen] at h1
    cases h1
    exact hs
  · intro hs
    exact ⟨(worker, lastSeen), mem_of_mapGet m worker lastSeen hseen, rfl, hs⟩

/-- After one pass, a key of a map that each step deletes stale workers from is there
exactly when its worker is not stale. -/
theorem mapGet_fold_collectIfStale {V : Type} (now : Time)
    (proj : PrometheusEmitter → GoMap V)
    (hproj : ∀ (e : PrometheusEmitter) (x : String × Time),
      proj (PrometheusEmitter.collectIfStale now e x)
        = if timeSub now x.2 > 5 * Minute then mapDelete (proj e) x.1 else proj e)
    (emitter : PrometheusEmitter) (hmap : (mapKeys emitter.workerLastSeen).Nodup)
    (worker : String) (lastSeen : Time)
    (hseen : mapGet emitter.workerLastSeen worker = some lastSeen) :
    mapGet (proj (emitter.periodicMetricGC now)) worker
      = if now - lastSeen > 5 * Minute then none else mapGet (proj emitter) worker := by
  unfold PrometheusEmitter.periodicMetricGC
  rw [fold_collectIfStale_map now proj hproj]
  have h := mapGet_filter
    (fun k => !(emitter.workerLastSeen.any
      (fun x => decide (x.1 = k ∧ timeSub now x.2 > 5 * Minute)))) (proj emitter) worker
  rw [h]
  have hiff := any_stale_iff now emitter.workerLastSeen hmap worker lastSeen hseen
  by_cases hs : now - lastSeen > 5 * Minute
  · rw [if_pos hs, hiff.2 hs]
    rfl
  · rw [if_neg hs]
    have : emitter.workerLastSeen.any
        (fun x => decide (x.1 = worker ∧ timeSub now x.2 > 5 * Minute)) = false := by
      cases hb : emitter.workerLastSeen.any
        (fun x => decide (x.1 = worker ∧ timeSub now x.2 > 5 * Minute)) with
      | false => rfl
      | true => exact absurd (hiff.1 hb) hs
    rw [this]
    rfl

/-- C20: in one pass of `periodicMetricGC`, a worker last seen strictly more than 5
minutes ago is removed from the last-seen map and garbage-collected: it has no
entry in the three label maps, and the series of every label set recorded for it
is deleted from the gauge vector the label map belongs to.  A worker last seen 5
minutes ago or less keeps its last-seen entry and all its label sets.  So the worker
is removed exactly when more than 5 minutes have elapsed. -/
theorem PrometheusEmitter.periodicMetricGC_collects_stale (emitter : PrometheusEmitter)
    (now : Time) (worker : String) (lastSeen : Time)
    (hmap : (mapKeys emitter.workerLastSeen).Nodup)
    (hseen : mapGet emitter.workerLastSeen worker = some lastSeen) :
    (now - lastSeen > 5 * Minute →
      mapGet (emitter.periodicMetricGC now).workerLastSeen worker = none ∧
      mapGet (emitter.periodicMetricGC now).workerContainersLabels worker = none ∧
      mapGet (emitter.periodicMetricGC now).workerVolumesLabels worker = none ∧
      mapGet (emitter.periodicMetricGC now).workerTasksLabels worker = none ∧
      (∀ labels lvs,
        labels ∈ ((mapGet emitter.workerContainersLabels worker).getD []).map Prod.snd →
        emitter.workerContainers.labelValues labels = some lvs →
        (emitter.periodicMetricGC now).workerContainers.has lvs = false) ∧
      (∀ labels lvs,
        labels ∈ ((mapGet emitter.workerVolumesLabels worker).getD []).map Prod.snd →
        emitter.workerVolumes.labelValues labels = some lvs →
        (emitter.periodicMetricGC now).workerVolumes.has lvs = false) ∧
      (∀ labels lvs,
        labels ∈ ((mapGet emitter.workerTasksLabels worker).getD []).map Prod.snd →
        emitter.workerTasks.labelValues labels = some lvs →
        (emitter.periodicMetricGC now).workerTasks.has lvs = false)) ∧
    (now - lastSeen ≤ 5 * Minute →
      mapGet (emitter.periodicMetricGC now).workerLastSeen worker = some lastSeen ∧
      mapGet (emitter.periodicMetricGC now).workerContainersLabels worker
        = mapGet emitter.workerContainersLabels worker ∧
      mapGet (emitter.periodicMetricGC now).workerVolumesLabels worker
        = mapGet emitter.workerVolumesLabels worker ∧
      mapGet (emitter.periodicMetricGC now).workerTasksLabels worker
        = mapGet emitter.workerTasksLabels worker) ∧
    (mapGet (emitter.periodicMetricGC now).workerLastSeen worker = none
      ↔ now - lastSeen > 5 * Minute) := by
  have h1 := mapGet_fold_collectIfStale now (fun e => e.workerLastSeen)
    (PrometheusEmitter.collectIfStale_workerLastSeen now) emitter hmap worker lastSeen hseen
  have h2 := mapGet_fold_collectIfStale now (fun e => e.workerContainersLabels)
    (PrometheusEmitter.collectIfStale_workerContainersLabels now) emitter hmap worker lastSeen
    hseen
  have h3 := mapGet_fold_collectIfStale now (fun e => e.workerVolumesLabels)
    (PrometheusEmitter.collectIfStale_workerVolumesLabels now) emitter hmap worker lastSeen
    hseen
  have h4 := mapGet_fold_collectIfStale now (fun e => e.workerTasksLabels)
    (PrometheusEmitter.collectIfStale_workerTasksLabels now) emitter hmap worker lastSeen hseen
  simp only at h1 h2 h3 h4
  have hmem := mem_of_mapGet emitter.workerLastSeen worker lastSeen hseen
  refine ⟨fun hs => ?_, fun hs => ?_, ?_⟩
  · have hst := (timeSub_gt_five_minutes now lastSeen).2 hs
    rw [if_pos hs] at h1 h2 h3 h4
    refine ⟨h1, h2, h3, h4, ?_, ?_, ?_⟩
    · intro labels lvs hl hv
      exact fold_collectIfStale_deletes now (fun e => e.workerContainers)
        (fun e => e.workerContainersLabels) (PrometheusEmitter.collectIfStale_workerContainers now)
        (PrometheusEmitter.collectIfStale_workerContainersLabels now) emitter.workerLastSeen
        emitter (worker, lastSeen) hmem hst labels hl lvs hv
    · intro labels lvs hl hv
      exact fold_collectIfStale_deletes now (fun e => e.workerVolumes)
        (fun e => e.workerVolumesLabels) (PrometheusEmitter.collectIfStale_workerVolumes now)
        (PrometheusEmitter.collectIfStale_workerVolumesLabels now) emitter.workerLastSeen
        emitter (worker, lastSeen) hmem hst labels hl lvs hv
    · intro labels lvs hl hv
      exact fold_collectIfStale_deletes now (fun e => e.workerTasks)
        (fun e => e.workerTasksLabels) (PrometheusEmitter.collectIfStale_workerTasks now)
        (PrometheusEmitter.collectIfStale_workerTasksLabels now) emitter.workerLastSeen
        emitter (worker, lastSeen) hmem hst labels hl lvs hv
  · have hn : ¬ now - lastSeen > 5 * Minute := not_lt.2 hs
    rw [if_neg hn] at h1 h2 h3 h4
    exact ⟨h1.trans hseen, h2, h3, h4⟩
  · by_cases hs : now - lastSeen > 5 * Minute
    · rw [if_pos hs] at h1
      exact ⟨fun _ => hs, fun _ => h1⟩
    · rw [if_neg hs, hseen] at h1
      constructor
      · intro h
        rw [h1] at h
        cases h
      · intro h
        exact absurd h hs

/-- C20 at concrete inputs: at time 400000000100 worker `w1`, last seen at 100, is
collected, and worker `w2`, last seen exactly 5 minutes ago, is kept. -/
theorem PrometheusEmitter.periodicMetricGC_collects_stale_witness :
    (mapGet ((NewEmitter.emitAll [(100, containersEvent "w1"),
        (100000000100, tasksEvent "w2")]).periodicMetricGC 400000000100).workerLastSeen "w1"
      = none ∧
     mapGet ((NewEmitter.emitAll [(100, containersEvent "w1"),
        (100000000100, tasksEvent "w2")]).periodicMetricGC 400000000100).workerContainersLabels
        "w1" = none) ∧
    (mapGet ((NewEmitter.emitAll [(100, containersEvent "w1"),
        (100000000100, tasksEvent "w2")]).periodicMetricGC 400000000100).workerLastSeen "w2"
      = some 100000000100 ∧
     mapGet ((NewEmitter.emitAll [(100, containersEvent "w1"),
        (100000000100, tasksEvent "w2")]).periodicMetricGC 400000000100).workerTasksLabels "w2"
      = mapGet (NewEmitter.emitAll [(100, containersEvent "w1"),
          (100000000100, tasksEvent "w2")]).workerTasksLabels "w2") :=
  have h1 := (PrometheusEmitter.periodicMetricGC_collects_stale
    (NewEmitter.emitAll [(100, containersEvent "w1"), (100000000100, tasksEvent "w2")])
    400000000100 "w1" 100 (by decide) (by decide)).1 (by decide)
  have h2 := (PrometheusEmitter.periodicMetricGC_collects_stale
    (NewEmitter.emitAll [(100, containersEvent "w1"), (100000000100, tasksEvent "w2")])
    400000000100 "w2" 100000000100 (by decide) (by decide)).2.1 (by decide)
  ⟨⟨h1.1, h1.2.1⟩, ⟨h2.1, h2.2.2.2⟩⟩

/-- Deleting a key keeps every key once. -/
theorem mapDelete_nodup {V : Type} (m : GoMap V) (k : String) (h : (mapKeys m).Nodup) :
    (mapKeys (mapDelete m k)).Nodup :=
  List.Nodup.sublist (List.Sublist.map Prod.fst (List.filter_sublist m)) h

/-- Setting a key keeps every key once. -/
theorem mapSet_nodup {V : Type} (m : GoMap V) (k : String) (v : V) (h : (mapKeys m).Nodup) :
    (mapKeys (mapSet m k v)).Nodup := by
  have h1 := mapDelete_nodup m k h
  have h2 := not_mem_mapKeys_mapDelete m k
  simp only [mapSet, mapKeys, List.map_cons, List.nodup_cons]
  exact ⟨h2, h1⟩

/-- The last-seen map of a new emitter has every key once, and `Emit` keeps it so. -/
theorem PrometheusEmitter.Emit_lastSeen_nodup (emitter : PrometheusEmitter) (now : Time)
    (event : Event) (h : (mapKeys emitter.workerLastSeen).Nodup) :
    (mapKeys NewEmitter.workerLastSeen).Nodup ∧
    (mapKeys (emitter.Emit now event).emitter.workerLastSeen).Nodup := by
  refine ⟨List.nodup_nil, ?_⟩
  unfold PrometheusEmitter.Emit
  rw [PrometheusEmitter.dispatch_workerLastSeen]
  unfold PrometheusEmitter.updateLastSeen
  split
  · exact mapSet_nodup _ _ _ h
  · exact h

/-- One pass of `periodicMetricGC` keeps every key of the last-seen map once. -/
theorem PrometheusEmitter.periodicMetricGC_lastSeen_nodup (emitter : PrometheusEmitter)
    (now : Time) (h : (mapKeys emitter.workerLastSeen).Nodup) :
    (mapKeys (emitter.periodicMetricGC now).workerLastSeen).Nodup := by
  unfold PrometheusEmitter.periodicMetricGC
  have hf := fold_collectIfStale_map now (fun e => e.workerLastSeen)
    (PrometheusEmitter.collectIfStale_workerLastSeen now) emitter.workerLastSeen emitter
  simp only at hf
  rw [hf]
  exact List.Nodup.sublist (List.Sublist.map Prod.fst (List.filter_sublist _)) h

/-! ## FakeTaskDelegate -/

/-- One `SelectWorker` call appends its arguments to the recorded ones. -/
theorem FakeTaskDelegate.SelectWorker_args {T : WorkerTypes} (fake : FakeTaskDelegate T)
    (args : SelectWorkerArgs T) :
    (fake.SelectWorker args).2.selectWorkerArgsForCall
      = fake.selectWorkerArgsForCall ++ [args] := by
  unfold FakeTaskDelegate.SelectWorker
  dsimp only
  repeat (first | rfl | split)

/-- A sequence of `SelectWorker` calls appends their arguments, in order, to the
recorded ones. -/
theorem FakeTaskDelegate.selectAll_args {T : WorkerTypes} (calls : List (SelectWorkerArgs T))
    (fake : FakeTaskDelegate T) :
    (fake.selectAll calls).selectWorkerArgsForCall = fake.selectWorkerArgsForCall ++ calls := by
  induction calls generalizing fake with
  | nil => simp [FakeTaskDelegate.selectAll]
  | cons a rest ih =>
    rw [FakeTaskDelegate.selectAll, ih, FakeTaskDelegate.SelectWorker_args]
    simp

/-- C23: after any sequence of `n` `SelectWorker` calls on a new `FakeTaskDelegate`,
`SelectWorkerCallCount()` is exactly `n` and, for every `i < n`,
`SelectWorkerArgsForCall(i)` returns the arguments of the `(i+1)`-th call; on a fake
that has recorded calls before, the earlier records stay and the new ones follow
them.  No call is lost and none is recorded twice. -/
theorem FakeTaskDelegate.records_every_call {T : WorkerTypes} (nilClient : T.Client)
    (fake : FakeTaskDelegate T) (calls : List (SelectWorkerArgs T)) :
    ((FakeTaskDelegate.new nilClient).selectAll calls).SelectWorkerCallCount = calls.length ∧
    (∀ i, i < calls.length →
      ((FakeTaskDelegate.new nilClient).selectAll calls).SelectWorkerArgsForCall i
        = calls[i]?) ∧
    (∀ i (h : i < calls.length),
      ((FakeTaskDelegate.new nilClient).selectAll calls).SelectWorkerArgsForCall i
        = some (calls.get ⟨i, h⟩)) ∧
    (fake.selectAll calls).SelectWorkerCallCount = fake.SelectWorkerCallCount + calls.length ∧
    (fake.selectAll calls).selectWorkerArgsForCall = fake.selectWorkerArgsForCall ++ calls := by
  have hnew : ((FakeTaskDelegate.new nilClient).selectAll calls).selectWorkerArgsForCall
      = calls := by
    rw [FakeTaskDelegate.selectAll_args]
    rfl
  refine ⟨?_, ?_, ?_, ?_, FakeTaskDelegate.selectAll_args calls fake⟩
  · unfold FakeTaskDelegate.SelectWorkerCallCount
    rw [hnew]
  · intro i _
    unfold FakeTaskDelegate.SelectWorkerArgsForCall
    rw [hnew]
  · intro i h
    unfold FakeTaskDelegate.SelectWorkerArgsForCall
    rw [hnew]
    exact List.getElem?_eq_getElem h
  · unfold FakeTaskDelegate.SelectWorkerCallCount
    rw [FakeTaskDelegate.selectAll_args, List.length_append]

/-- C23 at a concrete input: three steps select a worker through one fake. -/
theorem FakeTaskDelegate.records_every_call_witness :
    ((@FakeTaskDelegate.new sampleTypes none).selectAll
        [sampleArgs "X", sampleArgs "Y", sampleArgs "Z"]).SelectWorkerCallCount
      = 3 ∧
    ((@FakeTaskDelegate.new sampleTypes none).selectAll
        [sampleArgs "X", sampleArgs "Y", sampleArgs "Z"]).SelectWorkerArgsForCall 1
      = some (sampleArgs "Y") :=
  ⟨(@FakeTaskDelegate.records_every_call sampleTypes none
      (@FakeTaskDelegate.new sampleTypes none) [sampleArgs "X", sampleArgs "Y", sampleArgs "Z"]).1,
   (@FakeTaskDelegate.records_every_call sampleTypes none
      (@FakeTaskDelegate.new sampleTypes none) [sampleArgs "X", sampleArgs "Y", sampleArgs "Z"]).2.2.1 1
      (by decide)⟩

/-! ## Prometheus emitter: build counters -/

/-- A `build finished` event takes the `buildFinishedMetrics` case of the `switch`. -/
theorem PrometheusEmitter.dispatch_build_finished (emitter : PrometheusEmitter)
    (event : Event) (h : event.Name = "build finished") :
    emitter.dispatch event = emitter.buildFinishedMetrics event := by
  unfold PrometheusEmitter.dispatch
  simp [h]

/-- Counting the build status increments at most one of the four status counters and
leaves the finished counter alone. -/
theorem PrometheusEmitter.countBuildStatus_counts (emitter : PrometheusEmitter)
    (buildStatus : String) :
    (emitter.countBuildStatus buildStatus).buildsFinished = emitter.buildsFinished ∧
    atMostOneStatusInc emitter (emitter.countBuildStatus buildStatus) := by
  unfold PrometheusEmitter.countBuildStatus atMostOneStatusInc
  split
  · exact ⟨rfl, Or.inr (Or.inl ⟨rfl, rfl, rfl, rfl⟩)⟩
  split
  · exact ⟨rfl, Or.inr (Or.inr (Or.inl ⟨rfl, rfl, rfl, rfl⟩))⟩
  split
  · exact ⟨rfl, Or.inr (Or.inr (Or.inr (Or.inl ⟨rfl, rfl, rfl, rfl⟩)))⟩
  split
  · exact ⟨rfl, Or.inr (Or.inr (Or.inr (Or.inr ⟨rfl, rfl, rfl, rfl⟩)))⟩
  · exact ⟨rfl, Or.inl ⟨rfl, rfl, rfl, rfl⟩⟩

/-- The method `buildFinishedMetrics` increments the finished counter once, whatever
attributes are missing, and at most one of the four status counters. -/
theorem PrometheusEmitter.buildFinishedMetrics_counts (emitter : PrometheusEmitter)
    (event : Event) :
    (emitter.buildFinishedMetrics event).emitter.buildsFinished = emitter.buildsFinished.Inc ∧
    atMostOneStatusInc emitter (emitter.buildFinishedMetrics event).emitter := by
  have hnone : ∀ e : PrometheusEmitter, e.buildsAborted = emitter.buildsAborted →
      e.buildsSucceeded = emitter.buildsSucceeded → e.buildsFailed = emitter.buildsFailed →
      e.buildsErrored = emitter.buildsErrored → atMostOneStatusInc emitter e :=
    fun e h1 h2 h3 h4 => Or.inl ⟨h1, h2, h3, h4⟩
  unfold PrometheusEmitter.buildFinishedMetrics
  split
  · exact ⟨rfl, hnone _ rfl rfl rfl rfl⟩
  split
  · exact ⟨rfl, hnone _ rfl rfl rfl rfl⟩
  split
  · exact ⟨rfl, hnone _ rfl rfl rfl rfl⟩
  split
  · exact ⟨rfl, hnone _ rfl rfl rfl rfl⟩
  dsimp only
  split
  · exact ⟨rfl, hnone _ rfl rfl rfl rfl⟩
  · rename_i buildStatus _ _
    exact PrometheusEmitter.countBuildStatus_counts _ buildStatus

/-- The call `counter.Add(v)` leaves the build counters alone when writing the counter
back does. -/
theorem PrometheusEmitter.addTo_buildCounters (emitter : PrometheusEmitter) (c : Counter)
    (v : Float) (put : Counter → PrometheusEmitter)
    (h : ∀ c1, (put c1).buildCounters = emitter.buildCounters) :
    (emitter.addTo c v put).emitter.buildCounters = emitter.buildCounters := by
  unfold PrometheusEmitter.addTo
  split
  · exact h _
  · rfl

/-- The method `errorLogsMetric` leaves the build counters alone. -/
theorem PrometheusEmitter.errorLogsMetric_buildCounters (emitter : PrometheusEmitter)
    (event : Event) :
    (emitter.errorLogsMetric event).emitter.buildCounters = emitter.buildCounters := by
  unfold PrometheusEmitter.errorLogsMetric
  repeat (first | rfl | split)

/-- The method `lock` leaves the build counters alone. -/
theorem PrometheusEmitter.lock_buildCounters (emitter : PrometheusEmitter)
    (event : Event) :
    (emitter.lock event).emitter.buildCounters = emitter.buildCounters := by
  unfold PrometheusEmitter.lock
  repeat (first | rfl | split)

/-- The method `checkBuildFinishedMetrics` leaves the build counters alone. -/
theorem PrometheusEmitter.checkBuildFinishedMetrics_buildCounters (emitter : PrometheusEmitter)
    (event : Event) :
    (emitter.checkBuildFinishedMetrics event).emitter.buildCounters = emitter.buildCounters := by
  unfold PrometheusEmitter.checkBuildFinishedMetrics
  repeat (first | rfl | split)

/-- The method `workerContainersMetric` leaves the build counters alone. -/
theorem PrometheusEmitter.workerContainersMetric_buildCounters (emitter : PrometheusEmitter)
    (event : Event) :
    (emitter.workerContainersMetric event).emitter.buildCounters = emitter.buildCounters := by
  unfold PrometheusEmitter.workerContainersMetric
  repeat (first | rfl | split)

/-- The method `workerVolumesMetric` leaves the build counters alone. -/
theorem PrometheusEmitter.workerVolumesMetric_buildCounters (emitter : PrometheusEmitter)
    (event : Event) :
    (emitter.workerVolumesMetric event).emitter.buildCounters = emitter.buildCounters := by
  unfold PrometheusEmitter.workerVolumesMetric
  repeat (first | rfl | split)

/-- The method `workerUnknownContainersMetric` leaves the build counters alone. -/
theorem PrometheusEmitter.workerUnknownContainersMetric_buildCounters (emitter : PrometheusEmitter)
    (event : Event) :
    (emitter.workerUnknownContainersMetric event).emitter.buildCounters = emitter.buildCounters := by
  unfold PrometheusEmitter.workerUnknownContainersMetric
  repeat (first | rfl | split)

/-- The method `workerUnknownVolumesMetric` leaves the build counters alone. -/
theorem PrometheusEmitter.workerUnknownVolumesMetric_buildCounters (emitter : PrometheusEmitter)
    (event : Event) :
    (emitter.workerUnknownVolumesMetric event).emitter.buildCounters = emitter.buildCounters := by
  unfold PrometheusEmitter.workerUnknownVolumesMetric
  repeat (first | rfl | split)

/-- The method `workerTasksMetric` leaves the build counters alone. -/
theorem PrometheusEmitter.workerTasksMetric_buildCounters (emitter : PrometheusEmitter)
    (event : Event) :
    (emitter.workerTasksMetric event).emitter.buildCounters = emitter.buildCounters := by
  unfold PrometheusEmitter.workerTasksMetric
  repeat (first | rfl | split)

/-- The method `workersRegisteredMetric` leaves the build counters alone. -/
theorem PrometheusEmitter.workersRegisteredMetric_buildCounters (emitter : PrometheusEmitter)
    (event : Event) :
    (emitter.workersRegisteredMetric event).emitter.buildCounters = emitter.buildCounters := by
  unfold PrometheusEmitter.workersRegisteredMetric
  repeat (first | rfl | split)

/-- The method `httpResponseTimeMetrics` leaves the build counters alone. -/
theorem PrometheusEmitter.httpResponseTimeMetrics_buildCounters (emitter : PrometheusEmitter)
    (event : Event) :
    (emitter.httpResponseTimeMetrics event).emitter.buildCounters = emitter.buildCounters := by
  unfold PrometheusEmitter.httpResponseTimeMetrics
  repeat (first | rfl | split)

/-- The method `databaseMetrics` leaves the build counters alone. -/
theorem PrometheusEmitter.databaseMetrics_buildCounters (emitter : PrometheusEmitter)
    (event : Event) :
    (emitter.databaseMetrics event).emitter.buildCounters = emitter.buildCounters := by
  unfold PrometheusEmitter.databaseMetrics
  split
  · exact PrometheusEmitter.addTo_buildCounters _ _ _ _ (fun _ => rfl)
  · repeat (first | rfl | split)

/-- Only the `build finished` case of the `switch` of `Emit` touches the build
counters. -/
theorem PrometheusEmitter.dispatch_buildCounters (emitter : PrometheusEmitter)
    (event : Event) (hother : event.Name ≠ "build finished") :
    (emitter.dispatch event).emitter.buildCounters = emitter.buildCounters := by
  unfold PrometheusEmitter.dispatch
  by_cases h1 : event.Name = "error log"
  · rw [if_pos h1]
    first | done | exact PrometheusEmitter.errorLogsMetric_buildCounters _ _
  rw [if_neg h1]
  by_cases h2 : event.Name = "lock held"
  · rw [if_pos h2]
    first | done | exact PrometheusEmitter.lock_buildCounters _ _
  rw [if_neg h2]
  by_cases h3 : event.Name = "jobs scheduled"
  · rw [if_pos h3]
    first | done | exact PrometheusEmitter.addTo_buildCounters _ _ _ _ (fun _ => rfl)
  rw [if_neg h3]
  by_cases h4 : event.Name = "jobs scheduling"
  · rw [if_pos h4]
    first | done | rfl
  rw [if_neg h4]
  by_cases h5 : event.Name = "builds started"
  · rw [if_pos h5]
    first | done | exact PrometheusEmitter.addTo_buildCounters _ _ _ _ (fun _ => rfl)
  rw [if_neg h5]
  by_cases h6 : event.Name = "builds running"
  · rw [if_pos h6]
    first | done | rfl
  rw [if_neg h6]
  by_cases h7 : event.Name = "check builds started"
  · rw [if_pos h7]
    first | done | exact PrometheusEmitter.addTo_buildCounters _ _ _ _ (fun _ => rfl)
  rw [if_neg h7]
  by_cases h8 : event.Name = "check builds running"
  · rw [if_pos h8]
    first | done | rfl
  rw [if_neg h8]
  by_cases h9 : event.Name = "concurrent requests limit hit"
  · rw [if_pos h9]
    first | done | rfl
  rw [if_neg h9]
  by_cases h10 : event.Name = "concurrent requests"
  · rw [if_pos h10]
    first | done | rfl
  rw [if_neg h10]
  by_cases h11 : event.Name = "steps waiting"
  · rw [if_pos h11]
    first | done | rfl
  rw [if_neg h11]
  by_cases h12 : event.Name = "steps waiting duration"
  · rw [if_pos h12]
    first | done | rfl
  rw [if_neg h12]
  by_cases h13 : event.Name = "build finished"
  · rw [if_pos h13]
    first | done | exact absurd h13 hother
  rw [if_neg h13]
  by_cases h14 : event.Name = "check build finished"
  · rw [if_pos h14]
    first | done | exact PrometheusEmitter.checkBuildFinishedMetrics_buildCounters _ _
  rw [if_neg h14]
  by_cases h15 : event.Name = "worker containers"
  · rw [if_pos h15]
    first | done | exact PrometheusEmitter.workerContainersMetric_buildCounters _ _
  rw [if_neg h15]
  by_cases h16 : event.Name = "worker volumes"
  · rw [if_pos h16]
    first | done | exact PrometheusEmitter.workerVolumesMetric_buildCounters _ _
  rw [if_neg h16]
  by_cases h17 : event.Name = "worker unknown containers"
  · rw [if_pos h17]
    first | done | exact PrometheusEmitter.workerUnknownContainersMetric_buildCounters _ _
  rw [if_neg h17]
  by_cases h18 : event.Name = "worker unknown volumes"
  · rw [if_pos h18]
    first | done | exact PrometheusEmitter.workerUnknownVolumesMetric_buildCounters _ _
  rw [if_neg h18]
  by_cases h19 : event.Name = "worker tasks"
  · rw [if_pos h19]
    first | done | exact PrometheusEmitter.workerTasksMetric_buildCounters _ _
  rw [if_neg h19]
  by_cases h20 : event.Name = "worker state"
  · rw [if_pos h20]
    first | done | exact PrometheusEmitter.workersRegisteredMetric_buildCounters _ _
  rw [if_neg h20]
  by_cases h21 : event.Name = "http response time"
  · rw [if_pos h21]
    first | done | exact PrometheusEmitter.httpResponseTimeMetrics_buildCounters _ _
  rw [if_neg h21]
  by_cases h22 : event.Name = "database queries"
  · rw [if_pos h22]
    first | done | exact PrometheusEmitter.databaseMetrics_buildCounters _ _
  rw [if_neg h22]
  by_cases h23 : event.Name = "database connections"
  · rw [if_pos h23]
    first | done | exact PrometheusEmitter.databaseMetrics_buildCounters _ _
  rw [if_neg h23]
  by_cases h24 : event.Name = "checks finished"
  · rw [if_pos h24]
    first | done | rfl
  rw [if_neg h24]
  by_cases h25 : event.Name = "checks started"
  · rw [if_pos h25]
    first | done | exact PrometheusEmitter.addTo_buildCounters _ _ _ _ (fun _ => rfl)
  rw [if_neg h25]
  by_cases h26 : event.Name = "checks enqueued"
  · rw [if_pos h26]
    first | done | exact PrometheusEmitter.addTo_buildCounters _ _ _ _ (fun _ => rfl)
  rw [if_neg h26]
  by_cases h27 : event.Name = "volumes streamed"
  · rw [if_pos h27]
    first | done | exact PrometheusEmitter.addTo_buildCounters _ _ _ _ (fun _ => rfl)
  rw [if_neg h27]
  rfl

/-- The method `updateLastSeen` leaves the build counters alone. -/
theorem PrometheusEmitter.updateLastSeen_buildCounters (emitter : PrometheusEmitter)
    (now : Time) (event : Event) :
    (emitter.updateLastSeen now event).buildCounters = emitter.buildCounters := by
  unfold PrometheusEmitter.updateLastSeen
  split <;> rfl

/-- An event other than `build finished` leaves the build counters alone. -/
theorem PrometheusEmitter.Emit_other_buildCounters (emitter : PrometheusEmitter) (now : Time)
    (event : Event) (hother : event.Name ≠ "build finished") :
    (emitter.Emit now event).emitter.buildCounters = emitter.buildCounters := by
  unfold PrometheusEmitter.Emit
  rw [PrometheusEmitter.dispatch_buildCounters _ _ hother,
    PrometheusEmitter.updateLastSeen_buildCounters]

/-- A `build finished` event increments the finished counter once and at most one of
the four status counters. -/
theorem PrometheusEmitter.Emit_build_finished_counts (emitter : PrometheusEmitter)
    (now : Time) (event : Event) (h : event.Name = "build finished") :
    (emitter.Emit now event).emitter.buildsFinished = emitter.buildsFinished.Inc ∧
    atMostOneStatusInc emitter (emitter.Emit now event).emitter := by
  unfold PrometheusEmitter.Emit
  rw [PrometheusEmitter.dispatch_build_finished _ _ h]
  have hc := PrometheusEmitter.buildFinishedMetrics_counts (emitter.updateLastSeen now event)
    event
  have hu := PrometheusEmitter.updateLastSeen_buildCounters emitter now event
  simp only [PrometheusEmitter.buildCounters, Prod.mk.injEq] at hu
  obtain ⟨h0, h1, h2, h3, h4⟩ := hu
  refine ⟨by rw [hc.1, h0], ?_⟩
  have ha := hc.2
  unfold atMostOneStatusInc at ha ⊢
  rw [h1, h2, h3, h4] at ha
  exact ha

/-- An increment raises the integer count of a counter by at most one. -/
theorem Counter.Inc_valInt_le (c : Counter) : c.Inc.valInt ≤ c.valInt + 1 :=
  Nat.mod_le _ _

/-- When at most one status counter was incremented, the status total grew by at
most one. -/
theorem statusTotal_le_of_atMostOneStatusInc (before after : PrometheusEmitter)
    (h : atMostOneStatusInc before after) : after.statusTotal ≤ before.statusTotal + 1 := by
  unfold PrometheusEmitter.statusTotal
  have a := Counter.Inc_valInt_le before.buildsAborted
  have b := Counter.Inc_valInt_le before.buildsSucceeded
  have c := Counter.Inc_valInt_le before.buildsFailed
  have d := Counter.Inc_valInt_le before.buildsErrored
  rcases h with ⟨h1, h2, h3, h4⟩ | ⟨h1, h2, h3, h4⟩ | ⟨h1, h2, h3, h4⟩ | ⟨h1, h2, h3, h4⟩ |
    ⟨h1, h2, h3, h4⟩ <;> rw [h1, h2, h3, h4] <;> omega

/-- One event keeps the status total at or below the finished count, as long as the
finished count does not wrap around. -/
theorem PrometheusEmitter.Emit_keeps_invariant (emitter : PrometheusEmitter) (now : Time)
    (event : Event) (k : Nat) (hk : k + 1 < 2 ^ 64)
    (hinv : emitter.statusTotal ≤ emitter.buildsFinished.valInt ∧
      emitter.buildsFinished.valInt ≤ k) :
    (emitter.Emit now event).emitter.statusTotal
        ≤ (emitter.Emit now event).emitter.buildsFinished.valInt ∧
    (emitter.Emit now event).emitter.buildsFinished.valInt ≤ k + 1 := by
  by_cases h : event.Name = "build finished"
  · obtain ⟨hf, hs⟩ := PrometheusEmitter.Emit_build_finished_counts emitter now event h
    have hle := statusTotal_le_of_atMostOneStatusInc _ _ hs
    have hfin : (emitter.Emit now event).emitter.buildsFinished.valInt
        = emitter.buildsFinished.valInt + 1 := by
      rw [hf]
      show (emitter.buildsFinished.valInt + 1) % 2 ^ 64 = emitter.buildsFinished.valInt + 1
      exact Nat.mod_eq_of_lt (by omega)
    omega
  · have hb := PrometheusEmitter.Emit_other_buildCounters emitter now event h
    simp only [PrometheusEmitter.buildCounters, Prod.mk.injEq] at hb
    obtain ⟨h0, h1, h2, h3, h4⟩ := hb
    unfold PrometheusEmitter.statusTotal at hinv ⊢
    rw [h0, h1, h2, h3, h4]
    omega

/-- A run of events keeps the status total at or below the finished count, as long as
the finished count does not wrap around. -/
theorem PrometheusEmitter.emitAll_keeps_invariant (events : List (Time × Event))
    (emitter : PrometheusEmitter) (k : Nat) (hk : k + events.length < 2 ^ 64)
    (hinv : emitter.statusTotal ≤ emitter.buildsFinished.valInt ∧
      emitter.buildsFinished.valInt ≤ k) :
    (emitter.emitAll events).statusTotal ≤ (emitter.emitAll events).buildsFinished.valInt ∧
    (emitter.emitAll events).buildsFinished.valInt ≤ k + events.length := by
  induction events generalizing emitter k with
  | nil => simpa [PrometheusEmitter.emitAll] using hinv
  | cons x rest ih =>
    obtain ⟨now, event⟩ := x
    rw [List.length_cons] at hk ⊢
    have hstep := PrometheusEmitter.Emit_keeps_invariant emitter now event k (by omega) hinv
    unfold PrometheusEmitter.emitAll
    split
    · exact ⟨hstep.1, by omega⟩
    · have := ih (emitter.Emit now event).emitter (k + 1) (by omega) hstep
      exact ⟨this.1, by omega⟩

/-- One pass of `periodicMetricGC` leaves the build counters alone. -/
theorem PrometheusEmitter.periodicMetricGC_buildCounters (emitter : PrometheusEmitter)
    (now : Time) : (emitter.periodicMetricGC now).buildCounters = emitter.buildCounters := by
  unfold PrometheusEmitter.periodicMetricGC
  generalize emitter.workerLastSeen = entries
  induction entries generalizing emitter with
  | nil => rfl
  | cons x rest ih =>
    rw [List.foldl_cons, ih]
    unfold PrometheusEmitter.collectIfStale
    split <;> rfl

/-- C21: every `build finished` event increments the builds-finished counter exactly
once, also when the team, pipeline, job or build status attribute is missing, and
increments at most one of the aborted, succeeded, failed and errored counters; no
other event and no garbage collection touches these counters.  So in every state
reached from a new emitter by fewer than `2 ^ 64` events (the counts are `uint64`),
the finished count is at least the aborted, succeeded, failed and errored counts
together. -/
theorem PrometheusEmitter.finished_bounds_status_counts (emitter : PrometheusEmitter)
    (now : Time) (event : Event) (events : List (Time × Event)) :
    (event.Name = "build finished" →
      (emitter.Emit now event).emitter.buildsFinished = emitter.buildsFinished.Inc ∧
      atMostOneStatusInc emitter (emitter.Emit now event).emitter ∧
      (emitter.buildsFinished.valInt + 1 < 2 ^ 64 →
        (emitter.Emit now event).emitter.buildsFinished.valInt
          = emitter.buildsFinished.valInt + 1)) ∧
    (event.Name ≠ "build finished" →
      (emitter.Emit now event).emitter.buildCounters = emitter.buildCounters) ∧
    (emitter.periodicMetricGC now).buildCounters = emitter.buildCounters ∧
    (events.length < 2 ^ 64 →
      (NewEmitter.emitAll events).buildsAborted.valInt +
        (NewEmitter.emitAll events).buildsSucceeded.valInt +
        (NewEmitter.emitAll events).buildsFailed.valInt +
        (NewEmitter.emitAll events).buildsErrored.valInt
          ≤ (NewEmitter.emitAll events).buildsFinished.valInt) := by
  refine ⟨fun h => ?_, PrometheusEmitter.Emit_other_buildCounters emitter now event,
    PrometheusEmitter.periodicMetricGC_buildCounters emitter now, fun h => ?_⟩
  · obtain ⟨hf, hs⟩ := PrometheusEmitter.Emit_build_finished_counts emitter now event h
    refine ⟨hf, hs, fun hlt => ?_⟩
    rw [hf]
    exact Nat.mod_eq_of_lt hlt
  · have hinv := PrometheusEmitter.emitAll_keeps_invariant events NewEmitter 0 (by omega)
      ⟨Nat.le_refl _, Nat.le_refl _⟩
    exact hinv.1

/-- C21 at concrete inputs: a succeeded build, a build whose event has no attributes
and a failed build give three finished builds, one succeeded and one failed. -/
theorem PrometheusEmitter.finished_bounds_status_counts_witness :
    ((NewEmitter.Emit 100 (buildFinishedEvent [])).emitter.buildsFinished
        = NewEmitter.buildsFinished.Inc ∧
     (NewEmitter.Emit 100 (buildFinishedEvent [])).emitter.buildsFinished.valInt
        = NewEmitter.buildsFinished.valInt + 1) ∧
    (NewEmitter.emitAll [(100, buildFinishedEvent (buildAttributes "succeeded")),
        (200, buildFinishedEvent []),
        (300, buildFinishedEvent (buildAttributes "failed"))]).buildsAborted.valInt +
      (NewEmitter.emitAll [(100, buildFinishedEvent (buildAttributes "succeeded")),
        (200, buildFinishedEvent []),
        (300, buildFinishedEvent (buildAttributes "failed"))]).buildsSucceeded.valInt +
      (NewEmitter.emitAll [(100, buildFinishedEvent (buildAttributes "succeeded")),
        (200, buildFinishedEvent []),
        (300, buildFinishedEvent (buildAttributes "failed"))]).buildsFailed.valInt +
      (NewEmitter.emitAll [(100, buildFinishedEvent (buildAttributes "succeeded")),
        (200, buildFinishedEvent []),
        (300, buildFinishedEvent (buildAttributes "failed"))]).buildsErrored.valInt
      ≤ (NewEmitter.emitAll [(100, buildFinishedEvent (buildAttributes "succeeded")),
        (200, buildFinishedEvent []),
        (300, buildFinishedEvent (buildAttributes "failed"))]).buildsFinished.valInt :=
  have h := PrometheusEmitter.finished_bounds_status_counts NewEmitter 100
    (buildFinishedEvent [])
    [(100, buildFinishedEvent (buildAttributes "succeeded")), (200, buildFinishedEvent []),
      (300, buildFinishedEvent (buildAttributes "failed"))]
  have h1 := h.1 rfl
  ⟨⟨h1.1, h1.2.2 (by decide)⟩, h.2.2.2 (by decide)⟩

/-- The counts of the witness run: three finished, one succeeded, one failed. -/
theorem PrometheusEmitter.sample_build_counts :
    (NewEmitter.emitAll [(100, buildFinishedEvent (buildAttributes "succeeded")),
        (200, buildFinishedEvent []),
        (300, buildFinishedEvent (buildAttributes "failed"))]).buildsFinished.valInt = 3 ∧
    (NewEmitter.emitAll [(100, buildFinishedEvent (buildAttributes "succeeded")),
        (200, buildFinishedEvent []),
        (300, buildFinishedEvent (buildAttributes "failed"))]).buildsSucceeded.valInt = 1 ∧
    (NewEmitter.emitAll [(100, buildFinishedEvent (buildAttributes "succeeded")),
        (200, buildFinishedEvent []),
        (300, buildFinishedEvent (buildAttributes "failed"))]).buildsFailed.valInt = 1 ∧
    (NewEmitter.emitAll [(100, buildFinishedEvent (buildAttributes "succeeded")),
        (200, buildFinishedEvent []),
        (300, buildFinishedEvent (buildAttributes "failed"))]).statusTotal = 2 := by
  refine ⟨by decide, by decide, by decide, by decide⟩

/-! ## Migration 1516643303, down -/

/-- Without a `basicauth` entry the basic auth config stays a `nil` map. -/
theorem extractBasicAuth_absent (authConfig : GoMap JSONValue)
    (h : mapGet authConfig "basicauth" = none) :
    extractBasicAuth (some authConfig) = BasicAuthStep.config none := by
  simp [extractBasicAuth, h]

/-- A `basicauth` entry that is an object with a string `username` and a string
`password` gives the basic auth config of the two. -/
theorem extractBasicAuth_wellFormed (authConfig : GoMap JSONValue)
    (fields : List (String × JSONValue)) (username password : String)
    (h : mapGet authConfig "basicauth" = some (JSONValue.object fields))
    (hu : mapGet fields "username" = some (JSONValue.string username))
    (hp : mapGet fields "password" = some (JSONValue.string password)) :
    extractBasicAuth (some authConfig) = BasicAuthStep.config
      (some (mapSet (mapSet [] "basic_auth_username" username) "basic_auth_password"
        password)) := by
  simp [extractBasicAuth, h, hu, hp]

/-- A `basicauth` entry that is not an object is malformed. -/
theorem extractBasicAuth_malformed (authConfig : GoMap JSONValue) (v : JSONValue)
    (h : mapGet authConfig "basicauth" = some v) (hv : ∀ fields, v ≠ JSONValue.object fields) :
    extractBasicAuth (some authConfig) = BasicAuthStep.malformed := by
  unfold extractBasicAuth
  cases v with
  | object fields => exact absurd rfl (hv fields)
  | null => simp [h]
  | bool b => simp [h]
  | number n => simp [h]
  | string s => simp [h]
  | array items => simp [h]

/-- The loop body for a team whose basic auth block gives a config: it fails with the
error of the first collaborator that fails, and otherwise executes the `UPDATE` with
the encrypted encoding of the stripped auth config. -/
theorem downTeam_of_config (m : Migrations) (team : TeamRow) (plain : String)
    (authConfig : Option (GoMap JSONValue)) (basic : Option (GoMap String))
    (hdec : m.Decrypt team.auth team.nonce = Except.ok plain)
    (hjson : m.Unmarshal plain = Except.ok authConfig)
    (hbasic : extractBasicAuth authConfig = BasicAuthStep.config basic)
    (newAuth newBasicAuth encryptedAuth : String) (noncense : Option String)
    (hauth : m.MarshalAuth (stripProviders authConfig) = Except.ok newAuth)
    (hbasicauth : m.MarshalBasicAuth basic = Except.ok newBasicAuth)
    (henc : m.Encrypt newAuth = Except.ok (encryptedAuth, noncense))
    (hexec : m.execUpdate (UpdateArgs.mk newBasicAuth encryptedAuth noncense team.id) = none) :
    downTeam m team
      = TeamStep.updated (UpdateArgs.mk newBasicAuth encryptedAuth noncense team.id) := by
  unfold downTeam
  simp only [hdec, hjson, hbasic, hauth, hbasicauth, henc, hexec]

/-- An `UPDATE` that the loop body executes carries the team's id and the encrypted
encoding of the team's stripped auth config. -/
theorem downTeam_updated (m : Migrations) (team : TeamRow) (plain : String)
    (authConfig : Option (GoMap JSONValue))
    (hdec : m.Decrypt team.auth team.nonce = Except.ok plain)
    (hjson : m.Unmarshal plain = Except.ok authConfig) (u : UpdateArgs)
    (h : downTeam m team = TeamStep.updated u) :
    u.id = team.id ∧
    ∃ newAuth, m.MarshalAuth (stripProviders authConfig) = Except.ok newAuth ∧
      m.Encrypt newAuth = Except.ok (u.auth, u.nonce) := by
  unfold downTeam at h
  simp only [hdec, hjson] at h
  split at h
  · cases h
  · cases h
  · split at h
    · cases h
    · rename_i newAuth hauth
      split at h
      · cases h
      · split at h
        · cases h
        · rename_i encryptedAuth noncense henc
          split at h
          · cases h
          · cases h
            exact ⟨rfl, newAuth, hauth, henc⟩

/-- Every update of the loop was there before or is the update of one of the teams. -/
theorem downTeams_sound (m : Migrations) (teams : List TeamRow) (done : List UpdateArgs)
    (u : UpdateArgs) (hu : u ∈ (downTeams m teams done).updates) :
    u ∈ done ∨ ∃ team ∈ teams, downTeam m team = TeamStep.updated u := by
  induction teams generalizing done with
  | nil => exact Or.inl hu
  | cons t rest ih =>
    unfold downTeams at hu
    split at hu
    · rename_i args hstep
      rcases ih _ hu with h | ⟨team, hmem, hteam⟩
      · rcases List.mem_append.1 h with h1 | h1
        · exact Or.inl h1
        · rw [List.mem_singleton] at h1
          subst h1
          exact Or.inr ⟨t, List.mem_cons_self _ _, hstep⟩
      · exact Or.inr ⟨team, List.mem_cons_of_mem _ hmem, hteam⟩
    · exact Or.inl hu
    · exact Or.inl hu

/-- The loop keeps the updates that were there before. -/
theorem downTeams_keeps (m : Migrations) (teams : List TeamRow) (done : List UpdateArgs)
    (u : UpdateArgs) (hu : u ∈ done) : u ∈ (downTeams m teams done).updates := by
  induction teams generalizing done with
  | nil => exact hu
  | cons t rest ih =>
    unfold downTeams
    split
    · exact ih _ (List.mem_append_left _ hu)
    · exact hu
    · exact hu

/-- When the loop ends without error and without panic, every team was updated. -/
theorem downTeams_complete (m : Migrations) (teams : List TeamRow) (done : List UpdateArgs)
    (herr : (downTeams m teams done).err = none)
    (hpanic : (downTeams m teams done).panicked = false) (team : TeamRow)
    (hteam : team ∈ teams) :
    ∃ u ∈ (downTeams m teams done).updates, downTeam m team = TeamStep.updated u := by
  induction teams generalizing done with
  | nil => cases hteam
  | cons t rest ih =>
    unfold downTeams at herr hpanic ⊢
    split
    · rename_i args hstep
      rw [hstep] at herr hpanic
      simp only at herr hpanic
      rcases List.mem_cons.1 hteam with heq | hmem
      · subst heq
        exact ⟨args, downTeams_keeps m rest _ args (List.mem_append_right _
          (List.mem_singleton_self _)), hstep⟩
      · exact ih _ herr hpanic hmem
    · rename_i err hstep
      rw [hstep] at herr
      simp at herr
    · rename_i hstep
      rw [hstep] at hpanic
      simp at hpanic

/-- C22 fails: a team whose decrypted auth config is the JSON object with a `basicauth`
entry that is a string makes the migration return the error `malformed basicauth
provider`; nothing is written back for it. -/
theorem Down_1516643303_malformed_writes_nothing :
    (sampleMigrations [TeamRow.mk 1 "malformed" none]).Unmarshal "malformed"
      = Except.ok (some [("basicauth", JSONValue.string "admin:secret")]) ∧
    Down_1516643303 (sampleMigrations [TeamRow.mk 1 "malformed" none])
      = { err := some (GoError.New "malformed basicauth provider"), panicked := false,
          updates := [] } :=
  ⟨rfl, by decide⟩

/-- C22 as amended: for a team whose decrypted auth config is a JSON object, the auth
config that the migration encodes, encrypts and writes back is the team's config
without the `noauth` and the `basicauth` key, every other key with its value
unchanged: every `UPDATE` of the run is the update of one of the teams, it carries
the team's id and the encrypted encoding of that config, and it is executed when the
`basicauth` entry is absent or is an object with a string `username` and
`password` and the encoding, the encryption and the statement succeed.  When the
`basicauth` entry is there and is not a JSON object, the loop body returns the
error `malformed basicauth provider` and updates nothing. -/
theorem Down_1516643303_strips_providers (m : Migrations) (teams : List TeamRow)
    (team : TeamRow) (plain : String) (authConfig : GoMap JSONValue)
    (hquery : m.queryTeams = Except.ok teams)
    (hdec : m.Decrypt team.auth team.nonce = Except.ok plain)
    (hjson : m.Unmarshal plain = Except.ok (some authConfig)) :
    (stripProviders (some authConfig)
        = some (mapDelete (mapDelete authConfig "noauth") "basicauth") ∧
      mapGet (mapDelete (mapDelete authConfig "noauth") "basicauth") "noauth" = none ∧
      mapGet (mapDelete (mapDelete authConfig "noauth") "basicauth") "basicauth" = none ∧
      ∀ k, k ≠ "noauth" → k ≠ "basicauth" →
        mapGet (mapDelete (mapDelete authConfig "noauth") "basicauth") k
          = mapGet authConfig k) ∧
    (∀ u, downTeam m team = TeamStep.updated u →
      u.id = team.id ∧
      ∃ newAuth, m.MarshalAuth (stripProviders (some authConfig)) = Except.ok newAuth ∧
        m.Encrypt newAuth = Except.ok (u.auth, u.nonce)) ∧
    (∀ u ∈ (Down_1516643303 m).updates, ∃ t ∈ teams, downTeam m t = TeamStep.updated u) ∧
    (team ∈ teams → (Down_1516643303 m).err = none → (Down_1516643303 m).panicked = false →
      ∃ u ∈ (Down_1516643303 m).updates, downTeam m team = TeamStep.updated u) ∧
    (∀ basic newAuth newBasicAuth encryptedAuth noncense,
      ((mapGet authConfig "basicauth" = none ∧ basic = none) ∨
        ∃ fields username password,
          mapGet authConfig "basicauth" = some (JSONValue.object fields) ∧
          mapGet fields "username" = some (JSONValue.string username) ∧
          mapGet fields "password" = some (JSONValue.string password) ∧
          basic = some (mapSet (mapSet [] "basic_auth_username" username)
            "basic_auth_password" password)) →
      m.MarshalAuth (stripProviders (some authConfig)) = Except.ok newAuth →
      m.MarshalBasicAuth basic = Except.ok newBasicAuth →
      m.Encrypt newAuth = Except.ok (encryptedAuth, noncense) →
      m.execUpdate (UpdateArgs.mk newBasicAuth encryptedAuth noncense team.id) = none →
      downTeam m team
        = TeamStep.updated (UpdateArgs.mk newBasicAuth encryptedAuth noncense team.id)) ∧
    (∀ v, mapGet authConfig "basicauth" = some v → (∀ fields, v ≠ JSONValue.object fields) →
      downTeam m team = TeamStep.failed (GoError.New "malformed basicauth provider")) := by
  refine ⟨⟨rfl, ?_, mapGet_mapDelete_self _ _, ?_⟩, ?_, ?_, ?_, ?_, ?_⟩
  · rw [mapGet_mapDelete_ne _ _ _ (by decide)]
    exact mapGet_mapDelete_self _ _
  · intro k h1 h2
    rw [mapGet_mapDelete_ne _ _ _ h2, mapGet_mapDelete_ne _ _ _ h1]
  · intro u hu
    exact downTeam_updated m team plain (some authConfig) hdec hjson u hu
  · intro u hu
    unfold Down_1516643303 at hu
    rw [hquery] at hu
    simp only at hu
    split at hu
    · cases hu
    · rcases downTeams_sound m teams [] u hu with h | h
      · cases h
      · exact h
  · intro hteam herr hpanic
    unfold Down_1516643303 at herr hpanic ⊢
    rw [hquery] at herr hpanic ⊢
    simp only at herr hpanic ⊢
    split at herr
    · simp at herr
    · rename_i halter
      simp only [halter] at hpanic ⊢
      exact downTeams_complete m teams [] herr hpanic team hteam
  · intro basic newAuth newBasicAuth encryptedAuth noncense hb hauth hbasicauth henc hexec
    have hbasic : extractBasicAuth (some authConfig) = BasicAuthStep.config basic := by
      rcases hb with ⟨h, rfl⟩ | ⟨fields, username, password, h, hu, hp, rfl⟩
      · exact extractBasicAuth_absent authConfig h
      · exact extractBasicAuth_wellFormed authConfig fields username password h hu hp
    exact downTeam_of_config m team plain (some authConfig) basic hdec hjson hbasic newAuth
      newBasicAuth encryptedAuth noncense hauth hbasicauth henc hexec
  · intro v hv hnot
    unfold downTeam
    simp only [hdec, hjson, extractBasicAuth_malformed authConfig v hv hnot]

/-- C22 as amended, at a concrete input: of two teams, the first with a github, a
noauth and a basicauth provider, the migration writes back the github provider
only and moves the basic auth credentials to the new column. -/
theorem Down_1516643303_strips_providers_witness :
    (mapGet (mapDelete (mapDelete sampleAuthConfig "noauth") "basicauth") "noauth" = none ∧
     mapGet (mapDelete (mapDelete sampleAuthConfig "noauth") "basicauth") "basicauth" = none ∧
     mapGet (mapDelete (mapDelete sampleAuthConfig "noauth") "basicauth") "github"
        = mapGet sampleAuthConfig "github") ∧
    downTeam (sampleMigrations [TeamRow.mk 1 "github+basic" none, TeamRow.mk 2 "github" none])
        (TeamRow.mk 1 "github+basic" none)
      = TeamStep.updated (UpdateArgs.mk "basic_auth_password=secret,basic_auth_username=admin"
          "github" none 1) ∧
    (∃ u ∈ (Down_1516643303 (sampleMigrations [TeamRow.mk 1 "github+basic" none,
          TeamRow.mk 2 "github" none])).updates,
      downTeam (sampleMigrations [TeamRow.mk 1 "github+basic" none, TeamRow.mk 2 "github" none])
        (TeamRow.mk 1 "github+basic" none) = TeamStep.updated u) :=
  have h := Down_1516643303_strips_providers
    (sampleMigrations [TeamRow.mk 1 "github+basic" none, TeamRow.mk 2 "github" none])
    [TeamRow.mk 1 "github+basic" none, TeamRow.mk 2 "github" none]
    (TeamRow.mk 1 "github+basic" none) "github+basic" sampleAuthConfig rfl rfl rfl
  ⟨⟨h.1.2.1, h.1.2.2.1, h.1.2.2.2 "github" (by decide) (by decide)⟩,
   h.2.2.2.2.1 _ "github" "basic_auth_password=secret,basic_auth_username=admin" "github" none
     (Or.inr ⟨[("username", JSONValue.string "admin"), ("password", JSONValue.string "secret")],
       "admin", "secret", rfl, rfl, rfl, rfl⟩) rfl rfl rfl rfl,
   h.2.2.2.1 (by decide) (by decide) (by decide)⟩

end Concourse
